import Mathlib

/-!
# `__array_function__` override dispatch (numpy/core/src/multiarray/arrayfunction_override.c)

A shallow embedding of the candidate collector and the dispatch loop of
`arrayfunction_override.c`, followed by theorems about them.

Conventions of the embedding

* A `PyObject *` is a `PyValue`.  Objects the code never looks into are known by
  their address (`PyValue.obj`); tuples and dicts that the code builds or takes
  apart are kept structurally.
* Type objects and method objects are always referred to by address (`Nat`).
* A `NULL` return with an exception pending is `Except.error`; a `NULL` return
  without one is `none`.
* Calls into Python code go through an interpreter `Interp σ` whose answers may
  depend on, and change, a state `σ`; every call made is appended to a trace.
* The fixed-size C arrays `implementing_args` and `methods` are functions
  `Nat → _` (memory indexed from the start of the array); a write changes the
  function at one index.
* Reference counting and allocation failure (`PyTuple_New`, `PyDict_New`
  returning `NULL`) are not modelled.
-/

namespace ArrayFunctionOverride

/-! ## Data model -/

/-- A Python object as far as the dispatch code looks into it. -/
inductive PyValue where
  /-- an object known only by its address -/
  | obj (addr : Nat)
  /-- an exact tuple together with its items -/
  | tuple (items : List PyValue)
  /-- an exact list together with its items -/
  | list (items : List PyValue)
  /-- an exact dict together with its entries, in insertion order -/
  | dict (entries : List (PyValue × PyValue))
  /-- the singleton `Py_NotImplemented` -/
  | NotImplemented

/-- The exception left pending by a failing call. -/
inductive PyErr where
  /-- raised with `PyErr_Format(PyExc_TypeError, ...)`, message already formatted -/
  | TypeError (msg : String)
  /-- raised with `PyErr_SetObject(PyExc_TypeError, value)` -/
  | TypeErrorObject (value : PyValue)
  /-- raised with `PyErr_Format(PyExc_TypeError, fmt, arg)`, where `fmt` has one `%S` -/
  | TypeErrorFormat (fmt : String) (arg : PyValue)
  /-- raised with `PyErr_SetString(PyExc_RuntimeError, ...)` -/
  | RuntimeError (msg : String)
  /-- the `KeyError` that `PyDict_DelItem` raises for a key that is not in the dict -/
  | KeyError (key : PyValue)
  /-- any exception raised by code outside this file, known by address -/
  | raised (exc : Nat)

/-- What `PyArray_LookupSpecial(obj, npy_ma_str_array_function)` can come back with. -/
inductive Lookup where
  /-- the attribute exists -/
  | found (method : Nat)
  /-- `NULL`, nothing pending: the attribute does not exist -/
  | absent
  /-- `NULL` with an exception pending: attribute resolution raised -/
  | failed (e : PyErr)

/-- The facts about the object graph that candidate collection queries.
`NPY_MAXARGS` is declared outside the two source files and is a parameter. -/
structure Heap where
  /-- the capacity of the two candidate buffers -/
  NPY_MAXARGS : Nat
  /-- address of `PyArray_Type` -/
  PyArray_Type : Nat
  /-- address of the object returned by `get_ndarray_array_function()` -/
  ndarray_array_function : Nat
  /-- the macro `Py_TYPE(obj)`: the exact runtime type, by address -/
  Py_TYPE : PyValue → Nat
  /-- the function `PyArray_LookupSpecial(obj, npy_ma_str_array_function)` -/
  PyArray_LookupSpecial : PyValue → Lookup
  /-- the C return value of `PyObject_IsInstance(obj, type)`: 1, 0 or -1 -/
  PyObject_IsInstance : PyValue → Nat → Int

/-! ## Override lookup -/

/-- Source: `get_ndarray_array_function`. -/
def get_ndarray_array_function (h : Heap) : Nat :=
  h.ndarray_array_function

/-- Source macro `PyArray_CheckExact(obj)`: `Py_TYPE(obj) == &PyArray_Type`. -/
def PyArray_CheckExact (h : Heap) (obj : PyValue) : Bool :=
  h.Py_TYPE obj == h.PyArray_Type

/-- Source: `get_array_function`.  `.ok (some m)` is a method, `.ok none` is `NULL`
with nothing pending, `.error e` would be `NULL` with `e` pending. -/
def get_array_function (h : Heap) (obj : PyValue) : Except PyErr (Option Nat) :=
  if PyArray_CheckExact h obj then
    .ok (some (get_ndarray_array_function h))
  else
    match h.PyArray_LookupSpecial obj with
    | .found array_function => .ok (some array_function)
    | .absent => .ok none
    | .failed _ => .ok none   -- PyErr_Clear()

/-- Source: `is_default_array_function`.  The argument is compared by address with
the cached `ndarray.__array_function__`; a tuple or dict built by this file is
never that object. -/
def is_default_array_function (h : Heap) (obj : PyValue) : Bool :=
  match obj with
  | .obj addr => addr == get_ndarray_array_function h
  | _ => false

/-! ## Candidate collection -/

/-- The C assignment `array[i] = v`. -/
def arr_set {α : Type} (array : Nat → α) (i : Nat) (v : α) : Nat → α :=
  fun k => if k = i then v else array k

/-- The loop of `pyobject_array_insert`, entered with loop variable `j`:
`for (; j > index; j--) array[j] = array[j - 1];`. -/
def pyobject_array_insert_loop {α : Type} (index : Nat) : Nat → (Nat → α) → (Nat → α)
  | 0, array => array
  | j + 1, array =>
    if j + 1 > index then
      pyobject_array_insert_loop index j (arr_set array (j + 1) (array j))
    else array

/-- Source: `pyobject_array_insert`. -/
def pyobject_array_insert {α : Type} (array : Nat → α) (length index : Nat) (item : α) :
    Nat → α :=
  arr_set (pyobject_array_insert_loop index length array) index item

/-- The local state of `get_implementing_args_and_methods`. -/
structure Collected where
  /-- the counter `num_implementing_args` -/
  num_implementing_args : Nat
  /-- the buffer `implementing_args` -/
  implementing_args : Nat → PyValue
  /-- the buffer `methods` -/
  methods : Nat → Nat

/-- The "have we seen this type before?" loop of `get_implementing_args_and_methods`:
the value of `new_class` after it. -/
def new_class (h : Heap) (implementing_args : Nat → PyValue) (num_implementing_args : Nat)
    (argument : PyValue) : Bool :=
  !(List.range num_implementing_args).any
    (fun j => h.Py_TYPE argument == h.Py_TYPE (implementing_args j))

/-- The "subclasses before superclasses, otherwise left to right" loop of
`get_implementing_args_and_methods`: the value of `arg_index` after it.  The source tests
`if (PyObject_IsInstance(argument, other_type))`, so the error value -1 ends the loop as 1
does; the exception that such a failing check leaves pending is not recorded in
`Collected`, see `arg_index_isinstance_failed`. -/
def arg_index (h : Heap) (implementing_args : Nat → PyValue) (num_implementing_args : Nat)
    (argument : PyValue) : Nat :=
  ((List.range num_implementing_args).find?
    (fun j => h.PyObject_IsInstance argument (h.Py_TYPE (implementing_args j)) != 0)).getD
      num_implementing_args

/-- The message of the `TypeError` raised when the buffers are full. -/
def maxargs_message (h : Heap) : String :=
  "maximum number (" ++ toString h.NPY_MAXARGS ++
    ") of distinct argument types implementing __array_function__ exceeded"

/-- The outer loop of `get_implementing_args_and_methods` over the remaining items.
`.error` is the `goto fail` exit (return value -1). -/
def get_implementing_args_and_methods_loop (h : Heap) :
    List PyValue → Collected → Except PyErr Collected
  | [], s => .ok s
  | argument :: rest, s =>
    if new_class h s.implementing_args s.num_implementing_args argument then
      match get_array_function h argument with
      | .ok (some method) =>
        if s.num_implementing_args ≥ h.NPY_MAXARGS then
          .error (.TypeError (maxargs_message h))
        else
          let i := arg_index h s.implementing_args s.num_implementing_args argument
          get_implementing_args_and_methods_loop h rest
            { num_implementing_args := s.num_implementing_args + 1
              implementing_args :=
                pyobject_array_insert s.implementing_args s.num_implementing_args i argument
              methods := pyobject_array_insert s.methods s.num_implementing_args i method }
      | _ => get_implementing_args_and_methods_loop h rest s
    else
      get_implementing_args_and_methods_loop h rest s

/-- Source: `get_implementing_args_and_methods`.  `relevant_args` are the items of the
fast sequence; `implementing_args` and `methods` are the caller's buffers as they
are on entry. -/
def get_implementing_args_and_methods (h : Heap) (relevant_args : List PyValue)
    (implementing_args : Nat → PyValue) (methods : Nat → Nat) : Except PyErr Collected :=
  get_implementing_args_and_methods_loop h relevant_args
    { num_implementing_args := 0, implementing_args := implementing_args, methods := methods }

/-- The first `num_implementing_args` entries of the `implementing_args` buffer: the items
of the list that `array__get_implementing_args` builds from a successful run. -/
def Collected.args (c : Collected) : List PyValue :=
  (List.range c.num_implementing_args).map c.implementing_args

/-- The first `num_implementing_args` entries of the `methods` buffer. -/
def Collected.meths (c : Collected) : List Nat :=
  (List.range c.num_implementing_args).map c.methods


/-! ## Calls into Python code -/

/-- The result of a C API call that returns `PyObject *`: an object, or `NULL` with an
exception pending. -/
abbrev PyResult := Except PyErr PyValue

/-- A call into Python code made by this file. -/
inductive Call where
  /-- the call `PyObject_Vectorcall(callable, args, nargsf, kwnames)`; `args` is the whole C
  array (positional arguments, then keyword values), `nargs` is `PyVectorcall_NARGS(nargsf)` -/
  | PyObject_Vectorcall (callable : PyValue) (args : List PyValue) (nargs : Nat)
      (kwnames : Option PyValue)
  /-- the call `PyObject_Call(callable, args, kwargs)` -/
  | PyObject_Call (callable args kwargs : PyValue)
  /-- the call `PyObject_CallFunctionObjArgs(callable, args..., NULL)` -/
  | PyObject_CallFunctionObjArgs (callable : PyValue) (args : List PyValue)
  /-- the call `PyImport_Import(name)` -/
  | PyImport_Import (name : PyValue)
  /-- the call `PyObject_GetAttrString(o, attr_name)` on a module -/
  | PyObject_GetAttrString (o : PyValue) (attr_name : String)

/-- What `PySequence_Fast` finds when its argument is not already a list or a tuple. -/
inductive SeqResult where
  /-- the argument could be iterated and gave these items -/
  | items (l : List PyValue)
  /-- the argument is not iterable: `PySequence_Fast` raises `TypeError` with its message -/
  | notIterable
  /-- iterating raised -/
  | failed (e : PyErr)

/-- The Python interpreter as this file uses it, over a state `σ` that calls may change. -/
structure Interp (σ : Type) where
  /-- the outcome of a call into Python code and the state it leaves -/
  call : σ → Call → PyResult × σ
  /-- realising a non-tuple as a sequence, and the state that leaves -/
  iterate : σ → PyValue → SeqResult × σ
  /-- the call `PyObject_IsSubclass(derived, cls)` with `cls` a type address; `.error` is
  the return value -1 -/
  PyObject_IsSubclass : PyValue → Nat → Except PyErr Bool
  /-- the call `PyObject_GetAttr(func, npy_ma_str_implementation)` -/
  getattr_implementation : PyValue → PyResult
  /-- the call `PyObject_GetAttrString(self, "_pack__array_function__")` -/
  getattr_pack : PyValue → PyResult
  /-- what `npy_cache_import("numpy.core._internal", "array_function_errmsg_formatter", ..)`
  leaves in the cache: the formatter, or `NULL` with the import error pending -/
  errmsg_formatter : PyResult

/-- The state threaded through the dispatch code. -/
structure World (σ : Type) where
  /-- the interpreter state -/
  state : σ
  /-- the calls into Python code made so far, oldest first -/
  trace : List Call
  /-- the function-local `static PyObject *argpacker` of `dispatcher_vectorcall` -/
  argpacker : Option PyValue

/-- Make a call into Python code and record it. -/
def invoke {σ : Type} (rt : Interp σ) (c : Call) (w : World σ) : PyResult × World σ :=
  let r := rt.call w.state c
  (r.1, { w with state := r.2, trace := w.trace ++ [c] })

/-- The function `PySequence_Fast(o, msg)`: a tuple or a list is returned as it is, anything
else is iterated. -/
def PySequence_Fast {σ : Type} (rt : Interp σ) (o : PyValue) (msg : String) (w : World σ) :
    Except PyErr (List PyValue) × World σ :=
  match o with
  | .tuple items => (.ok items, w)
  | .list items => (.ok items, w)
  | _ =>
    let r := rt.iterate w.state o
    match r.1 with
    | .items l => (.ok l, { w with state := r.2 })
    | .notIterable => (.error (.TypeError msg), { w with state := r.2 })
    | .failed e => (.error e, { w with state := r.2 })

/-- The macro `PySequence_Fast_ITEMS(o)` together with `PySequence_Fast_GET_SIZE(o)`.  The
macros are for a tuple or a list `o`, as `PySequence_Fast` returns; on anything else they
have no meaning, and this definition gives no items. -/
def PySequence_Fast_ITEMS (o : PyValue) : List PyValue :=
  match o with
  | .tuple items => items
  | .list items => items
  | _ => []

/-! ## The dispatch loop -/

/-- The loop of `array_function_method_impl` over the remaining `items` of `types`:
`.error` is the exit `return NULL`, `.ok false` the exit `return Py_NotImplemented`,
`.ok true` the end of the loop. -/
def array_function_method_impl_loop {σ : Type} (rt : Interp σ) (h : Heap) :
    List PyValue → Except PyErr Bool
  | [] => .ok true
  | item :: rest =>
    match rt.PyObject_IsSubclass item h.PyArray_Type with
    | .error e => .error e
    | .ok false => .ok false
    | .ok true => array_function_method_impl_loop rt h rest

/-- Source: `array_function_method_impl`. -/
def array_function_method_impl {σ : Type} (rt : Interp σ) (h : Heap)
    (func types args kwargs : PyValue) (w : World σ) : PyResult × World σ :=
  match array_function_method_impl_loop rt h (PySequence_Fast_ITEMS types) with
  | .error e => (.error e, w)
  | .ok false => (.ok .NotImplemented, w)
  | .ok true =>
    match rt.getattr_implementation func with
    | .error e => (.error e, w)
    | .ok implementation => invoke rt (.PyObject_Call implementation args kwargs) w

/-- Source: `call_array_function`. -/
def call_array_function {σ : Type} (rt : Interp σ) (h : Heap)
    (argument method public_api types args kwargs : PyValue) (w : World σ) :
    PyResult × World σ :=
  if is_default_array_function h method then
    array_function_method_impl rt h public_api types args kwargs w
  else
    invoke rt (.PyObject_CallFunctionObjArgs method [argument, public_api, types, args, kwargs]) w

/-- The "any overrides?" loop shared by `array_implement_array_function_internal` and
`dispatcher_vectorcall`: the value of `any_overrides` after it. -/
def any_overrides (h : Heap) (array_function_methods : Nat → Nat)
    (num_implementing_args : Nat) : Bool :=
  (List.range num_implementing_args).any
    (fun j => !is_default_array_function h (.obj (array_function_methods j)))

/-- The tuple `types` built from the first `num_implementing_args` entries of
`implementing_args`. -/
def build_types (h : Heap) (implementing_args : Nat → PyValue) (num_implementing_args : Nat) :
    PyValue :=
  .tuple ((List.range num_implementing_args).map
    (fun j => .obj (h.Py_TYPE (implementing_args j))))

/-- The "call `__array_function__` methods" loop of
`array_implement_array_function_internal` over the remaining indices `j`: `some result` is
the exit `goto cleanup` with that result, `none` is the end of the loop. -/
def internal_call_loop {σ : Type} (rt : Interp σ) (h : Heap)
    (public_api types args kwargs : PyValue) (implementing_args : Nat → PyValue)
    (array_function_methods : Nat → Nat) : List Nat → World σ → Option PyResult × World σ
  | [], w => (none, w)
  | j :: rest, w =>
    let argument := implementing_args j
    let method := array_function_methods j
    let r := call_array_function rt h argument (.obj method) public_api types args kwargs w
    match r.1 with
    | .ok .NotImplemented =>
      internal_call_loop rt h public_api types args kwargs implementing_args
        array_function_methods rest r.2
    | result => (some result, r.2)

/-- The "no acceptable override found, raise TypeError" part shared by
`array_implement_array_function_internal` and `dispatcher_vectorcall`; `api` is the first
argument handed to the formatter.  The function result is `NULL` in every case. -/
def raise_no_override {σ : Type} (rt : Interp σ) (api types : PyValue) (w : World σ) :
    PyResult × World σ :=
  match rt.errmsg_formatter with
  | .error e => (.error e, w)
  | .ok errmsg_formatter =>
    let r := invoke rt (.PyObject_CallFunctionObjArgs errmsg_formatter [api, types]) w
    match r.1 with
    | .ok errmsg => (.error (.TypeErrorObject errmsg), r.2)
    | .error e => (.error e, r.2)

/-- Source: `array_implement_array_function_internal`.  `implementing_args` and
`array_function_methods` are the two stack arrays as they are on entry. -/
def array_implement_array_function_internal {σ : Type} (rt : Interp σ) (h : Heap)
    (public_api relevant_args args kwargs : PyValue) (implementing_args : Nat → PyValue)
    (array_function_methods : Nat → Nat) (w : World σ) : PyResult × World σ :=
  let s := PySequence_Fast rt relevant_args
    "dispatcher for __array_function__ did not return an iterable" w
  match s.1 with
  | .error e => (.error e, s.2)
  | .ok items =>
    match get_implementing_args_and_methods h items implementing_args array_function_methods with
    | .error e => (.error e, s.2)
    | .ok c =>
      if !any_overrides h c.methods c.num_implementing_args then
        (.ok .NotImplemented, s.2)
      else
        let types := build_types h c.implementing_args c.num_implementing_args
        let l := internal_call_loop rt h public_api types args kwargs c.implementing_args
          c.methods (List.range c.num_implementing_args) s.2
        match l.1 with
        | some result => (result, l.2)
        | none => raise_no_override rt public_api types l.2

/-! ## The dispatcher object -/

/-- Source: `PyArray_ArrayFunctionDispatcherObject`, without the `vectorcall` slot and the
attribute dict. -/
structure PyArray_ArrayFunctionDispatcherObject where
  /-- the object itself, `(PyObject *)self` -/
  ob_self : PyValue
  /-- the field `relevant_arg_func`; `none` is `NULL` (the `like=` mode) -/
  relevant_arg_func : Option PyValue
  /-- the field `default_impl` -/
  default_impl : PyValue

/-- The `public_api` chosen inside the loop of `dispatcher_vectorcall`. -/
def dispatcher_public_api (self : PyArray_ArrayFunctionDispatcherObject) : PyValue :=
  match self.relevant_arg_func with
  | some _ => self.ob_self
  | none => self.default_impl

/-- The "call `__array_function__` methods" loop of `dispatcher_vectorcall` over the
remaining indices `j`.  The source passes `method` first and `argument` second to
`call_array_function`, whose parameters are `(argument, method, ...)`. -/
def dispatcher_call_loop {σ : Type} (rt : Interp σ) (h : Heap)
    (self : PyArray_ArrayFunctionDispatcherObject) (types packed_args packed_kwargs : PyValue)
    (implementing_args : Nat → PyValue) (array_function_methods : Nat → Nat) :
    List Nat → World σ → Option PyResult × World σ
  | [], w => (none, w)
  | j :: rest, w =>
    let argument := implementing_args j
    let method := array_function_methods j
    if is_default_array_function h (.obj method) then
      dispatcher_call_loop rt h self types packed_args packed_kwargs implementing_args
        array_function_methods rest w
    else
      let public_api := dispatcher_public_api self
      let r := call_array_function rt h (.obj method) argument public_api types
        packed_args packed_kwargs w
      match r.1 with
      | .ok .NotImplemented =>
        dispatcher_call_loop rt h self types packed_args packed_kwargs implementing_args
          array_function_methods rest r.2
      | result => (some result, r.2)

/-- The part of `dispatcher_vectorcall` after the candidates are known, from the "any
overrides?" loop to `cleanup`.  `args`, `nargs` are the arguments as forwarded (in the
`like=` mode without the first one). -/
def dispatcher_vectorcall_dispatch {σ : Type} (rt : Interp σ) (h : Heap)
    (self : PyArray_ArrayFunctionDispatcherObject) (args : List PyValue) (nargs : Nat)
    (kwnames : Option PyValue) (implementing_args : Nat → PyValue)
    (array_function_methods : Nat → Nat) (num_implementing_args : Nat) (w : World σ) :
    PyResult × World σ :=
  if !any_overrides h array_function_methods num_implementing_args then
    invoke rt (.PyObject_Vectorcall self.default_impl args nargs kwnames) w
  else
    let cached : PyResult :=
      match w.argpacker with
      | some argpacker => .ok argpacker
      | none => rt.getattr_pack self.ob_self
    match cached with
    | .error e => (.error e, w)
    | .ok argpacker =>
      let r := invoke rt (.PyObject_Vectorcall argpacker args nargs kwnames)
        { w with argpacker := some argpacker }
      match r.1 with
      | .error e => (.error e, r.2)
      | .ok (.tuple [.tuple packed_args, .dict packed_kwargs]) =>
        let types := build_types h implementing_args num_implementing_args
        let l := dispatcher_call_loop rt h self types (.tuple packed_args) (.dict packed_kwargs)
          implementing_args array_function_methods (List.range num_implementing_args) r.2
        match l.1 with
        | some result => (result, l.2)
        | none => raise_no_override rt self.ob_self types l.2
      | .ok _ =>
        (.error (.RuntimeError
          "internal numpy array during dispatching, packing args failed."), r.2)

/-- Source: `dispatcher_vectorcall`.  `args` is the C array (positional arguments, then
keyword values), `nargs` is `PyVectorcall_NARGS(len_args)`; a well-formed call has
`nargs ≤ args.length`.  `implementing_args` and `array_function_methods` are the two stack
arrays as they are on entry. -/
def dispatcher_vectorcall {σ : Type} (rt : Interp σ) (h : Heap)
    (self : PyArray_ArrayFunctionDispatcherObject) (args : List PyValue) (nargs : Nat)
    (kwnames : Option PyValue) (implementing_args : Nat → PyValue)
    (array_function_methods : Nat → Nat) (w : World σ) : PyResult × World σ :=
  match self.relevant_arg_func with
  | some relevant_arg_func =>
    let r := invoke rt (.PyObject_Vectorcall relevant_arg_func args nargs kwnames) w
    match r.1 with
    | .error e => (.error e, r.2)
    | .ok relevant_args =>
      let s := PySequence_Fast rt relevant_args
        "dispatcher for __array_function__ did not return an iterable" r.2
      match s.1 with
      | .error e => (.error e, s.2)
      | .ok items =>
        match get_implementing_args_and_methods h items implementing_args
          array_function_methods with
        | .error e => (.error e, s.2)
        | .ok c =>
          dispatcher_vectorcall_dispatch rt h self args nargs kwnames c.implementing_args
            c.methods c.num_implementing_args s.2
  | none =>
    match nargs, args with
    | nargs + 1, like :: rest =>
      match get_array_function h like with
      | .ok (some method) =>
        dispatcher_vectorcall_dispatch rt h self rest nargs kwnames
          (arr_set implementing_args 0 like) (arr_set array_function_methods 0 method) 1 w
      | _ =>
        (.error (.TypeError ("The `like` argument must be an array-like that " ++
          "implements the `__array_function__` protocol.")), w)
    | _, _ =>
      (.error (.TypeErrorFormat ("`like` argument dispatching, but first argument is not " ++
        "positional in call to %S.") self.default_impl), w)

/-! ## Packing the arguments -/

/-- Source: `pack__array_function__`.  `kwargs = none` is `kwargs == NULL`. -/
def pack__array_function__ (args : PyValue) (kwargs : Option PyValue) : PyValue :=
  match kwargs with
  | none => .tuple [args, .dict []]
  | some kwargs => .tuple [args, kwargs]

/-- The items of a tuple: the macros `PyTuple_GET_SIZE` and `PyTuple_GET_ITEM`. -/
def PyTuple_ITEMS (o : PyValue) : List PyValue :=
  match o with
  | .tuple items => items
  | _ => []

/-- How CPython hands a vectorcall to a `METH_VARARGS | METH_KEYWORDS` function such as
`pack__array_function__`: the positional arguments as a tuple, and the keyword arguments
as a dict, or `NULL` when there is none.  This is the interpreter's calling convention,
not code of `arrayfunction_override.c`. -/
def tp_call_arguments (args : List PyValue) (nargs : Nat) (kwnames : Option PyValue) :
    PyValue × Option PyValue :=
  (.tuple (args.take nargs),
    match kwnames with
    | some (.tuple (name :: names)) => some (.dict ((name :: names).zip (args.drop nargs)))
    | _ => none)

/-! ## Array creation with `like=` -/

/-- The module-level objects and the C API queries that
`array_implement_c_array_function_creation` uses. -/
structure Module where
  /-- the string object `npy_ma_str_like` -/
  npy_ma_str_like : PyValue
  /-- the string object `npy_ma_str_numpy` -/
  npy_ma_str_numpy : PyValue
  /-- whether a dict finds the stored key (first argument) when asked for the second: equal
  hash and `==` -/
  same_key : PyValue → PyValue → Bool
  /-- the function `PyCallable_Check` -/
  PyCallable_Check : PyValue → Bool

/-- The function `PyDict_SetItem` on the entries of a dict: the value stored under the key
is replaced, or a new entry is appended. -/
def PyDict_SetItem (md : Module) :
    List (PyValue × PyValue) → PyValue → PyValue → List (PyValue × PyValue)
  | [], key, value => [(key, value)]
  | (k, v) :: rest, key, value =>
    if md.same_key k key then (k, value) :: rest
    else (k, v) :: PyDict_SetItem md rest key value

/-- The function `PyDict_DelItem` on the entries of a dict: `none` is the return value -1,
with `KeyError` pending, for a key that is not there. -/
def PyDict_DelItem (md : Module) :
    List (PyValue × PyValue) → PyValue → Option (List (PyValue × PyValue))
  | [], _ => none
  | (k, v) :: rest, key =>
    if md.same_key k key then some rest
    else (PyDict_DelItem md rest key).map (fun d => (k, v) :: d)

/-- The loop of `array_implement_c_array_function_creation` that fills `kwargs`, over the
remaining items of `kwnames`, entered with loop variable `i`.  A well-formed call has
`len_args + nkwargs` entries in `fast_args`. -/
def creation_kwargs_loop (md : Module) (fast_args : List PyValue) (len_args : Nat) :
    List PyValue → Nat → List (PyValue × PyValue) → List (PyValue × PyValue)
  | [], _, kwargs => kwargs
  | key :: rest, i, kwargs =>
    let value := fast_args.getD (i + len_args) (.obj 0)
    creation_kwargs_loop md fast_args len_args rest (i + 1) (PyDict_SetItem md kwargs key value)

/-- The "convert from vectorcall convention" block of
`array_implement_c_array_function_creation`: the values of `args` and `kwargs` after it.
`none` is `NULL`.  `PyDict_SetItem` is taken to succeed, the keys being the strings of
`kwnames`. -/
def creation_convert (md : Module) (args kwargs : Option PyValue)
    (fast_args : Option (List PyValue)) (len_args : Nat) (kwnames : Option PyValue) :
    Option PyValue × Option PyValue :=
  match fast_args with
  | none => (args, kwargs)
  | some fast_args =>
    let args := PyValue.tuple (fast_args.take len_args)
    match kwnames with
    | none => (some args, kwargs)
    | some kwnames =>
      (some args,
        some (.dict (creation_kwargs_loop md fast_args len_args (PyTuple_ITEMS kwnames) 0 [])))

/-- What a call of `array_implement_c_array_function_creation` leaves behind. -/
structure CreationOutcome (σ : Type) where
  /-- the return value -/
  result : PyResult
  /-- the `kwargs` dict as the function leaves it: the caller's dict when `fast_args` is
  `NULL`, the dict built from `kwnames` otherwise -/
  kwargs : Option PyValue
  /-- the state and the calls made -/
  world : World σ

/-- The part of `array_implement_c_array_function_creation` from `PyImport_Import` to
`finish`, with `kwargs` already without its `like` entry. -/
def creation_resolve_and_dispatch {σ : Type} (rt : Interp σ) (h : Heap) (md : Module)
    (function_name : String) (relevant_args args kwargs : PyValue)
    (implementing_args : Nat → PyValue) (array_function_methods : Nat → Nat) (w : World σ) :
    PyResult × World σ :=
  let r1 := invoke rt (.PyImport_Import md.npy_ma_str_numpy) w
  match r1.1 with
  | .error e => (.error e, r1.2)
  | .ok numpy_module =>
    let r2 := invoke rt (.PyObject_GetAttrString numpy_module function_name) r1.2
    match r2.1 with
    | .error e => (.error e, r2.2)
    | .ok public_api =>
      if !md.PyCallable_Check public_api then
        (.error (.RuntimeError ("numpy." ++ function_name ++ " is not callable.")), r2.2)
      else
        array_implement_array_function_internal rt h public_api relevant_args args kwargs
          implementing_args array_function_methods r2.2

/-- Source: `array_implement_c_array_function_creation`.  `none` for `args`, `kwargs`,
`fast_args`, `kwnames` is `NULL`.  The result `none` stands for the calls the model does
not cover, where the source reads through a `NULL` or non-dict `kwargs` or passes a `NULL`
`args` on; the caller has to put `like` among the keyword arguments, which excludes them.
`implementing_args` and `array_function_methods` are the stack arrays of the dispatch. -/
def array_implement_c_array_function_creation {σ : Type} (rt : Interp σ) (h : Heap)
    (md : Module) (function_name : String) (like : PyValue) (args kwargs : Option PyValue)
    (fast_args : Option (List PyValue)) (len_args : Nat) (kwnames : Option PyValue)
    (implementing_args : Nat → PyValue) (array_function_methods : Nat → Nat) (w : World σ) :
    Option (CreationOutcome σ) :=
  match get_array_function h like with
  | .ok (some _) =>
    let conv := creation_convert md args kwargs fast_args len_args kwnames
    let relevant_args := PyValue.tuple [like]
    match conv.1, conv.2 with
    | some args, some (.dict entries) =>
      match PyDict_DelItem md entries md.npy_ma_str_like with
      | none =>
        some { result := .error (.KeyError md.npy_ma_str_like), kwargs := conv.2, world := w }
      | some entries =>
        let r := creation_resolve_and_dispatch rt h md function_name relevant_args args
          (.dict entries) implementing_args array_function_methods w
        some { result := r.1, kwargs := some (.dict entries), world := r.2 }
    | _, _ => none
  | _ =>
    some
      { result := .error (.TypeError ("The `like` argument must be an array-like that " ++
          "implements the `__array_function__` protocol."))
        kwargs := kwargs
        world := w }

/-! ## A list view of the collector -/

/-- The list `l` with `x` put in front of position `i`. -/
def insertAt {α : Type} (l : List α) (i : Nat) (x : α) : List α :=
  l.take i ++ x :: l.drop i

/-- The candidates collected so far: argument and method, by buffer position. -/
def Collected.cands (c : Collected) : List (PyValue × Nat) :=
  (List.range c.num_implementing_args).map (fun j => (c.implementing_args j, c.methods j))

/-- An argument for which `get_array_function` returns a method. -/
def hasOverride (h : Heap) (a : PyValue) : Bool :=
  match get_array_function h a with
  | .ok (some _) => true
  | _ => false

/-- One pass of the collector over a list of candidates instead of the two buffers. -/
def collectL (h : Heap) : List PyValue → List (PyValue × Nat) →
    Except PyErr (List (PyValue × Nat))
  | [], cs => .ok cs
  | a :: rest, cs =>
    if cs.any (fun c => h.Py_TYPE a == h.Py_TYPE c.1) then collectL h rest cs
    else
      match get_array_function h a with
      | .ok (some m) =>
        if cs.length ≥ h.NPY_MAXARGS then .error (.TypeError (maxargs_message h))
        else
          collectL h rest
            (insertAt cs (cs.findIdx (fun c => h.PyObject_IsInstance a (h.Py_TYPE c.1) != 0))
              (a, m))
      | _ => collectL h rest cs

/-- The exact types of a list of candidates, in order. -/
def candTypes (h : Heap) (cs : List (PyValue × Nat)) : List Nat :=
  cs.map (fun c => h.Py_TYPE c.1)

/-- Spec "first occurrence wins": reading `items` from the left, an argument is kept
when it has an override and its exact type is neither in `seen` nor the exact type
of an argument already kept. -/
def firstOccurrencesFrom (h : Heap) : List PyValue → List Nat → List PyValue
  | [], _ => []
  | a :: rest, seen =>
    if hasOverride h a = true ∧ h.Py_TYPE a ∉ seen then
      a :: firstOccurrencesFrom h rest (h.Py_TYPE a :: seen)
    else firstOccurrencesFrom h rest seen

/-- Spec "list of first occurrences": for each exact type that has an argument with
an override, the earliest such argument, in the order of the input. -/
def firstOccurrences (h : Heap) (items : List PyValue) : List PyValue :=
  firstOccurrencesFrom h items []

/-- Spec "distinct exact runtime types that have an override": the set of exact types of
the arguments for which the lookup finds a method. -/
def distinctOverrideTypes (h : Heap) (items : List PyValue) : Finset Nat :=
  ((items.filter (hasOverride h)).map h.Py_TYPE).toFinset

/-! ## The writes of `pyobject_array_insert` -/

/-- The indices that the loop of `pyobject_array_insert`, entered with loop variable `j`,
assigns to, in the order of the assignments `array[j] = array[j - 1]`. -/
def pyobject_array_insert_loop_writes (index : Nat) : Nat → List Nat
  | 0 => []
  | j + 1 =>
    if j + 1 > index then (j + 1) :: pyobject_array_insert_loop_writes index j else []

/-- The indices that `pyobject_array_insert` assigns to: those of the loop, then `index`. -/
def pyobject_array_insert_writes (length index : Nat) : List Nat :=
  pyobject_array_insert_loop_writes index length ++ [index]

/-! ## Failing `isinstance` checks of the collector -/

/-- Invoking every candidate with an index in the list once, in order, whatever each one
returns: the results and the state reached. -/
def invoke_candidates {σ : Type} (rt : Interp σ) (h : Heap)
    (public_api types args kwargs : PyValue) (implementing_args : Nat → PyValue)
    (array_function_methods : Nat → Nat) : List Nat → World σ → List PyResult × World σ
  | [], w => ([], w)
  | j :: rest, w =>
    let r := call_array_function rt h (implementing_args j) (.obj (array_function_methods j))
      public_api types args kwargs w
    let rs := invoke_candidates rt h public_api types args kwargs implementing_args
      array_function_methods rest r.2
    (r.1 :: rs.1, rs.2)

/-- The calls `array_implement_array_function_internal` can make for `n` candidates: the
implementation behind `public_api` (baseline fast path), the error-message formatter, or
the `__array_function__` method of a non-baseline candidate under the override protocol. -/
def InternalCall {σ : Type} (rt : Interp σ) (h : Heap) (public_api types args kwargs : PyValue)
    (implementing_args : Nat → PyValue) (array_function_methods : Nat → Nat) (n : Nat)
    (e : Call) : Prop :=
  (∃ implementation, rt.getattr_implementation public_api = .ok implementation ∧
    e = .PyObject_Call implementation args kwargs) ∨
  (∃ f, rt.errmsg_formatter = .ok f ∧ e = .PyObject_CallFunctionObjArgs f [public_api, types]) ∨
  (∃ j, j < n ∧ is_default_array_function h (.obj (array_function_methods j)) = false ∧
    e = .PyObject_CallFunctionObjArgs (.obj (array_function_methods j))
      [implementing_args j, public_api, types, args, kwargs])

/-! ## Specification-side definitions for the lookup and the argument conversion -/

/-- Spec "generic lookup": the override lookup by attribute resolution alone, without the
fast return for an exact `ndarray`. -/
def get_array_function_generic (h : Heap) (obj : PyValue) : Except PyErr (Option Nat) :=
  match h.PyArray_LookupSpecial obj with
  | .found array_function => .ok (some array_function)
  | .absent => .ok none
  | .failed _ => .ok none

/-- Spec "the flattened call can be reconstructed from the pair": the flattened call
`(fast_args, len_args, kwnames)` that a positional tuple and a keyword mapping stand for. -/
def flatten_call (args : PyValue) (kwargs : Option PyValue) :
    List PyValue × Nat × Option PyValue :=
  match args, kwargs with
  | .tuple items, some (.dict entries) =>
    (items ++ entries.map Prod.snd, items.length, some (.tuple (entries.map Prod.fst)))
  | .tuple items, _ => (items, items.length, none)
  | _, _ => ([], 0, none)

/-- Spec "keyword arguments" of a flattened call: the names in `kwnames`, each with the value
that stands after the `nargs` positional arguments at the same position. -/
def keyword_mapping (args : List PyValue) (nargs : Nat) (kwnames : Option PyValue) :
    List (PyValue × PyValue) :=
  match kwnames with
  | some (.tuple names) => names.zip (args.drop nargs)
  | _ => []

/-! ## A small object graph for examples -/

/-- The address of an object known by address. -/
def PyValue.addr : PyValue → Nat
  | .obj a => a
  | _ => 0

/-- Example subclass relation on type addresses: type 3 is a subclass of type 1, and every
type is a subclass of itself. -/
def exSub (s t : Nat) : Bool :=
  s == t || (s == 3 && t == 1)

/-- Example object graph: the object at address `n` has the type at address `n / 10`;
objects of type 9 have no `__array_function__`, objects of the types 5 to 8 inherit
`ndarray.__array_function__` (address 1000), objects of any other type `t` have the method
at address `2000 + t`; `isinstance` follows `exSub`; the buffers hold 3 entries. -/
def exHeap : Heap where
  NPY_MAXARGS := 3
  PyArray_Type := 100
  ndarray_array_function := 1000
  Py_TYPE := fun v => v.addr / 10
  PyArray_LookupSpecial := fun v =>
    if v.addr / 10 == 9 then .absent
    else if 5 ≤ v.addr / 10 ∧ v.addr / 10 ≤ 8 then .found 1000
    else .found (2000 + v.addr / 10)
  PyObject_IsInstance := fun v t => if exSub (v.addr / 10) t then 1 else 0

/-- Example content of the `implementing_args` buffer on entry. -/
def exArgs0 : Nat → PyValue :=
  fun _ => .obj 0

/-- Example content of the `methods` buffer on entry. -/
def exMeths0 : Nat → Nat :=
  fun _ => 0

/-- Example interpreter without state.  The callables at the addresses 500, 501, 502 are
extractors, 600 is a default implementation, 700 packs its positional arguments, 800 is
the error-message formatter, 900 the implementation behind every public function; the
method 2002 (of type 2) defers, the method 2004 (of type 4) answers 44; calling the object
at address 20 answers 42; every other call raises. -/
def exInterp : Interp Unit where
  call := fun _ c =>
    match c with
    | .PyObject_Vectorcall (.obj 500) _ _ _ =>
      (.ok (.tuple [.obj 50, .obj 60, .obj 70, .obj 80]), ())
    | .PyObject_Vectorcall (.obj 501) _ _ _ => (.ok (.tuple [.obj 20]), ())
    | .PyObject_Vectorcall (.obj 502) _ _ _ => (.ok (.tuple [.obj 50, .obj 90, .obj 60]), ())
    | .PyObject_Vectorcall (.obj 600) _ _ _ => (.ok (.obj 601), ())
    | .PyObject_Vectorcall (.obj 700) args nargs _ =>
      (.ok (.tuple [.tuple (args.take nargs), .dict []]), ())
    | .PyObject_CallFunctionObjArgs (.obj 2002) _ => (.ok .NotImplemented, ())
    | .PyObject_CallFunctionObjArgs (.obj 2004) _ => (.ok (.obj 44), ())
    | .PyObject_CallFunctionObjArgs (.obj 20) _ => (.ok (.obj 42), ())
    | .PyObject_CallFunctionObjArgs (.obj 800) _ => (.ok (.obj 801), ())
    | .PyObject_Call (.obj 900) _ _ => (.ok (.obj 901), ())
    | _ => (.error (.raised 1), ())
  iterate := fun _ _ => (.notIterable, ())
  PyObject_IsSubclass := fun t _ => .ok (decide (5 ≤ t.addr ∧ t.addr ≤ 8 ∨ t.addr = 100))
  getattr_implementation := fun _ => .ok (.obj 900)
  getattr_pack := fun _ => .ok (.obj 700)
  errmsg_formatter := .ok (.obj 800)

/-- Example state on entry: no call made yet, nothing cached. -/
def exWorld : World Unit :=
  { state := (), trace := [], argpacker := none }

/-- Example dispatcher with the extractor at address 501. -/
def exDispatcher : PyArray_ArrayFunctionDispatcherObject :=
  { ob_self := .obj 400, relevant_arg_func := some (.obj 501), default_impl := .obj 600 }

/-- Example dispatcher with the extractor at address 500. -/
def exDispatcherBaseline : PyArray_ArrayFunctionDispatcherObject :=
  { ob_self := .obj 401, relevant_arg_func := some (.obj 500), default_impl := .obj 600 }

/-- Example object graph like `exHeap`, except that attribute resolution raises on the
objects of type 11. -/
def exHeapRaising : Heap :=
  { exHeap with
    PyArray_LookupSpecial := fun v =>
      if v.addr / 10 == 11 then .failed (.raised 77) else exHeap.PyArray_LookupSpecial v }

/-- Example interpreter like `exInterp`, with two more extractors (503 returns the tuple of
the object 40, 504 returns the object 5, which is not iterable), the argument packer 701
that answers as `pack__array_function__` does, the module 1101 imported under the name
1100, and its attribute `zeros`, the object 1102. -/
def exInterp2 : Interp Unit :=
  { exInterp with
    call := fun s c =>
      match c with
      | .PyObject_Vectorcall (.obj 503) _ _ _ => (.ok (.tuple [.obj 40]), ())
      | .PyObject_Vectorcall (.obj 504) _ _ _ => (.ok (.obj 5), ())
      | .PyObject_Vectorcall (.obj 701) args nargs kwnames =>
        (.ok (pack__array_function__ (tp_call_arguments args nargs kwnames).1
          (tp_call_arguments args nargs kwnames).2), ())
      | .PyImport_Import (.obj 1100) => (.ok (.obj 1101), ())
      | .PyObject_GetAttrString (.obj 1101) "zeros" => (.ok (.obj 1102), ())
      | c => exInterp.call s c
    getattr_pack := fun _ => .ok (.obj 701) }

/-- Example module state: the strings `like` and `numpy` are the objects 1200 and 1100, keys
are the same when their addresses are, and the object 1102 is callable. -/
def exModule : Module :=
  { npy_ma_str_like := .obj 1200
    npy_ma_str_numpy := .obj 1100
    same_key := fun a b => a.addr == b.addr
    PyCallable_Check := fun v => v.addr == 1102 }

/-- Example dispatcher with the extractor at address 503. -/
def exDispatcherCallee : PyArray_ArrayFunctionDispatcherObject :=
  { ob_self := .obj 404, relevant_arg_func := some (.obj 503), default_impl := .obj 600 }

/-- Example dispatcher with the extractor at address 504. -/
def exDispatcherNotIterable : PyArray_ArrayFunctionDispatcherObject :=
  { ob_self := .obj 405, relevant_arg_func := some (.obj 504), default_impl := .obj 600 }

/-- Example dispatcher in the `like=` mode. -/
def exDispatcherLike : PyArray_ArrayFunctionDispatcherObject :=
  { ob_self := .obj 406, relevant_arg_func := none, default_impl := .obj 600 }

/-- Example object graph like `exHeap`, except that the objects of type 12 have the
method at address 2012 of their own. -/
def exHeapSub : Heap :=
  { exHeap with
    PyArray_LookupSpecial := fun v =>
      if v.addr / 10 == 12 then .found 2012 else exHeap.PyArray_LookupSpecial v }

/-- Example interpreter like `exInterp2`, where the type 12 is a subclass of `ndarray` too,
the extractor 505 returns the objects 120 and 50, and both the method 2012 and the object
120, when called, defer. -/
def exInterpSub : Interp Unit :=
  { exInterp2 with
    call := fun s c =>
      match c with
      | .PyObject_Vectorcall (.obj 505) _ _ _ => (.ok (.tuple [.obj 120, .obj 50]), ())
      | .PyObject_CallFunctionObjArgs (.obj 2012) _ => (.ok .NotImplemented, ())
      | .PyObject_CallFunctionObjArgs (.obj 120) _ => (.ok .NotImplemented, ())
      | c => exInterp2.call s c
    PyObject_IsSubclass := fun t _ =>
      .ok (decide (t.addr = 12 ∨ 5 ≤ t.addr ∧ t.addr ≤ 8 ∨ t.addr = 100)) }

/-- Example dispatcher with the extractor at address 505. -/
def exDispatcherSub : PyArray_ArrayFunctionDispatcherObject :=
  { ob_self := .obj 407, relevant_arg_func := some (.obj 505), default_impl := .obj 600 }

/-- Example interpreter like `exInterp2`, where the implementation behind every public
function is the object 902, which returns `NotImplemented`. -/
def exInterpDeferring : Interp Unit :=
  { exInterp2 with
    call := fun s c =>
      match c with
      | .PyObject_Call (.obj 902) _ _ => (.ok .NotImplemented, ())
      | c => exInterp2.call s c
    getattr_implementation := fun _ => .ok (.obj 902) }

theorem pyobject_array_insert_loop_apply {α : Type} (index : Nat) (j : Nat) (array : Nat → α)
    (k : Nat) :
    pyobject_array_insert_loop index j array k =
      if index < k ∧ k ≤ j then array (k - 1) else array k := by
  induction j generalizing array with
  | zero =>
    have hk2 : ¬ (index < k ∧ k ≤ 0) := by omega
    rw [if_neg hk2]
    rfl
  | succ j ih =>
    unfold pyobject_array_insert_loop
    by_cases hj : j + 1 > index
    · rw [if_pos hj, ih]
      by_cases hk : index < k ∧ k ≤ j
      · have hk2 : index < k ∧ k ≤ j + 1 := ⟨hk.1, by omega⟩
        rw [if_pos hk, if_pos hk2]
        have : k - 1 ≠ j + 1 := by omega
        simp [arr_set, this]
      · rw [if_neg hk]
        by_cases hkj : k = j + 1
        · subst hkj
          have hk2 : index < j + 1 ∧ j + 1 ≤ j + 1 := ⟨hj, le_refl _⟩
          rw [if_pos hk2]
          simp [arr_set]
        · have hk2 : ¬ (index < k ∧ k ≤ j + 1) := by omega
          rw [if_neg hk2]
          simp [arr_set, hkj]
    · rw [if_neg hj]
      have hk2 : ¬ (index < k ∧ k ≤ j + 1) := by omega
      rw [if_neg hk2]

theorem pyobject_array_insert_apply {α : Type} (array : Nat → α) (length index : Nat)
    (item : α) (k : Nat) :
    pyobject_array_insert array length index item k =
      if k = index then item
      else if index < k ∧ k ≤ length then array (k - 1) else array k := by
  unfold pyobject_array_insert arr_set
  by_cases hk : k = index
  · simp [hk]
  · simp only [hk, if_false]
    exact pyobject_array_insert_loop_apply index length array k

theorem map_range_pyobject_array_insert {α : Type} (array : Nat → α) (length index : Nat)
    (item : α) (hi : index ≤ length) :
    (List.range (length + 1)).map (pyobject_array_insert array length index item) =
      insertAt ((List.range length).map array) index item := by
  apply List.ext_getElem
  · simp [insertAt]
    omega
  · intro k h1 h2
    simp only [List.getElem_map, List.getElem_range, pyobject_array_insert_apply, insertAt]
    simp only [List.length_map, List.length_range] at h1
    by_cases hk : k < index
    · rw [List.getElem_append_left (by simp; omega)]
      have : k ≠ index := by omega
      have h3 : ¬ (index < k ∧ k ≤ length) := by omega
      simp [this, h3]
    · rw [List.getElem_append_right (by simp; omega)]
      by_cases hk2 : k = index
      · subst hk2
        simp [Nat.min_eq_left hi]
      · have h3 : index < k ∧ k ≤ length := by omega
        simp only [hk2, if_false, h3, and_self, if_true]
        simp only [List.length_take, List.length_map, List.length_range, Nat.min_eq_left hi]
        have : k - index = (k - index - 1) + 1 := by omega
        rw [List.getElem_cons]
        have hne : ¬ (k - index = 0) := by omega
        simp only [hne, dite_false]
        simp
        congr 1
        omega

theorem pyobject_array_insert_pair {α β : Type} (a : Nat → α) (m : Nat → β) (length index : Nat)
    (x : α) (y : β) :
    (fun j => (pyobject_array_insert a length index x j,
        pyobject_array_insert m length index y j)) =
      pyobject_array_insert (fun j => (a j, m j)) length index (x, y) := by
  funext j
  simp only [pyobject_array_insert_apply]
  split_ifs <;> rfl

theorem find_range_eq_findIdx_map {β : Type} (f : Nat → β) (p : β → Bool) (n s : Nat) :
    ((List.range' s n).find? (fun j => p (f j))).getD (s + n) =
      s + ((List.range' s n).map f).findIdx p := by
  induction n generalizing s with
  | zero => simp
  | succ n ih =>
    rw [List.range'_succ, List.find?_cons, List.map_cons, List.findIdx_cons]
    cases hp : p (f s)
    · simp only [cond_false]
      have := ih (s + 1)
      rw [show s + (n + 1) = s + 1 + n by omega, this]
      omega
    · simp

theorem arg_index_eq_findIdx (h : Heap) (s : Collected) (a : PyValue) :
    arg_index h s.implementing_args s.num_implementing_args a =
      s.cands.findIdx (fun c => h.PyObject_IsInstance a (h.Py_TYPE c.1) != 0) := by
  have := find_range_eq_findIdx_map (fun j => (s.implementing_args j, s.methods j))
    (fun c => h.PyObject_IsInstance a (h.Py_TYPE c.1) != 0) s.num_implementing_args 0
  simp only [Nat.zero_add, ← List.range_eq_range'] at this
  exact this

theorem new_class_eq_any (h : Heap) (s : Collected) (a : PyValue) :
    new_class h s.implementing_args s.num_implementing_args a =
      !s.cands.any (fun c => h.Py_TYPE a == h.Py_TYPE c.1) := by
  simp only [new_class, Collected.cands]
  congr 1
  generalize List.range s.num_implementing_args = l
  induction l with
  | nil => rfl
  | cons j l ih => simp [List.any_cons, ih]

theorem cands_length (s : Collected) : s.cands.length = s.num_implementing_args := by
  simp [Collected.cands]

/-- The buffer-based loop computes what the list-based pass computes. -/
theorem loop_refines_collectL (h : Heap) (items : List PyValue) (s : Collected) :
    (get_implementing_args_and_methods_loop h items s).map Collected.cands =
      collectL h items s.cands := by
  induction items generalizing s with
  | nil => rfl
  | cons a rest ih =>
    unfold get_implementing_args_and_methods_loop collectL
    rw [new_class_eq_any]
    cases hany : s.cands.any (fun c => h.Py_TYPE a == h.Py_TYPE c.1)
    · simp only [Bool.not_false, if_true, Bool.false_eq_true, if_false]
      rcases hg : get_array_function h a with e | (_ | m)
      · simpa using ih s
      · simpa using ih s
      · simp only [cands_length]
        by_cases hcap : s.num_implementing_args ≥ h.NPY_MAXARGS
        · simp only [hcap, if_true]
          rfl
        · simp only [hcap, if_false]
          rw [ih]
          congr 1
          simp only [Collected.cands]
          rw [pyobject_array_insert_pair, map_range_pyobject_array_insert]
          · rw [arg_index_eq_findIdx]
            rfl
          · rw [arg_index_eq_findIdx, ← cands_length s]
            exact List.findIdx_le_length _
    · simp only [Bool.not_true, Bool.false_eq_true, if_false, if_true]
      exact ih s

/-! ## The list-based pass -/

theorem hasOverride_iff (h : Heap) (a : PyValue) :
    hasOverride h a = true ↔ ∃ m, get_array_function h a = .ok (some m) := by
  unfold hasOverride
  rcases get_array_function h a with e | (_ | m) <;> simp

theorem any_type_iff (h : Heap) (a : PyValue) (cs : List (PyValue × Nat)) :
    cs.any (fun c => h.Py_TYPE a == h.Py_TYPE c.1) = true ↔ h.Py_TYPE a ∈ candTypes h cs := by
  simp only [candTypes, List.any_eq_true, List.mem_map, beq_iff_eq]
  constructor
  · rintro ⟨c, hc, e⟩
    exact ⟨c, hc, e.symm⟩
  · rintro ⟨c, hc, e⟩
    exact ⟨c, hc, e.symm⟩

theorem collectL_cons_seen (h : Heap) (a : PyValue) (rest : List PyValue)
    (cs : List (PyValue × Nat)) (hs : h.Py_TYPE a ∈ candTypes h cs) :
    collectL h (a :: rest) cs = collectL h rest cs := by
  rw [collectL, if_pos ((any_type_iff h a cs).2 hs)]

theorem collectL_cons_none (h : Heap) (a : PyValue) (rest : List PyValue)
    (cs : List (PyValue × Nat)) (hn : hasOverride h a = false) :
    collectL h (a :: rest) cs = collectL h rest cs := by
  rw [collectL]
  split
  · rfl
  · unfold hasOverride at hn
    rcases hg : get_array_function h a with e | (_ | m)
    · rfl
    · rfl
    · rw [hg] at hn
      simp at hn

theorem collectL_cons_new (h : Heap) (a : PyValue) (rest : List PyValue)
    (cs : List (PyValue × Nat)) (m : Nat) (hs : h.Py_TYPE a ∉ candTypes h cs)
    (hg : get_array_function h a = .ok (some m)) :
    collectL h (a :: rest) cs =
      if cs.length ≥ h.NPY_MAXARGS then .error (.TypeError (maxargs_message h))
      else collectL h rest
        (insertAt cs (cs.findIdx (fun c => h.PyObject_IsInstance a (h.Py_TYPE c.1) != 0))
          (a, m)) := by
  rw [collectL, if_neg (fun hh => hs ((any_type_iff h a cs).1 hh)), hg]

theorem firstOccurrencesFrom_cons_seen (h : Heap) (a : PyValue) (rest : List PyValue)
    (seen : List Nat) (hs : h.Py_TYPE a ∈ seen) :
    firstOccurrencesFrom h (a :: rest) seen = firstOccurrencesFrom h rest seen := by
  rw [firstOccurrencesFrom, if_neg (fun hh => hh.2 hs)]

theorem firstOccurrencesFrom_cons_none (h : Heap) (a : PyValue) (rest : List PyValue)
    (seen : List Nat) (hn : hasOverride h a = false) :
    firstOccurrencesFrom h (a :: rest) seen = firstOccurrencesFrom h rest seen := by
  rw [firstOccurrencesFrom, if_neg (fun hh => by simp [hn] at hh)]

theorem firstOccurrencesFrom_cons_new (h : Heap) (a : PyValue) (rest : List PyValue)
    (seen : List Nat) (hs : h.Py_TYPE a ∉ seen) (ho : hasOverride h a = true) :
    firstOccurrencesFrom h (a :: rest) seen =
      a :: firstOccurrencesFrom h rest (h.Py_TYPE a :: seen) := by
  rw [firstOccurrencesFrom, if_pos ⟨ho, hs⟩]

theorem firstOccurrencesFrom_congr (h : Heap) (items : List PyValue) (seen seen2 : List Nat)
    (hm : ∀ t, t ∈ seen ↔ t ∈ seen2) :
    firstOccurrencesFrom h items seen = firstOccurrencesFrom h items seen2 := by
  induction items generalizing seen seen2 with
  | nil => rfl
  | cons a rest ih =>
    by_cases hs : h.Py_TYPE a ∈ seen
    · rw [firstOccurrencesFrom_cons_seen h a rest seen hs,
        firstOccurrencesFrom_cons_seen h a rest seen2 ((hm _).1 hs)]
      exact ih seen seen2 hm
    · have hs2 : h.Py_TYPE a ∉ seen2 := fun hh => hs ((hm _).2 hh)
      cases ho : hasOverride h a
      · rw [firstOccurrencesFrom_cons_none h a rest seen ho,
          firstOccurrencesFrom_cons_none h a rest seen2 ho]
        exact ih seen seen2 hm
      · rw [firstOccurrencesFrom_cons_new h a rest seen hs ho,
          firstOccurrencesFrom_cons_new h a rest seen2 hs2 ho]
        congr 1
        apply ih
        intro t
        simp [hm t]

theorem insertAt_perm {α : Type} (l : List α) (i : Nat) (x : α) :
    (insertAt l i x).Perm (x :: l) := by
  unfold insertAt
  refine List.perm_middle.trans ?_
  rw [List.take_append_drop]

theorem insertAt_length {α : Type} (l : List α) (i : Nat) (x : α) :
    (insertAt l i x).length = l.length + 1 :=
  (insertAt_perm l i x).length_eq

theorem mem_insertAt {α : Type} (l : List α) (i : Nat) (x y : α) :
    y ∈ insertAt l i x ↔ y = x ∨ y ∈ l := by
  rw [(insertAt_perm l i x).mem_iff, List.mem_cons]

theorem map_insertAt {α β : Type} (f : α → β) (l : List α) (i : Nat) (x : α) :
    (insertAt l i x).map f = insertAt (l.map f) i (f x) := by
  simp [insertAt, List.map_take, List.map_drop]

theorem candTypes_insertAt (h : Heap) (cs : List (PyValue × Nat)) (i : Nat) (a : PyValue)
    (m : Nat) : candTypes h (insertAt cs i (a, m)) = insertAt (candTypes h cs) i (h.Py_TYPE a) := by
  simp [candTypes, map_insertAt]

/-- A successful pass yields, up to order, the candidates it started from followed by the
first occurrences among the items. -/
theorem collectL_perm (h : Heap) (items : List PyValue) (cs out : List (PyValue × Nat))
    (hr : collectL h items cs = .ok out) :
    (out.map Prod.fst).Perm
      (cs.map Prod.fst ++ firstOccurrencesFrom h items (candTypes h cs)) := by
  induction items generalizing cs with
  | nil =>
    simp only [collectL, Except.ok.injEq] at hr
    subst hr
    simp [firstOccurrencesFrom]
  | cons a rest ih =>
    by_cases hs : h.Py_TYPE a ∈ candTypes h cs
    · rw [collectL_cons_seen h a rest cs hs] at hr
      rw [firstOccurrencesFrom_cons_seen h a rest _ hs]
      exact ih cs hr
    · cases ho : hasOverride h a
      · rw [collectL_cons_none h a rest cs ho] at hr
        rw [firstOccurrencesFrom_cons_none h a rest _ ho]
        exact ih cs hr
      · obtain ⟨m, hg⟩ := (hasOverride_iff h a).1 ho
        rw [collectL_cons_new h a rest cs m hs hg] at hr
        by_cases hcap : cs.length ≥ h.NPY_MAXARGS
        · rw [if_pos hcap] at hr
          cases hr
        · rw [if_neg hcap] at hr
          have := ih _ hr
          rw [firstOccurrencesFrom_cons_new h a rest _ hs ho]
          refine this.trans ?_
          rw [firstOccurrencesFrom_congr h rest _ (h.Py_TYPE a :: candTypes h cs)
            (fun t => by rw [candTypes_insertAt, mem_insertAt, List.mem_cons])]
          rw [map_insertAt]
          refine ((insertAt_perm _ _ _).append_right _).trans ?_
          simp only [List.cons_append]
          exact List.perm_middle.symm

theorem firstOccurrencesFrom_sound (h : Heap) (items : List PyValue) (seen : List Nat) :
    ∀ x ∈ firstOccurrencesFrom h items seen,
      hasOverride h x = true ∧ h.Py_TYPE x ∉ seen ∧ x ∈ items := by
  induction items generalizing seen with
  | nil => simp [firstOccurrencesFrom]
  | cons a rest ih =>
    intro x hx
    by_cases hc : hasOverride h a = true ∧ h.Py_TYPE a ∉ seen
    · rw [firstOccurrencesFrom, if_pos hc, List.mem_cons] at hx
      rcases hx with rfl | hx
      · exact ⟨hc.1, hc.2, List.mem_cons_self _ _⟩
      · obtain ⟨h1, h2, h3⟩ := ih _ x hx
        exact ⟨h1, fun hh => h2 (List.mem_cons_of_mem _ hh), List.mem_cons_of_mem _ h3⟩
    · rw [firstOccurrencesFrom, if_neg hc] at hx
      obtain ⟨h1, h2, h3⟩ := ih _ x hx
      exact ⟨h1, h2, List.mem_cons_of_mem _ h3⟩

theorem firstOccurrencesFrom_types_nodup (h : Heap) (items : List PyValue) (seen : List Nat) :
    ((firstOccurrencesFrom h items seen).map h.Py_TYPE).Nodup := by
  induction items generalizing seen with
  | nil => simp [firstOccurrencesFrom]
  | cons a rest ih =>
    by_cases hc : hasOverride h a = true ∧ h.Py_TYPE a ∉ seen
    · rw [firstOccurrencesFrom, if_pos hc, List.map_cons, List.nodup_cons]
      refine ⟨?_, ih _⟩
      intro hm
      obtain ⟨x, hx, hxt⟩ := List.mem_map.1 hm
      have := (firstOccurrencesFrom_sound h rest _ x hx).2.1
      exact this (by rw [hxt]; exact List.mem_cons_self _ _)
    · rw [firstOccurrencesFrom, if_neg hc]
      exact ih _

theorem firstOccurrencesFrom_types (h : Heap) (items : List PyValue) (seen : List Nat) (t : Nat) :
    t ∈ (firstOccurrencesFrom h items seen).map h.Py_TYPE ↔
      t ∉ seen ∧ ∃ a ∈ items, hasOverride h a = true ∧ h.Py_TYPE a = t := by
  induction items generalizing seen with
  | nil => simp [firstOccurrencesFrom]
  | cons a rest ih =>
    by_cases hc : hasOverride h a = true ∧ h.Py_TYPE a ∉ seen
    · rw [firstOccurrencesFrom, if_pos hc, List.map_cons, List.mem_cons, ih]
      constructor
      · rintro (rfl | ⟨h1, b, hb, h2, h3⟩)
        · exact ⟨hc.2, a, List.mem_cons_self _ _, hc.1, rfl⟩
        · exact ⟨fun hh => h1 (List.mem_cons_of_mem _ hh), b, List.mem_cons_of_mem _ hb, h2, h3⟩
      · rintro ⟨h1, b, hb, h2, h3⟩
        by_cases hta : t = h.Py_TYPE a
        · exact Or.inl hta
        · right
          refine ⟨fun hh => ?_, ?_⟩
          · rcases List.mem_cons.1 hh with e | e
            · exact hta e
            · exact h1 e
          · rcases List.mem_cons.1 hb with e | e
            · subst e
              exact absurd h3.symm hta
            · exact ⟨b, e, h2, h3⟩
    · rw [firstOccurrencesFrom, if_neg hc, ih]
      constructor
      · rintro ⟨h1, b, hb, h2, h3⟩
        exact ⟨h1, b, List.mem_cons_of_mem _ hb, h2, h3⟩
      · rintro ⟨h1, b, hb, h2, h3⟩
        refine ⟨h1, ?_⟩
        rcases List.mem_cons.1 hb with e | e
        · subst e
          exact absurd ⟨h2, by rw [h3]; exact h1⟩ hc
        · exact ⟨b, e, h2, h3⟩

/-- Membership in the first occurrences, said with positions: `x` stands somewhere in the
input, has an override, and no argument before it has an override and the same exact type. -/
theorem mem_firstOccurrencesFrom_iff (h : Heap) (items : List PyValue) (seen : List Nat)
    (x : PyValue) :
    x ∈ firstOccurrencesFrom h items seen ↔
      ∃ pre post, items = pre ++ x :: post ∧ hasOverride h x = true ∧ h.Py_TYPE x ∉ seen ∧
        ∀ y ∈ pre, hasOverride h y = true → h.Py_TYPE y ≠ h.Py_TYPE x := by
  induction items generalizing seen with
  | nil => simp [firstOccurrencesFrom]
  | cons a rest ih =>
    by_cases hc : hasOverride h a = true ∧ h.Py_TYPE a ∉ seen
    · rw [firstOccurrencesFrom, if_pos hc, List.mem_cons, ih]
      constructor
      · rintro (rfl | ⟨pre, post, e, h1, h2, h3⟩)
        · exact ⟨[], rest, rfl, hc.1, hc.2, by simp⟩
        · refine ⟨a :: pre, post, by rw [e]; rfl, h1,
            fun hh => h2 (List.mem_cons_of_mem _ hh), ?_⟩
          intro y hy hoy
          rcases List.mem_cons.1 hy with e2 | e2
          · subst e2
            exact fun hh => h2 (by rw [← hh]; exact List.mem_cons_self _ _)
          · exact h3 y e2 hoy
      · rintro ⟨pre, post, e, h1, h2, h3⟩
        cases pre with
        | nil =>
          simp only [List.nil_append, List.cons.injEq] at e
          exact Or.inl e.1.symm
        | cons b pre =>
          simp only [List.cons_append, List.cons.injEq] at e
          obtain ⟨rfl, e⟩ := e
          right
          refine ⟨pre, post, e, h1, ?_, fun y hy => h3 y (List.mem_cons_of_mem _ hy)⟩
          intro hh
          rcases List.mem_cons.1 hh with e2 | e2
          · exact h3 a (List.mem_cons_self _ _) hc.1 e2.symm
          · exact h2 e2
    · rw [firstOccurrencesFrom, if_neg hc, ih]
      constructor
      · rintro ⟨pre, post, e, h1, h2, h3⟩
        refine ⟨a :: pre, post, by rw [e]; rfl, h1, h2, ?_⟩
        intro y hy hoy
        rcases List.mem_cons.1 hy with e2 | e2
        · subst e2
          intro hh
          exact hc ⟨hoy, by rw [hh]; exact h2⟩
        · exact h3 y e2 hoy
      · rintro ⟨pre, post, e, h1, h2, h3⟩
        cases pre with
        | nil =>
          simp only [List.nil_append, List.cons.injEq] at e
          obtain ⟨rfl, -⟩ := e
          exact absurd ⟨h1, h2⟩ hc
        | cons b pre =>
          simp only [List.cons_append, List.cons.injEq] at e
          obtain ⟨rfl, e⟩ := e
          exact ⟨pre, post, e, h1, h2, fun y hy => h3 y (List.mem_cons_of_mem _ hy)⟩

theorem candTypes_eq_map_fst (h : Heap) (cs : List (PyValue × Nat)) :
    candTypes h cs = (cs.map Prod.fst).map h.Py_TYPE := by
  simp [candTypes]

theorem collectL_types_nodup (h : Heap) (items : List PyValue) (cs out : List (PyValue × Nat))
    (hn : (candTypes h cs).Nodup) (hr : collectL h items cs = .ok out) :
    (candTypes h out).Nodup := by
  have hp := (collectL_perm h items cs out hr).map h.Py_TYPE
  rw [candTypes_eq_map_fst]
  refine hp.nodup_iff.2 ?_
  rw [List.map_append, List.nodup_append]
  refine ⟨by rw [← candTypes_eq_map_fst]; exact hn, firstOccurrencesFrom_types_nodup h _ _, ?_⟩
  intro t ht1 ht2
  rw [← candTypes_eq_map_fst] at ht1
  exact ((firstOccurrencesFrom_types h _ _ t).1 ht2).1 ht1

theorem collectL_methods (h : Heap) (items : List PyValue) (cs out : List (PyValue × Nat))
    (hm : ∀ c ∈ cs, get_array_function h c.1 = .ok (some c.2))
    (hr : collectL h items cs = .ok out) :
    ∀ c ∈ out, get_array_function h c.1 = .ok (some c.2) := by
  induction items generalizing cs with
  | nil =>
    simp only [collectL, Except.ok.injEq] at hr
    subst hr
    exact hm
  | cons a rest ih =>
    by_cases hs : h.Py_TYPE a ∈ candTypes h cs
    · rw [collectL_cons_seen h a rest cs hs] at hr
      exact ih cs hm hr
    · cases ho : hasOverride h a
      · rw [collectL_cons_none h a rest cs ho] at hr
        exact ih cs hm hr
      · obtain ⟨m, hg⟩ := (hasOverride_iff h a).1 ho
        rw [collectL_cons_new h a rest cs m hs hg] at hr
        by_cases hcap : cs.length ≥ h.NPY_MAXARGS
        · rw [if_pos hcap] at hr
          cases hr
        · rw [if_neg hcap] at hr
          refine ih _ ?_ hr
          intro c hc
          rcases (mem_insertAt _ _ _ _).1 hc with e | e
          · subst e
            exact hg
          · exact hm c e

theorem collectL_error (h : Heap) (items : List PyValue) (cs : List (PyValue × Nat)) (e : PyErr)
    (hr : collectL h items cs = .error e) : e = .TypeError (maxargs_message h) := by
  induction items generalizing cs with
  | nil => simp [collectL] at hr
  | cons a rest ih =>
    by_cases hs : h.Py_TYPE a ∈ candTypes h cs
    · rw [collectL_cons_seen h a rest cs hs] at hr
      exact ih cs hr
    · cases ho : hasOverride h a
      · rw [collectL_cons_none h a rest cs ho] at hr
        exact ih cs hr
      · obtain ⟨m, hg⟩ := (hasOverride_iff h a).1 ho
        rw [collectL_cons_new h a rest cs m hs hg] at hr
        by_cases hcap : cs.length ≥ h.NPY_MAXARGS
        · rw [if_pos hcap] at hr
          simp only [Except.error.injEq] at hr
          exact hr.symm
        · rw [if_neg hcap] at hr
          exact ih _ hr

/-- The pass succeeds exactly when the candidates it starts from and the first occurrences
among the items fit into the buffers together. -/
theorem collectL_ok_iff (h : Heap) (items : List PyValue) (cs : List (PyValue × Nat))
    (hl : cs.length ≤ h.NPY_MAXARGS) :
    (∃ out, collectL h items cs = .ok out) ↔
      cs.length + (firstOccurrencesFrom h items (candTypes h cs)).length ≤ h.NPY_MAXARGS := by
  induction items generalizing cs with
  | nil => simp [collectL, firstOccurrencesFrom, hl]
  | cons a rest ih =>
    by_cases hs : h.Py_TYPE a ∈ candTypes h cs
    · rw [collectL_cons_seen h a rest cs hs, firstOccurrencesFrom_cons_seen h a rest _ hs]
      exact ih cs hl
    · cases ho : hasOverride h a
      · rw [collectL_cons_none h a rest cs ho, firstOccurrencesFrom_cons_none h a rest _ ho]
        exact ih cs hl
      · obtain ⟨m, hg⟩ := (hasOverride_iff h a).1 ho
        rw [collectL_cons_new h a rest cs m hs hg, firstOccurrencesFrom_cons_new h a rest _ hs ho]
        by_cases hcap : cs.length ≥ h.NPY_MAXARGS
        · rw [if_pos hcap]
          simp only [List.length_cons]
          constructor
          · rintro ⟨out, ho2⟩
            cases ho2
          · intro hh
            omega
        · rw [if_neg hcap]
          rw [ih _ (by rw [insertAt_length]; omega), insertAt_length]
          rw [firstOccurrencesFrom_congr h rest _ (h.Py_TYPE a :: candTypes h cs)
            (fun t => by rw [candTypes_insertAt, mem_insertAt, List.mem_cons])]
          simp only [List.length_cons]
          omega

/-! ## From the buffers to the list-based pass -/

theorem args_eq_cands (c : Collected) : c.args = c.cands.map Prod.fst := by
  simp [Collected.args, Collected.cands]

theorem meths_eq_cands (c : Collected) : c.meths = c.cands.map Prod.snd := by
  simp [Collected.meths, Collected.cands]

theorem loop_ok_collectL (h : Heap) (items : List PyValue) (s c : Collected)
    (hr : get_implementing_args_and_methods_loop h items s = .ok c) :
    collectL h items s.cands = .ok c.cands := by
  rw [← loop_refines_collectL, hr]
  rfl

theorem collectL_ok_loop (h : Heap) (items : List PyValue) (s : Collected)
    (out : List (PyValue × Nat)) (hr : collectL h items s.cands = .ok out) :
    ∃ c, get_implementing_args_and_methods_loop h items s = .ok c ∧ c.cands = out := by
  rw [← loop_refines_collectL] at hr
  rcases hl : get_implementing_args_and_methods_loop h items s with e | c
  · rw [hl] at hr
    cases hr
  · rw [hl] at hr
    simp only [Except.map, Except.ok.injEq] at hr
    exact ⟨c, rfl, hr⟩

theorem loop_error_collectL (h : Heap) (items : List PyValue) (s : Collected) (e : PyErr)
    (hr : get_implementing_args_and_methods_loop h items s = .error e) :
    collectL h items s.cands = .error e := by
  rw [← loop_refines_collectL, hr]
  rfl

theorem giam_ok_collectL (h : Heap) (items : List PyValue) (a0 : Nat → PyValue) (m0 : Nat → Nat)
    (c : Collected) (hr : get_implementing_args_and_methods h items a0 m0 = .ok c) :
    collectL h items [] = .ok c.cands :=
  loop_ok_collectL h items _ c hr

theorem collectL_ok_giam (h : Heap) (items : List PyValue) (a0 : Nat → PyValue) (m0 : Nat → Nat)
    (out : List (PyValue × Nat)) (hr : collectL h items [] = .ok out) :
    ∃ c, get_implementing_args_and_methods h items a0 m0 = .ok c ∧ c.cands = out :=
  collectL_ok_loop h items ⟨0, a0, m0⟩ out hr

theorem giam_error_collectL (h : Heap) (items : List PyValue) (a0 : Nat → PyValue)
    (m0 : Nat → Nat) (e : PyErr)
    (hr : get_implementing_args_and_methods h items a0 m0 = .error e) :
    collectL h items [] = .error e :=
  loop_error_collectL h items _ e hr

theorem giam_args_perm (h : Heap) (items : List PyValue) (a0 : Nat → PyValue) (m0 : Nat → Nat)
    (c : Collected) (hr : get_implementing_args_and_methods h items a0 m0 = .ok c) :
    c.args.Perm (firstOccurrences h items) := by
  have := collectL_perm h items [] c.cands (giam_ok_collectL h items a0 m0 c hr)
  rw [args_eq_cands]
  simpa [firstOccurrences, candTypes] using this

theorem firstOccurrences_length (h : Heap) (items : List PyValue) :
    (firstOccurrences h items).length = (distinctOverrideTypes h items).card := by
  unfold distinctOverrideTypes firstOccurrences
  rw [← List.length_map (firstOccurrencesFrom h items []) h.Py_TYPE,
    ← List.toFinset_card_of_nodup (firstOccurrencesFrom_types_nodup h items [])]
  congr 1
  ext t
  rw [List.mem_toFinset, List.mem_toFinset, firstOccurrencesFrom_types]
  simp only [List.not_mem_nil, not_false_eq_true, true_and, List.mem_map, List.mem_filter]
  constructor
  · rintro ⟨a, ha, h1, h2⟩
    exact ⟨a, ⟨ha, h1⟩, h2⟩
  · rintro ⟨a, ⟨ha, h1⟩, h2⟩
    exact ⟨a, ha, h1, h2⟩

theorem giam_ok_iff (h : Heap) (items : List PyValue) (a0 : Nat → PyValue) (m0 : Nat → Nat) :
    (∃ c, get_implementing_args_and_methods h items a0 m0 = .ok c) ↔
      (distinctOverrideTypes h items).card ≤ h.NPY_MAXARGS := by
  rw [← firstOccurrences_length]
  have := collectL_ok_iff h items [] (Nat.zero_le _)
  simp only [List.length_nil, Nat.zero_add] at this
  rw [firstOccurrences, ← show candTypes h [] = [] from rfl, ← this]
  constructor
  · rintro ⟨c, hc⟩
    exact ⟨_, giam_ok_collectL h items a0 m0 c hc⟩
  · rintro ⟨out, ho⟩
    obtain ⟨c, hc, -⟩ := collectL_ok_giam h items a0 m0 out ho
    exact ⟨c, hc⟩

theorem giam_num (h : Heap) (items : List PyValue) (a0 : Nat → PyValue) (m0 : Nat → Nat)
    (c : Collected) (hr : get_implementing_args_and_methods h items a0 m0 = .ok c) :
    c.num_implementing_args = (distinctOverrideTypes h items).card := by
  rw [← firstOccurrences_length, ← (giam_args_perm h items a0 m0 c hr).length_eq]
  simp [Collected.args]

theorem loop_cons (h : Heap) (argument : PyValue) (rest : List PyValue) (s : Collected) :
    get_implementing_args_and_methods_loop h (argument :: rest) s =
      if new_class h s.implementing_args s.num_implementing_args argument then
        match get_array_function h argument with
        | .ok (some method) =>
          if s.num_implementing_args ≥ h.NPY_MAXARGS then
            .error (.TypeError (maxargs_message h))
          else
            get_implementing_args_and_methods_loop h rest
              { num_implementing_args := s.num_implementing_args + 1
                implementing_args :=
                  pyobject_array_insert s.implementing_args s.num_implementing_args
                    (arg_index h s.implementing_args s.num_implementing_args argument) argument
                methods := pyobject_array_insert s.methods s.num_implementing_args
                  (arg_index h s.implementing_args s.num_implementing_args argument) method }
        | _ => get_implementing_args_and_methods_loop h rest s
      else
        get_implementing_args_and_methods_loop h rest s := by
  rw [get_implementing_args_and_methods_loop]

theorem loop_append (h : Heap) (pre rest : List PyValue) (s : Collected) :
    get_implementing_args_and_methods_loop h (pre ++ rest) s =
      match get_implementing_args_and_methods_loop h pre s with
      | .ok s1 => get_implementing_args_and_methods_loop h rest s1
      | .error e => .error e := by
  induction pre generalizing s with
  | nil => rfl
  | cons a pre ih =>
    rw [List.cons_append, loop_cons h a (pre ++ rest), loop_cons h a pre]
    split
    · split
      · split
        · rfl
        · exact ih _
      · exact ih _
    · exact ih _

theorem collectL_types_mem (h : Heap) (items : List PyValue) (cs out : List (PyValue × Nat))
    (hr : collectL h items cs = .ok out) (t : Nat) :
    t ∈ candTypes h out ↔
      t ∈ candTypes h cs ∨ ∃ a ∈ items, hasOverride h a = true ∧ h.Py_TYPE a = t := by
  have hp := (collectL_perm h items cs out hr).map h.Py_TYPE
  rw [candTypes_eq_map_fst, hp.mem_iff, List.map_append, List.mem_append,
    ← candTypes_eq_map_fst, firstOccurrencesFrom_types]
  constructor
  · rintro (h1 | ⟨-, h2⟩)
    · exact Or.inl h1
    · exact Or.inr h2
  · rintro (h1 | h2)
    · exact Or.inl h1
    · by_cases hm : t ∈ candTypes h cs
      · exact Or.inl hm
      · exact Or.inr ⟨hm, h2⟩

theorem loop_skip_seen (h : Heap) (x : PyValue) (post : List PyValue) (s : Collected)
    (hs : h.Py_TYPE x ∈ candTypes h s.cands) :
    get_implementing_args_and_methods_loop h (x :: post) s =
      get_implementing_args_and_methods_loop h post s := by
  rw [get_implementing_args_and_methods_loop, new_class_eq_any,
    (any_type_iff h x s.cands).2 hs]
  rfl

/-- An argument whose exact type is that of an earlier argument with an override does not
change the run. -/
theorem loop_remove_duplicate (h : Heap) (pre post : List PyValue) (x : PyValue) (s : Collected)
    (hd : ∃ y ∈ pre, hasOverride h y = true ∧ h.Py_TYPE y = h.Py_TYPE x) :
    get_implementing_args_and_methods_loop h (pre ++ x :: post) s =
      get_implementing_args_and_methods_loop h (pre ++ post) s := by
  rw [loop_append, loop_append h pre post]
  rcases hl : get_implementing_args_and_methods_loop h pre s with e | s1
  · rfl
  · simp only
    apply loop_skip_seen
    rw [collectL_types_mem h pre s.cands s1.cands (loop_ok_collectL h pre s s1 hl)]
    exact Or.inr hd

theorem giam_methods (h : Heap) (items : List PyValue) (a0 : Nat → PyValue) (m0 : Nat → Nat)
    (c : Collected) (hr : get_implementing_args_and_methods h items a0 m0 = .ok c) (j : Nat)
    (hj : j < c.num_implementing_args) :
    get_array_function h (c.implementing_args j) = .ok (some (c.methods j)) := by
  have := collectL_methods h items [] c.cands (by simp) (giam_ok_collectL h items a0 m0 c hr)
    (c.implementing_args j, c.methods j)
  apply this
  simp only [Collected.cands, List.mem_map, List.mem_range]
  exact ⟨j, hj, rfl⟩

/-! ## Order of the candidates -/

theorem mem_take_findIdx {α : Type} (p : α → Bool) (l : List α) :
    ∀ x ∈ l.take (l.findIdx p), p x = false := by
  induction l with
  | nil => simp
  | cons a l ih =>
    intro x hx
    rw [List.findIdx_cons] at hx
    cases hp : p a
    · rw [hp] at hx
      simp only [cond_false, List.take_succ_cons, List.mem_cons] at hx
      rcases hx with rfl | hx
      · exact hp
      · exact ih x hx
    · rw [hp] at hx
      simp at hx

theorem drop_findIdx {α : Type} (p : α → Bool) (l : List α) :
    l.drop (l.findIdx p) = [] ∨ ∃ y rest, l.drop (l.findIdx p) = y :: rest ∧ p y = true := by
  induction l with
  | nil => simp
  | cons a l ih =>
    rw [List.findIdx_cons]
    cases hp : p a
    · simpa using ih
    · right
      exact ⟨a, l, by simp, hp⟩

theorem insertAt_length_eq {α : Type} (l : List α) (x : α) : insertAt l l.length x = l ++ [x] := by
  simp [insertAt]

theorem firstOccurrencesFrom_sublist (h : Heap) (items : List PyValue) (seen : List Nat) :
    (firstOccurrencesFrom h items seen).Sublist items := by
  induction items generalizing seen with
  | nil => simp [firstOccurrencesFrom]
  | cons a rest ih =>
    by_cases hc : hasOverride h a = true ∧ h.Py_TYPE a ∉ seen
    · rw [firstOccurrencesFrom, if_pos hc]
      exact (ih _).cons₂ a
    · rw [firstOccurrencesFrom, if_neg hc]
      exact (ih _).cons a

/-- When no participating argument is an instance of the exact type of a participating
argument of another type, every new candidate goes to the end. -/
theorem collectL_unrelated (h : Heap) (all items : List PyValue) (cs out : List (PyValue × Nat))
    (hun : ∀ x ∈ all, ∀ y ∈ all, hasOverride h x = true → hasOverride h y = true →
      h.Py_TYPE x ≠ h.Py_TYPE y → h.PyObject_IsInstance x (h.Py_TYPE y) = 0)
    (hsub : ∀ a ∈ items, a ∈ all)
    (hcs : ∀ c ∈ cs, c.1 ∈ all ∧ hasOverride h c.1 = true)
    (hr : collectL h items cs = .ok out) :
    out.map Prod.fst = cs.map Prod.fst ++ firstOccurrencesFrom h items (candTypes h cs) := by
  induction items generalizing cs with
  | nil =>
    simp only [collectL, Except.ok.injEq] at hr
    subst hr
    simp [firstOccurrencesFrom]
  | cons a rest ih =>
    have hrest : ∀ b ∈ rest, b ∈ all := fun b hb => hsub b (List.mem_cons_of_mem _ hb)
    by_cases hs : h.Py_TYPE a ∈ candTypes h cs
    · rw [collectL_cons_seen h a rest cs hs] at hr
      rw [firstOccurrencesFrom_cons_seen h a rest _ hs]
      exact ih cs hrest hcs hr
    · cases ho : hasOverride h a
      · rw [collectL_cons_none h a rest cs ho] at hr
        rw [firstOccurrencesFrom_cons_none h a rest _ ho]
        exact ih cs hrest hcs hr
      · obtain ⟨m, hg⟩ := (hasOverride_iff h a).1 ho
        rw [collectL_cons_new h a rest cs m hs hg] at hr
        by_cases hcap : cs.length ≥ h.NPY_MAXARGS
        · rw [if_pos hcap] at hr
          cases hr
        · rw [if_neg hcap] at hr
          have hidx : cs.findIdx (fun c => h.PyObject_IsInstance a (h.Py_TYPE c.1) != 0) =
              cs.length := by
            apply List.findIdx_eq_length_of_false
            intro c hc
            have hne : h.Py_TYPE a ≠ h.Py_TYPE c.1 := by
              intro e
              apply hs
              rw [e]
              exact List.mem_map.2 ⟨c, hc, rfl⟩
            have := hun a (hsub a (List.mem_cons_self _ _)) c.1 (hcs c hc).1 ho (hcs c hc).2 hne
            simp [this]
          rw [hidx, insertAt_length_eq] at hr
          have := ih (cs ++ [(a, m)]) hrest ?_ hr
          · rw [this, firstOccurrencesFrom_cons_new h a rest _ hs ho]
            rw [firstOccurrencesFrom_congr h rest (candTypes h (cs ++ [(a, m)]))
              (h.Py_TYPE a :: candTypes h cs) (fun t => by
                rw [← insertAt_length_eq, candTypes_insertAt, mem_insertAt, List.mem_cons])]
            simp
          · intro c hc
            rcases List.mem_append.1 hc with e | e
            · exact hcs c e
            · simp only [List.mem_singleton] at e
              subst e
              exact ⟨hsub a (List.mem_cons_self _ _), ho⟩

/-- The candidates stay ordered with no candidate after one of its superclasses, when
being an instance is a transitive and antisymmetric relation on exact types. -/
theorem collectL_ordered (h : Heap) (sub : Nat → Nat → Prop)
    (hinst : ∀ a t, h.PyObject_IsInstance a t ≠ 0 ↔ sub (h.Py_TYPE a) t)
    (htrans : ∀ a b c, sub a b → sub b c → sub a c)
    (hanti : ∀ a b, sub a b → sub b a → a = b)
    (items : List PyValue) (cs out : List (PyValue × Nat))
    (hord : cs.Pairwise (fun c d => ¬ sub (h.Py_TYPE d.1) (h.Py_TYPE c.1)))
    (hr : collectL h items cs = .ok out) :
    out.Pairwise (fun c d => ¬ sub (h.Py_TYPE d.1) (h.Py_TYPE c.1)) := by
  induction items generalizing cs with
  | nil =>
    simp only [collectL, Except.ok.injEq] at hr
    subst hr
    exact hord
  | cons a rest ih =>
    by_cases hs : h.Py_TYPE a ∈ candTypes h cs
    · rw [collectL_cons_seen h a rest cs hs] at hr
      exact ih cs hord hr
    · cases ho : hasOverride h a
      · rw [collectL_cons_none h a rest cs ho] at hr
        exact ih cs hord hr
      · obtain ⟨m, hg⟩ := (hasOverride_iff h a).1 ho
        rw [collectL_cons_new h a rest cs m hs hg] at hr
        by_cases hcap : cs.length ≥ h.NPY_MAXARGS
        · rw [if_pos hcap] at hr
          cases hr
        · rw [if_neg hcap] at hr
          refine ih _ ?_ hr
          generalize hp : (fun c : PyValue × Nat =>
            h.PyObject_IsInstance a (h.Py_TYPE c.1) != 0) = p
          have hsplit : cs = cs.take (cs.findIdx p) ++ cs.drop (cs.findIdx p) :=
            (List.take_append_drop _ _).symm
          have hord2 := hord
          rw [hsplit, List.pairwise_append] at hord2
          obtain ⟨h1, h2, h3⟩ := hord2
          have hbefore : ∀ c ∈ cs.take (cs.findIdx p), ¬ sub (h.Py_TYPE a) (h.Py_TYPE c.1) := by
            intro c hc hsubc
            have := mem_take_findIdx p cs c hc
            rw [← hp] at this
            have h4 := (hinst a (h.Py_TYPE c.1)).2 hsubc
            simp [h4] at this
          have hafter : ∀ d ∈ cs.drop (cs.findIdx p), ¬ sub (h.Py_TYPE d.1) (h.Py_TYPE a) := by
            intro d hd hsubd
            rcases drop_findIdx p cs with e | ⟨y, tl, e, hy⟩
            · rw [e] at hd
              cases hd
            · rw [← hp] at hy
              have hay : sub (h.Py_TYPE a) (h.Py_TYPE y.1) := by
                apply (hinst a (h.Py_TYPE y.1)).1
                simpa using hy
              rw [e] at hd h2
              rcases List.mem_cons.1 hd with e2 | e2
              · subst e2
                apply hs
                rw [hanti _ _ hay hsubd]
                apply List.mem_map.2
                refine ⟨d, ?_, rfl⟩
                have : d ∈ cs.drop (cs.findIdx p) := by rw [e]; exact List.mem_cons_self _ _
                exact List.mem_of_mem_drop this
              · exact (List.pairwise_cons.1 h2).1 d e2 (htrans _ _ _ hsubd hay)
          unfold insertAt
          rw [List.pairwise_append]
          refine ⟨h1, List.pairwise_cons.2 ⟨hafter, h2⟩, ?_⟩
          intro c hc d hd
          rcases List.mem_cons.1 hd with e | e
          · subst e
            exact hbefore c hc
          · exact h3 c hc d e

theorem exHeap_isInstance (a : PyValue) (t : Nat) :
    exHeap.PyObject_IsInstance a t ≠ 0 ↔ exSub (exHeap.Py_TYPE a) t = true := by
  simp only [exHeap]
  split <;> simp_all

theorem exSub_trans (a b c : Nat) (h1 : exSub a b = true) (h2 : exSub b c = true) :
    exSub a c = true := by
  simp only [exSub, Bool.or_eq_true, Bool.and_eq_true, beq_iff_eq] at *
  omega

theorem exSub_antisymm (a b : Nat) (h1 : exSub a b = true) (h2 : exSub b a = true) : a = b := by
  simp only [exSub, Bool.or_eq_true, Bool.and_eq_true, beq_iff_eq] at *
  omega

theorem sublist_insertAt {α : Type} (l : List α) (i : Nat) (x : α) : l.Sublist (insertAt l i x) := by
  unfold insertAt
  conv_lhs => rw [← List.take_append_drop i l]
  exact (List.Sublist.refl _).append (List.sublist_cons_self _ _)

theorem collectL_sublist (h : Heap) (items : List PyValue) (cs out : List (PyValue × Nat))
    (hr : collectL h items cs = .ok out) : cs.Sublist out := by
  induction items generalizing cs with
  | nil =>
    simp only [collectL, Except.ok.injEq] at hr
    subst hr
    exact List.Sublist.refl _
  | cons a rest ih =>
    by_cases hs : h.Py_TYPE a ∈ candTypes h cs
    · rw [collectL_cons_seen h a rest cs hs] at hr
      exact ih cs hr
    · cases ho : hasOverride h a
      · rw [collectL_cons_none h a rest cs ho] at hr
        exact ih cs hr
      · obtain ⟨m, hg⟩ := (hasOverride_iff h a).1 ho
        rw [collectL_cons_new h a rest cs m hs hg] at hr
        by_cases hcap : cs.length ≥ h.NPY_MAXARGS
        · rw [if_pos hcap] at hr
          cases hr
        · rw [if_neg hcap] at hr
          exact (sublist_insertAt _ _ _).trans (ih _ hr)

theorem pair_sublist_insertAt_of_lt {α : Type} (l : List α) (i p : Nat) (y : α)
    (hp : p < l.length) (hlt : p < i) : [l[p], y].Sublist (insertAt l i y) := by
  unfold insertAt
  have h1 : [l[p]].Sublist (l.take i) := by
    rw [List.singleton_sublist, List.mem_take_iff_getElem]
    exact ⟨p, by omega, rfl⟩
  have h2 : [y].Sublist (y :: l.drop i) := by
    rw [List.singleton_sublist]
    exact List.mem_cons_self _ _
  exact h1.append h2

theorem pair_sublist_insertAt_of_le {α : Type} (l : List α) (i p : Nat) (y : α)
    (hp : p < l.length) (hle : i ≤ p) : [y, l[p]].Sublist (insertAt l i y) := by
  unfold insertAt
  have h1 : [l[p]].Sublist (l.drop i) := by
    rw [List.singleton_sublist, List.mem_drop_iff_getElem]
    exact ⟨p - i, by omega, by congr 1; omega⟩
  exact (h1.cons₂ y).trans (List.sublist_append_right _ _)

/-- Where a new candidate `y` lands relative to the candidate at position `p`: after it when
`y` is an instance of the type of no candidate at positions `0..p`, before it otherwise. -/
theorem insert_position (h : Heap) (cs : List (PyValue × Nat)) (p : Nat) (hp : p < cs.length)
    (y : PyValue) (m : Nat) :
    ((∀ q (hq : q < cs.length), q ≤ p → h.PyObject_IsInstance y (h.Py_TYPE cs[q].1) = 0) →
      [cs[p], (y, m)].Sublist
        (insertAt cs (cs.findIdx (fun c => h.PyObject_IsInstance y (h.Py_TYPE c.1) != 0)) (y, m))) ∧
    ((∃ q, ∃ hq : q < cs.length, q ≤ p ∧ h.PyObject_IsInstance y (h.Py_TYPE cs[q].1) ≠ 0) →
      [(y, m), cs[p]].Sublist
        (insertAt cs (cs.findIdx (fun c => h.PyObject_IsInstance y (h.Py_TYPE c.1) != 0))
          (y, m))) := by
  constructor
  · intro hall
    apply pair_sublist_insertAt_of_lt _ _ _ _ hp
    by_contra hle
    have hle : cs.findIdx (fun c => h.PyObject_IsInstance y (h.Py_TYPE c.1) != 0) ≤ p := by omega
    have hlt : cs.findIdx (fun c => h.PyObject_IsInstance y (h.Py_TYPE c.1) != 0) < cs.length := by
      omega
    have h1 := @List.findIdx_getElem _ (fun c => h.PyObject_IsInstance y (h.Py_TYPE c.1) != 0)
      cs hlt
    have h2 := hall _ hlt hle
    simp [h2] at h1
  · rintro ⟨q, hq, hqp, hne⟩
    apply pair_sublist_insertAt_of_le _ _ _ _ hp
    by_contra hlt
    have hlt : q < cs.findIdx (fun c => h.PyObject_IsInstance y (h.Py_TYPE c.1) != 0) := by omega
    have := List.not_of_lt_findIdx hlt
    simp at this
    exact hne this

/-! ## The dispatch loop -/

theorem PySequence_Fast_trace {σ : Type} (rt : Interp σ) (o : PyValue) (msg : String)
    (w : World σ) : (PySequence_Fast rt o msg w).2.trace = w.trace := by
  unfold PySequence_Fast
  cases o <;> first
    | rfl
    | (simp only
       split <;> rfl)

theorem any_overrides_eq_false_iff (h : Heap) (methods : Nat → Nat) (n : Nat) :
    any_overrides h methods n = false ↔
      ∀ j, j < n → is_default_array_function h (.obj (methods j)) = true := by
  simp [any_overrides]

theorem internal_call_loop_cons_defer {σ : Type} (rt : Interp σ) (h : Heap)
    (public_api types args kwargs : PyValue) (implementing_args : Nat → PyValue)
    (methods : Nat → Nat) (j : Nat) (rest : List Nat) (w : World σ)
    (hd : (call_array_function rt h (implementing_args j) (.obj (methods j)) public_api types
      args kwargs w).1 = .ok .NotImplemented) :
    internal_call_loop rt h public_api types args kwargs implementing_args methods (j :: rest) w =
      internal_call_loop rt h public_api types args kwargs implementing_args methods rest
        (call_array_function rt h (implementing_args j) (.obj (methods j)) public_api types
          args kwargs w).2 := by
  rw [internal_call_loop]
  simp only [hd]

theorem internal_call_loop_cons_stop {σ : Type} (rt : Interp σ) (h : Heap)
    (public_api types args kwargs : PyValue) (implementing_args : Nat → PyValue)
    (methods : Nat → Nat) (j : Nat) (rest : List Nat) (w : World σ)
    (hd : (call_array_function rt h (implementing_args j) (.obj (methods j)) public_api types
      args kwargs w).1 ≠ .ok .NotImplemented) :
    internal_call_loop rt h public_api types args kwargs implementing_args methods (j :: rest) w =
      (some (call_array_function rt h (implementing_args j) (.obj (methods j)) public_api types
          args kwargs w).1,
        (call_array_function rt h (implementing_args j) (.obj (methods j)) public_api types
          args kwargs w).2) := by
  rw [internal_call_loop]
  simp only

/-- A result that leaves the loop is never the deferral sentinel. -/
theorem internal_call_loop_some_ne {σ : Type} (rt : Interp σ) (h : Heap)
    (public_api types args kwargs : PyValue) (implementing_args : Nat → PyValue)
    (methods : Nat → Nat) (js : List Nat) (w : World σ) (r : PyResult)
    (hr : (internal_call_loop rt h public_api types args kwargs implementing_args methods
      js w).1 = some r) : r ≠ .ok .NotImplemented := by
  induction js generalizing w with
  | nil => simp [internal_call_loop] at hr
  | cons j rest ih =>
    by_cases hd : (call_array_function rt h (implementing_args j) (.obj (methods j)) public_api
      types args kwargs w).1 = .ok .NotImplemented
    · rw [internal_call_loop_cons_defer _ _ _ _ _ _ _ _ _ _ _ hd] at hr
      exact ih _ hr
    · rw [internal_call_loop_cons_stop _ _ _ _ _ _ _ _ _ _ _ hd] at hr
      simp only [Option.some.injEq] at hr
      rw [← hr]
      exact hd

theorem raise_no_override_error {σ : Type} (rt : Interp σ) (api types : PyValue) (w : World σ) :
    ∃ e, (raise_no_override rt api types w).1 = .error e := by
  unfold raise_no_override
  split
  · exact ⟨_, rfl⟩
  · simp only
    split
    · exact ⟨_, rfl⟩
    · exact ⟨_, rfl⟩

/-- The function body once the sequence is realised and the candidates are collected. -/
theorem internal_eq {σ : Type} (rt : Interp σ) (h : Heap)
    (public_api relevant_args args kwargs : PyValue) (implementing_args : Nat → PyValue)
    (array_function_methods : Nat → Nat) (w w1 : World σ) (items : List PyValue) (c : Collected)
    (hseq : PySequence_Fast rt relevant_args
      "dispatcher for __array_function__ did not return an iterable" w = (.ok items, w1))
    (hcol : get_implementing_args_and_methods h items implementing_args
      array_function_methods = .ok c) :
    array_implement_array_function_internal rt h public_api relevant_args args kwargs
        implementing_args array_function_methods w =
      if !any_overrides h c.methods c.num_implementing_args then (.ok .NotImplemented, w1)
      else
        match (internal_call_loop rt h public_api
          (build_types h c.implementing_args c.num_implementing_args) args kwargs
          c.implementing_args c.methods (List.range c.num_implementing_args) w1).1 with
        | some result => (result, (internal_call_loop rt h public_api
            (build_types h c.implementing_args c.num_implementing_args) args kwargs
            c.implementing_args c.methods (List.range c.num_implementing_args) w1).2)
        | none => raise_no_override rt public_api
            (build_types h c.implementing_args c.num_implementing_args)
            (internal_call_loop rt h public_api
              (build_types h c.implementing_args c.num_implementing_args) args kwargs
              c.implementing_args c.methods (List.range c.num_implementing_args) w1).2 := by
  unfold array_implement_array_function_internal
  simp only [hseq, hcol]

theorem internal_call_loop_first_nondefer {σ : Type} (rt : Interp σ) (h : Heap)
    (public_api types args kwargs : PyValue) (implementing_args : Nat → PyValue)
    (methods : Nat → Nat) (pre : List Nat) (j : Nat) (rest : List Nat) (w wk : World σ)
    (r : PyResult)
    (hrun : invoke_candidates rt h public_api types args kwargs implementing_args methods
      (pre ++ [j]) w = (List.replicate pre.length (.ok .NotImplemented) ++ [r], wk))
    (hr : r ≠ .ok .NotImplemented) :
    internal_call_loop rt h public_api types args kwargs implementing_args methods
      (pre ++ j :: rest) w = (some r, wk) := by
  induction pre generalizing w with
  | nil =>
    simp only [List.nil_append, invoke_candidates, List.length_nil, List.replicate_zero,
      Prod.mk.injEq, List.cons.injEq, and_true] at hrun
    rw [List.nil_append, internal_call_loop_cons_stop _ _ _ _ _ _ _ _ _ _ _
      (by rw [hrun.1]; exact hr), hrun.1, hrun.2]
  | cons i pre ih =>
    simp only [List.cons_append, invoke_candidates, List.length_cons, List.replicate_succ,
      Prod.mk.injEq, List.cons.injEq] at hrun
    obtain ⟨⟨h1, h2⟩, h3⟩ := hrun
    rw [List.cons_append, internal_call_loop_cons_defer _ _ _ _ _ _ _ _ _ _ _ h1]
    apply ih
    exact Prod.ext h2 h3

theorem range_split (n k : Nat) (hk : k < n) :
    ∃ rest, List.range n = List.range k ++ k :: rest := by
  refine ⟨(List.range n).drop (k + 1), ?_⟩
  have h1 : (List.range n).take (k + 1) = List.range (k + 1) := by
    rw [List.take_range, Nat.min_eq_left (by omega)]
  have h2 := List.take_append_drop (k + 1) (List.range n)
  rw [h1, List.range_succ, List.append_assoc] at h2
  exact h2.symm

theorem call_array_function_trace {σ : Type} (rt : Interp σ) (h : Heap)
    (public_api types args kwargs : PyValue) (implementing_args : Nat → PyValue)
    (methods : Nat → Nat) (n j : Nat) (hj : j < n) (w : World σ) :
    ∃ calls, (call_array_function rt h (implementing_args j) (.obj (methods j)) public_api
        types args kwargs w).2.trace = w.trace ++ calls ∧
      ∀ e ∈ calls, InternalCall rt h public_api types args kwargs implementing_args methods n e := by
  unfold call_array_function
  cases hd : is_default_array_function h (.obj (methods j))
  · simp only [Bool.false_eq_true, if_false, invoke]
    refine ⟨_, rfl, ?_⟩
    intro e he
    simp only [List.mem_singleton] at he
    exact Or.inr (Or.inr ⟨j, hj, hd, he⟩)
  · simp only [if_true, array_function_method_impl]
    split
    · exact ⟨[], by simp, by simp⟩
    · exact ⟨[], by simp, by simp⟩
    · split
      · exact ⟨[], by simp, by simp⟩
      · rename_i implementation hg
        simp only [invoke]
        refine ⟨_, rfl, ?_⟩
        intro e he
        simp only [List.mem_singleton] at he
        exact Or.inl ⟨implementation, hg, he⟩

theorem internal_call_loop_trace {σ : Type} (rt : Interp σ) (h : Heap)
    (public_api types args kwargs : PyValue) (implementing_args : Nat → PyValue)
    (methods : Nat → Nat) (n : Nat) (js : List Nat) (hjs : ∀ j ∈ js, j < n) (w : World σ) :
    ∃ calls, (internal_call_loop rt h public_api types args kwargs implementing_args methods
        js w).2.trace = w.trace ++ calls ∧
      ∀ e ∈ calls, InternalCall rt h public_api types args kwargs implementing_args methods n e := by
  induction js generalizing w with
  | nil => exact ⟨[], by simp [internal_call_loop], by simp⟩
  | cons j rest ih =>
    obtain ⟨c1, ht1, hc1⟩ := call_array_function_trace rt h public_api types args kwargs
      implementing_args methods n j (hjs j (List.mem_cons_self _ _)) w
    by_cases hd : (call_array_function rt h (implementing_args j) (.obj (methods j)) public_api
      types args kwargs w).1 = .ok .NotImplemented
    · rw [internal_call_loop_cons_defer _ _ _ _ _ _ _ _ _ _ _ hd]
      obtain ⟨c2, ht2, hc2⟩ := ih (fun i hi => hjs i (List.mem_cons_of_mem _ hi))
        (call_array_function rt h (implementing_args j) (.obj (methods j)) public_api
          types args kwargs w).2
      refine ⟨c1 ++ c2, by rw [ht2, ht1, List.append_assoc], ?_⟩
      intro e he
      rcases List.mem_append.1 he with h1 | h1
      · exact hc1 e h1
      · exact hc2 e h1
    · rw [internal_call_loop_cons_stop _ _ _ _ _ _ _ _ _ _ _ hd]
      exact ⟨c1, ht1, hc1⟩

theorem raise_no_override_trace {σ : Type} (rt : Interp σ) (api types : PyValue) (w : World σ) :
    (raise_no_override rt api types w).2.trace = w.trace ∨
      ∃ f, rt.errmsg_formatter = .ok f ∧ (raise_no_override rt api types w).2.trace =
        w.trace ++ [.PyObject_CallFunctionObjArgs f [api, types]] := by
  unfold raise_no_override
  split
  · exact Or.inl rfl
  · rename_i f hf
    right
    refine ⟨f, hf, ?_⟩
    simp only [invoke]
    split <;> rfl

/-! ## The dispatcher object -/

theorem invoke_trace {σ : Type} (rt : Interp σ) (c : Call) (w : World σ) :
    (invoke rt c w).2.trace = w.trace ++ [c] := rfl

/-- The exhaustion exit of `array_implement_array_function_internal`: when the loop over the
candidates ends without a result, the formatter is importable and returns `errmsg` for
`(public_api, types)`, the function fails with the `TypeError` carrying `errmsg`. -/
theorem internal_exhausted_raises {σ : Type} (rt : Interp σ) (h : Heap)
    (public_api relevant_args args kwargs : PyValue) (implementing_args : Nat → PyValue)
    (array_function_methods : Nat → Nat) (w w1 w2 w3 : World σ) (items : List PyValue)
    (c : Collected) (errmsg_formatter errmsg : PyValue)
    (hseq : PySequence_Fast rt relevant_args
      "dispatcher for __array_function__ did not return an iterable" w = (.ok items, w1))
    (hcol : get_implementing_args_and_methods h items implementing_args
      array_function_methods = .ok c)
    (hany : any_overrides h c.methods c.num_implementing_args = true)
    (hloop : internal_call_loop rt h public_api
      (build_types h c.implementing_args c.num_implementing_args) args kwargs
      c.implementing_args c.methods (List.range c.num_implementing_args) w1 = (none, w2))
    (himp : rt.errmsg_formatter = .ok errmsg_formatter)
    (hfmt : invoke rt (.PyObject_CallFunctionObjArgs errmsg_formatter
      [public_api, build_types h c.implementing_args c.num_implementing_args]) w2 =
        (.ok errmsg, w3)) :
    array_implement_array_function_internal rt h public_api relevant_args args kwargs
      implementing_args array_function_methods w = (.error (.TypeErrorObject errmsg), w3) := by
  rw [internal_eq rt h public_api relevant_args args kwargs implementing_args
    array_function_methods w w1 items c hseq hcol]
  simp only [hany, Bool.not_true, Bool.false_eq_true, if_false, hloop, raise_no_override, himp,
    hfmt]

/-! ## Lookup, argument conversion and array creation -/

theorem loop_skip_none (h : Heap) (a : PyValue) (rest : List PyValue) (s : Collected)
    (hn : hasOverride h a = false) :
    get_implementing_args_and_methods_loop h (a :: rest) s =
      get_implementing_args_and_methods_loop h rest s := by
  rw [loop_cons]
  unfold hasOverride at hn
  split
  · rcases hg : get_array_function h a with e | (_ | m)
    · rfl
    · rfl
    · rw [hg] at hn
      simp at hn
  · rfl

theorem loop_remove_non_participating (h : Heap) (pre post : List PyValue) (a : PyValue)
    (s : Collected) (hn : hasOverride h a = false) :
    get_implementing_args_and_methods_loop h (pre ++ a :: post) s =
      get_implementing_args_and_methods_loop h (pre ++ post) s := by
  rw [loop_append, loop_append h pre post]
  rcases get_implementing_args_and_methods_loop h pre s with e | s1
  · rfl
  · exact loop_skip_none h a post s1 hn

theorem hasOverride_of_lookup_failed (h : Heap) (a : PyValue) (e : PyErr)
    (hx : PyArray_CheckExact h a = false) (hl : h.PyArray_LookupSpecial a = .failed e) :
    hasOverride h a = false := by
  simp [hasOverride, get_array_function, hx, hl]

/-- One step of the loop of `dispatcher_vectorcall` for a non-baseline method: unless the
argument itself is the baseline method object, the call made has the argument as callee
and the method as its first argument. -/
theorem dispatcher_step_calls_argument {σ : Type} (rt : Interp σ) (h : Heap)
    (argument : PyValue) (method : Nat) (public_api types packed_args packed_kwargs : PyValue)
    (w : World σ) (hd : is_default_array_function h argument = false) :
    call_array_function rt h (.obj method) argument public_api types packed_args
        packed_kwargs w =
      invoke rt (.PyObject_CallFunctionObjArgs argument
        [.obj method, public_api, types, packed_args, packed_kwargs]) w := by
  simp [call_array_function, hd]

theorem giam_error_of_cap (h : Heap) (items : List PyValue) (a0 : Nat → PyValue)
    (m0 : Nat → Nat) (hcap : h.NPY_MAXARGS < (distinctOverrideTypes h items).card) :
    get_implementing_args_and_methods h items a0 m0 = .error (.TypeError (maxargs_message h)) := by
  rcases hg : get_implementing_args_and_methods h items a0 m0 with e | c
  · rw [collectL_error h items [] e (giam_error_collectL h items a0 m0 e hg)]
  · have := (giam_ok_iff h items a0 m0).1 ⟨c, hg⟩
    omega

theorem pack_tp_call_arguments (args : List PyValue) (nargs : Nat) (kwnames : Option PyValue) :
    pack__array_function__ (tp_call_arguments args nargs kwnames).1
        (tp_call_arguments args nargs kwnames).2 =
      .tuple [.tuple (args.take nargs), .dict (keyword_mapping args nargs kwnames)] := by
  unfold tp_call_arguments keyword_mapping pack__array_function__
  rcases kwnames with _ | k
  · rfl
  · cases k with
    | tuple names =>
      cases names with
      | nil => rfl
      | cons n ns => rfl
    | obj a => rfl
    | list l => rfl
    | dict d => rfl
    | NotImplemented => rfl

theorem any_overrides_one (h : Heap) (methods : Nat → Nat) :
    any_overrides h methods 1 = !is_default_array_function h (.obj (methods 0)) := by
  simp [any_overrides, List.range_succ]

theorem PyDict_SetItem_new_key (md : Module) (d : List (PyValue × PyValue)) (key value : PyValue)
    (hnew : ∀ e ∈ d, md.same_key e.1 key = false) :
    PyDict_SetItem md d key value = d ++ [(key, value)] := by
  induction d with
  | nil => rfl
  | cons e d ih =>
    obtain ⟨k, v⟩ := e
    have hk : md.same_key k key = false := hnew (k, v) (List.mem_cons_self _ _)
    rw [PyDict_SetItem]
    simp only [hk, Bool.false_eq_true, if_false, List.cons_append]
    rw [ih (fun e he => hnew e (List.mem_cons_of_mem _ he))]

theorem creation_kwargs_loop_eq (md : Module) (fast_args : List PyValue) (len_args : Nat)
    (names : List PyValue) (i : Nat) (acc : List (PyValue × PyValue))
    (hdist : names.Pairwise (fun a b => md.same_key a b = false))
    (hacc : ∀ e ∈ acc, ∀ n ∈ names, md.same_key e.1 n = false)
    (hlen : i + len_args + names.length ≤ fast_args.length) :
    creation_kwargs_loop md fast_args len_args names i acc =
      acc ++ names.zip (fast_args.drop (i + len_args)) := by
  induction names generalizing i acc with
  | nil => simp [creation_kwargs_loop]
  | cons key rest ih =>
    simp only [List.length_cons] at hlen
    have hlt : i + len_args < fast_args.length := by omega
    rw [creation_kwargs_loop]
    rw [PyDict_SetItem_new_key md acc key _ (fun e he => hacc e he key (List.mem_cons_self _ _))]
    rw [ih (i + 1) _ (List.pairwise_cons.1 hdist).2 ?_ (by omega)]
    · rw [show i + 1 + len_args = i + len_args + 1 by omega, List.drop_eq_getElem_cons hlt,
        List.zip_cons_cons, List.getD_eq_getElem _ _ hlt, List.append_assoc]
      rfl
    · intro e he n hn
      rcases List.mem_append.1 he with h1 | h1
      · exact hacc e h1 n (List.mem_cons_of_mem _ hn)
      · simp only [List.mem_singleton] at h1
        subst h1
        exact (List.pairwise_cons.1 hdist).1 n hn

theorem PyDict_DelItem_present (md : Module) (pre post : List (PyValue × PyValue))
    (k v key : PyValue) (hk : md.same_key k key = true)
    (hpre : ∀ e ∈ pre, md.same_key e.1 key = false) :
    PyDict_DelItem md (pre ++ (k, v) :: post) key = some (pre ++ post) := by
  induction pre with
  | nil => simp [PyDict_DelItem, hk]
  | cons e pre ih =>
    obtain ⟨k2, v2⟩ := e
    have h2 : md.same_key k2 key = false := hpre (k2, v2) (List.mem_cons_self _ _)
    rw [List.cons_append, PyDict_DelItem]
    simp only [h2, Bool.false_eq_true, if_false]
    rw [ih (fun e he => hpre e (List.mem_cons_of_mem _ he))]
    rfl

theorem PyDict_DelItem_absent (md : Module) (d : List (PyValue × PyValue)) (key : PyValue)
    (hno : ∀ e ∈ d, md.same_key e.1 key = false) : PyDict_DelItem md d key = none := by
  induction d with
  | nil => rfl
  | cons e d ih =>
    obtain ⟨k2, v2⟩ := e
    have h2 : md.same_key k2 key = false := hno (k2, v2) (List.mem_cons_self _ _)
    rw [PyDict_DelItem]
    simp only [h2, Bool.false_eq_true, if_false]
    rw [ih (fun e he => hno e (List.mem_cons_of_mem _ he))]
    rfl

/-! ## The indices written by the collector -/

theorem mem_pyobject_array_insert_loop_writes (index j i : Nat) :
    i ∈ pyobject_array_insert_loop_writes index j ↔ index < i ∧ i ≤ j := by
  induction j with
  | zero =>
    simp only [pyobject_array_insert_loop_writes, List.not_mem_nil, false_iff]
    omega
  | succ j ih =>
    unfold pyobject_array_insert_loop_writes
    by_cases hj : j + 1 > index
    · rw [if_pos hj, List.mem_cons, ih]
      omega
    · rw [if_neg hj]
      simp only [List.not_mem_nil, false_iff]
      omega

theorem mem_pyobject_array_insert_writes (length index i : Nat) :
    i ∈ pyobject_array_insert_writes length index ↔ i = index ∨ (index < i ∧ i ≤ length) := by
  unfold pyobject_array_insert_writes
  rw [List.mem_append, mem_pyobject_array_insert_loop_writes, List.mem_singleton]
  tauto

theorem pyobject_array_insert_frame {α : Type} (array : Nat → α) (length index : Nat)
    (item : α) (k : Nat) (hk : k ∉ pyobject_array_insert_writes length index) :
    pyobject_array_insert array length index item k = array k := by
  rw [mem_pyobject_array_insert_writes] at hk
  rw [pyobject_array_insert_apply]
  have h1 : ¬ k = index := fun e => hk (Or.inl e)
  have h2 : ¬ (index < k ∧ k ≤ length) := fun e => hk (Or.inr e)
  rw [if_neg h1, if_neg h2]

theorem loop_frame (h : Heap) (items : List PyValue) (s c : Collected)
    (hr : get_implementing_args_and_methods_loop h items s = .ok c) (k : Nat)
    (hk : h.NPY_MAXARGS ≤ k) :
    c.implementing_args k = s.implementing_args k ∧ c.methods k = s.methods k := by
  induction items generalizing s with
  | nil =>
    simp only [get_implementing_args_and_methods_loop, Except.ok.injEq] at hr
    subst hr
    exact ⟨rfl, rfl⟩
  | cons a rest ih =>
    rw [loop_cons] at hr
    split at hr
    · split at hr
      · split at hr
        · cases hr
        · rename_i hcap
          have := ih _ hr
          simp only at this
          have hw : k ∉ pyobject_array_insert_writes s.num_implementing_args
              (arg_index h s.implementing_args s.num_implementing_args a) := by
            rw [mem_pyobject_array_insert_writes]
            have := arg_index_eq_findIdx h s a
            have h2 : s.cands.findIdx
                (fun c : PyValue × Nat => h.PyObject_IsInstance a (h.Py_TYPE c.1) != 0) ≤
                  s.cands.length := List.findIdx_le_length _
            rw [cands_length] at h2
            omega
          rw [pyobject_array_insert_frame _ _ _ _ _ hw,
            pyobject_array_insert_frame _ _ _ _ _ hw] at this
          exact this
      · exact ih _ hr
    · exact ih _ hr

/-! ## The baseline override -/

theorem array_function_method_impl_loop_true {σ : Type} (rt : Interp σ) (h : Heap)
    (items : List PyValue)
    (hall : ∀ t ∈ items, rt.PyObject_IsSubclass t h.PyArray_Type = .ok true) :
    array_function_method_impl_loop rt h items = .ok true := by
  induction items with
  | nil => rfl
  | cons t rest ih =>
    unfold array_function_method_impl_loop
    rw [hall t (List.mem_cons_self _ _)]
    exact ih (fun x hx => hall x (List.mem_cons_of_mem _ hx))

theorem array_function_method_impl_loop_false {σ : Type} (rt : Interp σ) (h : Heap)
    (items : List PyValue)
    (hfree : ∀ t ∈ items, ∃ b, rt.PyObject_IsSubclass t h.PyArray_Type = .ok b)
    (hsome : ∃ t ∈ items, rt.PyObject_IsSubclass t h.PyArray_Type = .ok false) :
    array_function_method_impl_loop rt h items = .ok false := by
  induction items with
  | nil =>
    obtain ⟨t, ht, -⟩ := hsome
    cases ht
  | cons t rest ih =>
    unfold array_function_method_impl_loop
    obtain ⟨b, hb⟩ := hfree t (List.mem_cons_self _ _)
    cases b with
    | false => rw [hb]
    | true =>
      rw [hb]
      apply ih (fun x hx => hfree x (List.mem_cons_of_mem _ hx))
      obtain ⟨u, hu, hf⟩ := hsome
      rcases List.mem_cons.1 hu with rfl | hu
      · rw [hb] at hf
        cases hf
      · exact ⟨u, hu, hf⟩

theorem all_subclass_or_some_not {σ : Type} (rt : Interp σ) (h : Heap) (items : List PyValue)
    (hfree : ∀ t ∈ items, ∃ b, rt.PyObject_IsSubclass t h.PyArray_Type = .ok b) :
    (∀ t ∈ items, rt.PyObject_IsSubclass t h.PyArray_Type = .ok true) ∨
      ∃ t ∈ items, rt.PyObject_IsSubclass t h.PyArray_Type = .ok false := by
  by_cases hs : ∃ t ∈ items, rt.PyObject_IsSubclass t h.PyArray_Type = .ok false
  · exact Or.inr hs
  · left
    intro t ht
    obtain ⟨b, hb⟩ := hfree t ht
    cases b with
    | true => exact hb
    | false => exact absurd ⟨t, ht, hb⟩ hs

theorem array_function_method_impl_defers {σ : Type} (rt : Interp σ) (h : Heap)
    (func types args kwargs : PyValue) (w : World σ)
    (hfree : ∀ t ∈ PySequence_Fast_ITEMS types,
      ∃ b, rt.PyObject_IsSubclass t h.PyArray_Type = .ok b)
    (hsome : ∃ t ∈ PySequence_Fast_ITEMS types,
      rt.PyObject_IsSubclass t h.PyArray_Type = .ok false) :
    array_function_method_impl rt h func types args kwargs w = (.ok .NotImplemented, w) := by
  unfold array_function_method_impl
  rw [array_function_method_impl_loop_false rt h _ hfree hsome]

theorem array_function_method_impl_accepts {σ : Type} (rt : Interp σ) (h : Heap)
    (func types args kwargs : PyValue) (w : World σ)
    (hall : ∀ t ∈ PySequence_Fast_ITEMS types,
      rt.PyObject_IsSubclass t h.PyArray_Type = .ok true) :
    array_function_method_impl rt h func types args kwargs w =
      match rt.getattr_implementation func with
      | .error e => (.error e, w)
      | .ok implementation => invoke rt (.PyObject_Call implementation args kwargs) w := by
  unfold array_function_method_impl
  rw [array_function_method_impl_loop_true rt h _ hall]

theorem PySequence_Fast_ITEMS_build_types (h : Heap) (implementing_args : Nat → PyValue)
    (num_implementing_args : Nat) :
    PySequence_Fast_ITEMS (build_types h implementing_args num_implementing_args) =
      (List.range num_implementing_args).map
        (fun j => .obj (h.Py_TYPE (implementing_args j))) := rfl

/-- For a candidate list in which some candidate's type is not a subclass of the array type
(subclass checks being error-free), `array_function_method_impl` applied to the list's
types witness returns `NotImplemented` and calls nothing; so invoking a baseline candidate
`j` returns `NotImplemented` with the world unchanged, and the loop of
`array_implement_array_function_internal` goes on with the remaining candidates as the loop
of `dispatcher_vectorcall` does after skipping `j`. -/
theorem baseline_candidate_defers {σ : Type} (rt : Interp σ) (h : Heap)
    (self : PyArray_ArrayFunctionDispatcherObject) (public_api args kwargs : PyValue)
    (implementing_args : Nat → PyValue) (array_function_methods : Nat → Nat)
    (num_implementing_args : Nat) (j : Nat) (rest : List Nat) (w : World σ)
    (hfree : ∀ i, i < num_implementing_args →
      ∃ b, rt.PyObject_IsSubclass (.obj (h.Py_TYPE (implementing_args i))) h.PyArray_Type =
        .ok b)
    (hsome : ∃ i, i < num_implementing_args ∧
      rt.PyObject_IsSubclass (.obj (h.Py_TYPE (implementing_args i))) h.PyArray_Type =
        .ok false)
    (hbase : is_default_array_function h (.obj (array_function_methods j)) = true) :
    array_function_method_impl rt h public_api
        (build_types h implementing_args num_implementing_args) args kwargs w =
      (.ok .NotImplemented, w) ∧
    call_array_function rt h (implementing_args j) (.obj (array_function_methods j)) public_api
        (build_types h implementing_args num_implementing_args) args kwargs w =
      (.ok .NotImplemented, w) ∧
    internal_call_loop rt h public_api (build_types h implementing_args num_implementing_args)
        args kwargs implementing_args array_function_methods (j :: rest) w =
      internal_call_loop rt h public_api
        (build_types h implementing_args num_implementing_args) args kwargs implementing_args
        array_function_methods rest w ∧
    dispatcher_call_loop rt h self (build_types h implementing_args num_implementing_args)
        args kwargs implementing_args array_function_methods (j :: rest) w =
      dispatcher_call_loop rt h self (build_types h implementing_args num_implementing_args)
        args kwargs implementing_args array_function_methods rest w := by
  have himpl : array_function_method_impl rt h public_api
      (build_types h implementing_args num_implementing_args) args kwargs w =
        (.ok .NotImplemented, w) := by
    apply array_function_method_impl_defers
    · intro t ht
      rw [PySequence_Fast_ITEMS_build_types, List.mem_map] at ht
      obtain ⟨i, hi, rfl⟩ := ht
      exact hfree i (List.mem_range.1 hi)
    · obtain ⟨i, hi, hf⟩ := hsome
      refine ⟨.obj (h.Py_TYPE (implementing_args i)), ?_, hf⟩
      rw [PySequence_Fast_ITEMS_build_types, List.mem_map]
      exact ⟨i, List.mem_range.2 hi, rfl⟩
  have hcall : call_array_function rt h (implementing_args j)
      (.obj (array_function_methods j)) public_api
      (build_types h implementing_args num_implementing_args) args kwargs w =
        (.ok .NotImplemented, w) := by
    unfold call_array_function
    rw [if_pos hbase, himpl]
  refine ⟨himpl, hcall, ?_, ?_⟩
  · rw [internal_call_loop]
    simp only [hcall]
  · rw [dispatcher_call_loop]
    simp only [hbase, if_true]

/-! ## Forwarded arguments in the `like=` mode -/

/-- In the `like=` mode, for a call `like :: rest` with `nargs + 1` positional arguments
whose first argument has the override `method`: when `method` is the baseline, the call is
the call of the default implementation with `rest`, `nargs` and the same `kwnames`, that
is, with the original arguments without the first; otherwise the argument packer is called
with those same forwarded arguments, and when it answers as `pack__array_function__` does,
the `args` and `kwargs` handed on for the candidate are the tuple of the original
positional arguments without the first and the dict of the original keyword arguments. -/
theorem like_mode_forwarded_arguments {σ : Type} (rt : Interp σ) (h : Heap)
    (self : PyArray_ArrayFunctionDispatcherObject) (like : PyValue) (rest : List PyValue)
    (nargs : Nat) (kwnames : Option PyValue) (implementing_args : Nat → PyValue)
    (array_function_methods : Nat → Nat) (w : World σ) (method : Nat)
    (hmode : self.relevant_arg_func = none)
    (hm : get_array_function h like = .ok (some method)) :
    (((like :: rest).take (nargs + 1)).tail = rest.take nargs ∧
      keyword_mapping (like :: rest) (nargs + 1) kwnames = keyword_mapping rest nargs kwnames) ∧
    (is_default_array_function h (.obj method) = true →
      dispatcher_vectorcall rt h self (like :: rest) (nargs + 1) kwnames implementing_args
          array_function_methods w =
        invoke rt (.PyObject_Vectorcall self.default_impl rest nargs kwnames) w) ∧
    (is_default_array_function h (.obj method) = false →
      ∀ argpacker w1,
        (w.argpacker = some argpacker ∨
          (w.argpacker = none ∧ rt.getattr_pack self.ob_self = .ok argpacker)) →
        invoke rt (.PyObject_Vectorcall argpacker rest nargs kwnames)
            { w with argpacker := some argpacker } =
          (.ok (pack__array_function__ (tp_call_arguments rest nargs kwnames).1
            (tp_call_arguments rest nargs kwnames).2), w1) →
        dispatcher_vectorcall rt h self (like :: rest) (nargs + 1) kwnames implementing_args
            array_function_methods w =
          match (call_array_function rt h (.obj method) like self.default_impl
            (.tuple [.obj (h.Py_TYPE like)]) (.tuple (rest.take nargs))
            (.dict (keyword_mapping rest nargs kwnames)) w1).1 with
          | .ok .NotImplemented =>
            raise_no_override rt self.ob_self (.tuple [.obj (h.Py_TYPE like)])
              (call_array_function rt h (.obj method) like self.default_impl
                (.tuple [.obj (h.Py_TYPE like)]) (.tuple (rest.take nargs))
                (.dict (keyword_mapping rest nargs kwnames)) w1).2
          | result =>
            (result, (call_array_function rt h (.obj method) like self.default_impl
              (.tuple [.obj (h.Py_TYPE like)]) (.tuple (rest.take nargs))
              (.dict (keyword_mapping rest nargs kwnames)) w1).2)) := by
  refine ⟨⟨by simp, ?_⟩, ?_, ?_⟩
  · unfold keyword_mapping
    simp
  · intro hd
    unfold dispatcher_vectorcall
    have hm0 : arr_set array_function_methods 0 method 0 = method := by simp [arr_set]
    simp only [hmode, hm, dispatcher_vectorcall_dispatch, any_overrides_one, hm0, hd,
      Bool.not_true, Bool.not_false, if_true]
  · intro hd argpacker w1 hcache hpack
    have hcached : (match w.argpacker with
        | some argpacker => (Except.ok argpacker : PyResult)
        | none => rt.getattr_pack self.ob_self) = .ok argpacker := by
      rcases hcache with hc | ⟨hc, hg⟩
      · rw [hc]
      · rw [hc, hg]
    rw [pack_tp_call_arguments] at hpack
    have hm0 : arr_set array_function_methods 0 method 0 = method := by simp [arr_set]
    have ha0 : arr_set implementing_args 0 like 0 = like := by simp [arr_set]
    have htypes : build_types h (arr_set implementing_args 0 like) 1 =
        .tuple [.obj (h.Py_TYPE like)] := by
      simp [build_types, arr_set, List.range_succ]
    have hapi : dispatcher_public_api self = self.default_impl := by
      simp [dispatcher_public_api, hmode]
    unfold dispatcher_vectorcall
    simp only [hmode, hm, dispatcher_vectorcall_dispatch, any_overrides_one, hm0, hd,
      Bool.not_false, Bool.not_true, Bool.false_eq_true, if_false, hcached, hpack, htypes,
      show List.range 1 = [0] from rfl, dispatcher_call_loop, ha0, hapi]
    by_cases hni : (call_array_function rt h (.obj method) like self.default_impl
        (.tuple [.obj (h.Py_TYPE like)]) (.tuple (rest.take nargs))
        (.dict (keyword_mapping rest nargs kwnames)) w1).1 = .ok .NotImplemented
    · simp only [hni]
    · simp only [hni]

/-! ## Failing `isinstance` checks of the collector -/

/-- C1: when `isinstance` is a transitive, antisymmetric relation `sub` on exact types
(the subclass relation), then in every successful result a candidate whose type is a
proper subclass of another candidate's type stands before it, whatever the input order. -/
theorem C1_subclass_before_superclass (h : Heap) (sub : Nat → Nat → Prop)
    (hinst : ∀ a t, h.PyObject_IsInstance a t ≠ 0 ↔ sub (h.Py_TYPE a) t)
    (htrans : ∀ a b c, sub a b → sub b c → sub a c)
    (hanti : ∀ a b, sub a b → sub b a → a = b)
    (relevant_args : List PyValue) (implementing_args : Nat → PyValue) (methods : Nat → Nat)
    (c : Collected)
    (hr : get_implementing_args_and_methods h relevant_args implementing_args methods = .ok c)
    (i j : Nat) (hi : i < c.num_implementing_args) (hj : j < c.num_implementing_args)
    (hsub : sub (h.Py_TYPE (c.implementing_args i)) (h.Py_TYPE (c.implementing_args j)))
    (hne : h.Py_TYPE (c.implementing_args i) ≠ h.Py_TYPE (c.implementing_args j)) :
    i < j := by
  have hord := collectL_ordered h sub hinst htrans hanti relevant_args [] c.cands
    List.Pairwise.nil (giam_ok_collectL h relevant_args implementing_args methods c hr)
  rw [List.pairwise_iff_getElem] at hord
  rcases Nat.lt_trichotomy i j with hlt | heq | hgt
  · exact hlt
  · subst heq
    exact absurd rfl hne
  · exfalso
    have := hord j i (by rw [cands_length]; exact hj) (by rw [cands_length]; exact hi) hgt
    apply this
    simpa [Collected.cands] using hsub

/-- C1 on the example graph: the input `[b, a]` with `type(a) = 3` a subclass of
`type(b) = 1` yields `[a, b]`. -/
theorem C1_subclass_before_superclass_witness :
    (get_implementing_args_and_methods exHeap [.obj 10, .obj 30] exArgs0 exMeths0).map
        Collected.args = .ok [.obj 30, .obj 10] ∧
    exSub 3 1 = true ∧ (3 : Nat) ≠ 1 ∧ (0 : Nat) < 1 :=
  ⟨rfl, rfl, by decide,
    C1_subclass_before_superclass exHeap (fun s t => exSub s t = true) exHeap_isInstance
      exSub_trans exSub_antisymm [.obj 10, .obj 30] exArgs0 exMeths0 _ rfl 0 1
      (by decide) (by decide) rfl (by decide)⟩

/-- C2: on success the candidates have pairwise distinct exact types and are, up to order,
the first occurrences: an argument is a candidate exactly when it stands in the input, has
an override, and no argument before it has an override and the same exact type; each
method is the override looked up for its argument; and an input argument whose exact type
is that of an earlier argument with an override can be removed without changing the
result. -/
theorem C2_first_occurrence_wins (h : Heap) (relevant_args : List PyValue)
    (implementing_args : Nat → PyValue) (methods : Nat → Nat) (c : Collected)
    (hr : get_implementing_args_and_methods h relevant_args implementing_args methods = .ok c) :
    (c.args.map h.Py_TYPE).Nodup ∧
    c.args.Perm (firstOccurrences h relevant_args) ∧
    (∀ x, x ∈ c.args ↔ ∃ pre post, relevant_args = pre ++ x :: post ∧
      hasOverride h x = true ∧
      ∀ y ∈ pre, hasOverride h y = true → h.Py_TYPE y ≠ h.Py_TYPE x) ∧
    (∀ j, j < c.num_implementing_args →
      get_array_function h (c.implementing_args j) = .ok (some (c.methods j))) ∧
    (∀ pre x post, relevant_args = pre ++ x :: post →
      (∃ y ∈ pre, hasOverride h y = true ∧ h.Py_TYPE y = h.Py_TYPE x) →
      get_implementing_args_and_methods h (pre ++ post) implementing_args methods = .ok c) := by
  have hp := giam_args_perm h relevant_args implementing_args methods c hr
  refine ⟨?_, hp, ?_, giam_methods h relevant_args implementing_args methods c hr, ?_⟩
  · rw [(hp.map h.Py_TYPE).nodup_iff]
    exact firstOccurrencesFrom_types_nodup h relevant_args []
  · intro x
    rw [hp.mem_iff, firstOccurrences, mem_firstOccurrencesFrom_iff]
    simp
  · intro pre x post he hd
    rw [← hr, he]
    exact (loop_remove_duplicate h pre post x _ hd).symm

/-- C2 on the example graph: of two arguments of type 2 only the first is collected, the
argument of type 9 without an override is not, and removing the second argument of type 2
from the input gives the same result. -/
theorem C2_first_occurrence_wins_witness :
    (get_implementing_args_and_methods exHeap [.obj 20, .obj 21, .obj 90, .obj 40] exArgs0
      exMeths0).map Collected.args = .ok [.obj 20, .obj 40] ∧
    (get_implementing_args_and_methods exHeap [.obj 20, .obj 90, .obj 40] exArgs0
      exMeths0).map Collected.args = .ok [.obj 20, .obj 40] :=
  ⟨rfl, congrArg (Except.map Collected.args)
    ((C2_first_occurrence_wins exHeap [.obj 20, .obj 21, .obj 90, .obj 40] exArgs0 exMeths0 _
      rfl).2.2.2.2 [.obj 20] (.obj 21) [.obj 90, .obj 40] rfl
      ⟨.obj 20, List.mem_singleton.2 rfl, rfl, rfl⟩)⟩

/-- C3: when no argument with an override is an instance of the exact type of an argument
with an override of another type, and the first occurrences fit into the buffers, the run
succeeds and returns the first occurrences of the arguments with an override in their
left-to-right order, each with the method looked up for it. -/
theorem C3_unrelated_left_to_right (h : Heap) (relevant_args : List PyValue)
    (implementing_args : Nat → PyValue) (methods : Nat → Nat)
    (hun : ∀ x ∈ relevant_args, ∀ y ∈ relevant_args, hasOverride h x = true →
      hasOverride h y = true → h.Py_TYPE x ≠ h.Py_TYPE y →
      h.PyObject_IsInstance x (h.Py_TYPE y) = 0)
    (hcap : (distinctOverrideTypes h relevant_args).card ≤ h.NPY_MAXARGS) :
    ∃ c, get_implementing_args_and_methods h relevant_args implementing_args methods = .ok c ∧
      c.args = firstOccurrences h relevant_args ∧
      c.args.Sublist relevant_args ∧
      ∀ j, j < c.num_implementing_args →
        get_array_function h (c.implementing_args j) = .ok (some (c.methods j)) := by
  obtain ⟨c, hc⟩ := (giam_ok_iff h relevant_args implementing_args methods).2 hcap
  have he : c.args = firstOccurrences h relevant_args := by
    have := collectL_unrelated h relevant_args relevant_args [] c.cands hun (fun a ha => ha)
      (by simp) (giam_ok_collectL h relevant_args implementing_args methods c hc)
    rw [args_eq_cands, this]
    rfl
  refine ⟨c, hc, he, ?_, giam_methods h relevant_args implementing_args methods c hc⟩
  rw [he]
  exact firstOccurrencesFrom_sublist h relevant_args []

/-- C3 on the example graph: `[x, y, z]` of the unrelated types 2, 4, 5 yields `[x, y, z]`. -/
theorem C3_unrelated_left_to_right_witness :
    (get_implementing_args_and_methods exHeap [.obj 20, .obj 40, .obj 50] exArgs0 exMeths0).map
      Collected.args = .ok [.obj 20, .obj 40, .obj 50] := by
  obtain ⟨c, hc, -, -, -⟩ := C3_unrelated_left_to_right exHeap [.obj 20, .obj 40, .obj 50]
    exArgs0 exMeths0
    (by
      intro x hx y hy _ _ hne
      simp only [List.mem_cons, List.mem_singleton, List.not_mem_nil, or_false] at hx hy
      rcases hx with rfl | rfl | rfl <;> rcases hy with rfl | rfl | rfl <;>
        first
          | rfl
          | exact absurd rfl hne)
    (by decide)
  rfl

/-- C4 as stated fails on the example graph: `x` (type 2) is seen before `y` (type 3), the
two types are incomparable, and `y` is a subclass of the type 1 of `w`; the input
`[w, x, y]` yields `[y, w, x]`, with `y` before `x`. -/
theorem C4_first_seen_counterexample :
    (get_implementing_args_and_methods exHeap [.obj 10, .obj 20, .obj 30] exArgs0 exMeths0).map
        Collected.args = .ok [.obj 30, .obj 10, .obj 20] ∧
    exSub 2 3 = false ∧ exSub 3 2 = false ∧ exSub 3 1 = true ∧
    exHeap.Py_TYPE (.obj 10) = 1 ∧ exHeap.Py_TYPE (.obj 20) = 2 ∧ exHeap.Py_TYPE (.obj 30) = 3 :=
  ⟨rfl, rfl, rfl, rfl, rfl, rfl, rfl⟩

/-- C4 amended: let `c1` be the candidates collected from `pre`, `x` the candidate at
position `p` of `c1`, and `y` the next argument, with an override and of a type not yet
collected.  In every successful result for `pre ++ y :: post`, `x` stands before `y` when
`y` is an instance of the exact type of no candidate at positions `0..p` of `c1`, and `y`
stands before `x` when it is an instance of the exact type of one of them. -/
theorem C4_first_seen_amended (h : Heap) (pre post : List PyValue) (y : PyValue)
    (implementing_args : Nat → PyValue) (methods : Nat → Nat) (c1 c : Collected) (p : Nat)
    (h1 : get_implementing_args_and_methods h pre implementing_args methods = .ok c1)
    (hr : get_implementing_args_and_methods h (pre ++ y :: post) implementing_args methods =
      .ok c)
    (hp : p < c1.num_implementing_args)
    (hy : hasOverride h y = true)
    (hnew : ∀ q, q < c1.num_implementing_args →
      h.Py_TYPE (c1.implementing_args q) ≠ h.Py_TYPE y) :
    ((∀ q, q ≤ p → h.PyObject_IsInstance y (h.Py_TYPE (c1.implementing_args q)) = 0) →
      [c1.implementing_args p, y].Sublist c.args) ∧
    ((∃ q, q ≤ p ∧ h.PyObject_IsInstance y (h.Py_TYPE (c1.implementing_args q)) ≠ 0) →
      [y, c1.implementing_args p].Sublist c.args) := by
  obtain ⟨m, hg⟩ := (hasOverride_iff h y).1 hy
  have hs : h.Py_TYPE y ∉ candTypes h c1.cands := by
    intro hm
    simp only [candTypes, Collected.cands, List.map_map, List.mem_map, List.mem_range,
      Function.comp_apply] at hm
    obtain ⟨q, hq, e⟩ := hm
    exact hnew q hq e
  unfold get_implementing_args_and_methods at h1 hr
  rw [loop_append, h1] at hr
  have hl := loop_ok_collectL h (y :: post) c1 c hr
  rw [collectL_cons_new h y post c1.cands m hs hg] at hl
  by_cases hcap : c1.cands.length ≥ h.NPY_MAXARGS
  · rw [if_pos hcap] at hl
    cases hl
  · rw [if_neg hcap] at hl
    have hsl := collectL_sublist h post _ _ hl
    have hp2 : p < c1.cands.length := by rw [cands_length]; exact hp
    have hpos := insert_position h c1.cands p hp2 y m
    have hget : ∀ q (hq : q < c1.cands.length),
        c1.cands[q] = (c1.implementing_args q, c1.methods q) := by
      intro q hq
      simp [Collected.cands]
    rw [args_eq_cands]
    constructor
    · intro hall
      have := (hpos.1 (fun q hq hqp => by rw [hget q hq]; exact hall q hqp)).trans hsl
      have := this.map Prod.fst
      simpa [hget p hp2] using this
    · rintro ⟨q, hqp, hne⟩
      have hq : q < c1.cands.length := by omega
      have := (hpos.2 ⟨q, hq, hqp, by rw [hget q hq]; exact hne⟩).trans hsl
      have := this.map Prod.fst
      simpa [hget p hp2] using this

/-- C4 amended, on the example graph: after `[w, x]`, the argument `y` whose type is a
subclass of the type of `w` lands before `x`; after `[x, w]` it lands after `x`. -/
theorem C4_first_seen_amended_witness :
    (get_implementing_args_and_methods exHeap [.obj 10, .obj 20, .obj 30] exArgs0 exMeths0).map
        Collected.args = .ok [.obj 30, .obj 10, .obj 20] ∧
    [PyValue.obj 30, PyValue.obj 20].Sublist [.obj 30, .obj 10, .obj 20] ∧
    (get_implementing_args_and_methods exHeap [.obj 20, .obj 10, .obj 30] exArgs0 exMeths0).map
        Collected.args = .ok [.obj 20, .obj 30, .obj 10] ∧
    [PyValue.obj 20, PyValue.obj 30].Sublist [.obj 20, .obj 30, .obj 10] :=
  ⟨rfl, (C4_first_seen_amended exHeap [.obj 10, .obj 20] [] (.obj 30) exArgs0 exMeths0 _ _ 1
    rfl rfl (by decide) rfl
    (by
      intro q hq
      have hq2 : q < 2 := hq
      interval_cases q <;> decide)).2 ⟨0, by decide, by decide⟩,
    rfl, (C4_first_seen_amended exHeap [.obj 20, .obj 10] [] (.obj 30) exArgs0 exMeths0 _ _ 0
    rfl rfl (by decide) rfl
    (by
      intro q hq
      have hq2 : q < 2 := hq
      interval_cases q <;> decide)).1
    (by
      intro q hq
      have hq2 : q = 0 := by omega
      subst hq2
      rfl)⟩

/-- C5: `get_implementing_args_and_methods` fails exactly when the input has more than
`NPY_MAXARGS` distinct exact types with an override, the only failure is the `TypeError`
whose message carries `NPY_MAXARGS`, a successful run returns as many candidates as there
are such types, at most `NPY_MAXARGS`, and with exactly `NPY_MAXARGS` such types the run
succeeds with `NPY_MAXARGS` candidates. -/
theorem C5_candidate_cap (h : Heap) (relevant_args : List PyValue)
    (implementing_args : Nat → PyValue) (methods : Nat → Nat) :
    ((∃ e, get_implementing_args_and_methods h relevant_args implementing_args methods =
        .error e) ↔ h.NPY_MAXARGS < (distinctOverrideTypes h relevant_args).card) ∧
    (get_implementing_args_and_methods h relevant_args implementing_args methods =
        .error (.TypeError ("maximum number (" ++ toString h.NPY_MAXARGS ++
          ") of distinct argument types implementing __array_function__ exceeded")) ↔
      h.NPY_MAXARGS < (distinctOverrideTypes h relevant_args).card) ∧
    (∀ c, get_implementing_args_and_methods h relevant_args implementing_args methods = .ok c →
      c.num_implementing_args = (distinctOverrideTypes h relevant_args).card ∧
      c.num_implementing_args ≤ h.NPY_MAXARGS) ∧
    ((distinctOverrideTypes h relevant_args).card = h.NPY_MAXARGS →
      ∃ c, get_implementing_args_and_methods h relevant_args implementing_args methods = .ok c ∧
        c.num_implementing_args = h.NPY_MAXARGS) := by
  have hiff := giam_ok_iff h relevant_args implementing_args methods
  have herr : ∀ e, get_implementing_args_and_methods h relevant_args implementing_args methods =
      .error e → e = .TypeError (maxargs_message h) := fun e he =>
    collectL_error h relevant_args [] e (giam_error_collectL h relevant_args _ _ e he)
  have hfail : (∃ e, get_implementing_args_and_methods h relevant_args implementing_args methods =
        .error e) ↔ h.NPY_MAXARGS < (distinctOverrideTypes h relevant_args).card := by
    rw [← not_le, ← hiff]
    rcases hg : get_implementing_args_and_methods h relevant_args implementing_args methods
      with e | c
    · simp
    · simp
  refine ⟨hfail, ?_, ?_, ?_⟩
  · rw [← hfail]
    constructor
    · intro he
      exact ⟨_, he⟩
    · rintro ⟨e, he⟩
      rw [he, herr e he]
      rfl
  · intro c hc
    have hn := giam_num h relevant_args implementing_args methods c hc
    refine ⟨hn, ?_⟩
    rw [hn]
    exact hiff.1 ⟨c, hc⟩
  · intro hn
    obtain ⟨c, hc⟩ := hiff.2 (le_of_eq hn)
    exact ⟨c, hc, by rw [giam_num h relevant_args implementing_args methods c hc, hn]⟩

/-- C7: when the sequence is realised and candidate collection succeeds,
`array_implement_array_function_internal` returns `NotImplemented` exactly when every
collected method is the baseline `ndarray.__array_function__` (also with no candidate at
all); in that case it makes no call into Python code, and otherwise its result is not
`NotImplemented`. -/
theorem C7_defer_iff_all_baseline {σ : Type} (rt : Interp σ) (h : Heap)
    (public_api relevant_args args kwargs : PyValue) (implementing_args : Nat → PyValue)
    (array_function_methods : Nat → Nat) (w w1 : World σ) (items : List PyValue) (c : Collected)
    (hseq : PySequence_Fast rt relevant_args
      "dispatcher for __array_function__ did not return an iterable" w = (.ok items, w1))
    (hcol : get_implementing_args_and_methods h items implementing_args
      array_function_methods = .ok c) :
    ((array_implement_array_function_internal rt h public_api relevant_args args kwargs
        implementing_args array_function_methods w).1 = .ok .NotImplemented ↔
      ∀ j, j < c.num_implementing_args →
        is_default_array_function h (.obj (c.methods j)) = true) ∧
    ((∀ j, j < c.num_implementing_args →
        is_default_array_function h (.obj (c.methods j)) = true) →
      (array_implement_array_function_internal rt h public_api relevant_args args kwargs
        implementing_args array_function_methods w).2.trace = w.trace) := by
  rw [internal_eq rt h public_api relevant_args args kwargs implementing_args
    array_function_methods w w1 items c hseq hcol, ← any_overrides_eq_false_iff]
  have htr : w1.trace = w.trace := by
    have := PySequence_Fast_trace rt relevant_args
      "dispatcher for __array_function__ did not return an iterable" w
    rw [hseq] at this
    exact this
  cases hany : any_overrides h c.methods c.num_implementing_args
  · simp [htr]
  · simp only [Bool.not_true, Bool.false_eq_true, if_false, iff_false, false_implies, and_true,
      reduceCtorEq]
    intro hres
    split at hres
    · rename_i result hl
      simp only at hres
      exact internal_call_loop_some_ne _ _ _ _ _ _ _ _ _ _ _ hl hres
    · obtain ⟨e, he⟩ := raise_no_override_error rt public_api
        (build_types h c.implementing_args c.num_implementing_args)
        (internal_call_loop rt h public_api
          (build_types h c.implementing_args c.num_implementing_args) args kwargs
          c.implementing_args c.methods (List.range c.num_implementing_args) w1).2
      rw [he] at hres
      cases hres

/-- C7 on the example graph: two candidates of the types 5 and 6, both with the baseline
method, give `NotImplemented`. -/
theorem C7_defer_iff_all_baseline_witness :
    (array_implement_array_function_internal exInterp exHeap (.obj 1)
      (.tuple [.obj 50, .obj 60]) (.tuple []) (.dict []) exArgs0 exMeths0 exWorld).1 =
        .ok .NotImplemented :=
  (C7_defer_iff_all_baseline exInterp exHeap (.obj 1) (.tuple [.obj 50, .obj 60]) (.tuple [])
    (.dict []) exArgs0 exMeths0 exWorld exWorld [.obj 50, .obj 60] _ rfl rfl).1.2
    (by
      intro j hj
      have hj2 : j < 2 := hj
      interval_cases j <;> rfl)

/-- C8: when some candidate is non-baseline, and invoking the candidates `0..k` once each, in
candidate order, makes the first `k` return `NotImplemented` and candidate `k` return
something else `r` (a result or an error), then `array_implement_array_function_internal`
returns `r` in the state reached by exactly those invocations: the earlier candidates are
invoked once and deferred, the later ones are not invoked. -/
theorem C8_first_non_deferring_wins {σ : Type} (rt : Interp σ) (h : Heap)
    (public_api relevant_args args kwargs : PyValue) (implementing_args : Nat → PyValue)
    (array_function_methods : Nat → Nat) (w w1 wk : World σ) (items : List PyValue)
    (c : Collected) (k : Nat) (r : PyResult)
    (hseq : PySequence_Fast rt relevant_args
      "dispatcher for __array_function__ did not return an iterable" w = (.ok items, w1))
    (hcol : get_implementing_args_and_methods h items implementing_args
      array_function_methods = .ok c)
    (hany : ∃ j, j < c.num_implementing_args ∧
      is_default_array_function h (.obj (c.methods j)) = false)
    (hk : k < c.num_implementing_args)
    (hrun : invoke_candidates rt h public_api
      (.tuple (c.args.map (fun a => .obj (h.Py_TYPE a)))) args kwargs c.implementing_args
      c.methods (List.range (k + 1)) w1 =
        (List.replicate k (.ok .NotImplemented) ++ [r], wk))
    (hr : r ≠ .ok .NotImplemented) :
    array_implement_array_function_internal rt h public_api relevant_args args kwargs
      implementing_args array_function_methods w = (r, wk) := by
  have htypes : PyValue.tuple (c.args.map (fun a => PyValue.obj (h.Py_TYPE a))) =
      build_types h c.implementing_args c.num_implementing_args := by
    simp [build_types, Collected.args]
  rw [htypes] at hrun
  rw [internal_eq rt h public_api relevant_args args kwargs implementing_args
    array_function_methods w w1 items c hseq hcol]
  have hover : any_overrides h c.methods c.num_implementing_args = true := by
    cases hb : any_overrides h c.methods c.num_implementing_args
    · obtain ⟨j, hj, hd⟩ := hany
      rw [(any_overrides_eq_false_iff h c.methods c.num_implementing_args).1 hb j hj] at hd
      cases hd
    · rfl
  obtain ⟨rest, hsplit⟩ := range_split c.num_implementing_args k hk
  rw [List.range_succ] at hrun
  have hrun2 : invoke_candidates rt h public_api
      (build_types h c.implementing_args c.num_implementing_args) args kwargs
      c.implementing_args c.methods (List.range k ++ [k]) w1 =
      (List.replicate (List.range k).length (.ok .NotImplemented) ++ [r], wk) := by
    rw [List.length_range]
    exact hrun
  have hloop := internal_call_loop_first_nondefer rt h public_api
    (build_types h c.implementing_args c.num_implementing_args) args kwargs c.implementing_args
    c.methods (List.range k) k rest w1 wk r hrun2 hr
  rw [← hsplit] at hloop
  simp only [hover, Bool.not_true, Bool.false_eq_true, if_false, hloop]

/-- C8 on the example graph: the candidates are `[.obj 20, .obj 40]`; the method of the
first defers, the method of the second answers 44, which is the result. -/
theorem C8_first_non_deferring_wins_witness :
    (array_implement_array_function_internal exInterp exHeap (.obj 1)
      (.tuple [.obj 20, .obj 40]) (.tuple []) (.dict []) exArgs0 exMeths0 exWorld).1 =
        .ok (.obj 44) :=
  congrArg Prod.fst
    (C8_first_non_deferring_wins exInterp exHeap (.obj 1) (.tuple [.obj 20, .obj 40]) (.tuple [])
      (.dict []) exArgs0 exMeths0 exWorld exWorld _ [.obj 20, .obj 40] _ 1 (.ok (.obj 44))
      rfl rfl ⟨0, by decide, rfl⟩ (by decide) rfl (fun hh => by cases hh))

/-- C9 at a failing input: the extractor returns the single argument `.obj 20`, whose
method 2002 returns `NotImplemented` under the override protocol.
`array_implement_array_function_internal` fails with the `TypeError` carrying the
formatter's message 801; `dispatcher_vectorcall` hands `method` and `argument` to
`call_array_function` in exchanged positions, so it calls the argument `.obj 20` with the
method as first argument and returns what that call returns, the object 42. -/
theorem C9_dispatcher_exhaustion_failing_input :
    (invoke exInterp (.PyObject_CallFunctionObjArgs (.obj 2002)
      [.obj 20, .obj 400, .tuple [.obj 2], .tuple [], .dict []]) exWorld).1 =
        .ok .NotImplemented ∧
    (array_implement_array_function_internal exInterp exHeap (.obj 400) (.tuple [.obj 20])
      (.tuple []) (.dict []) exArgs0 exMeths0 exWorld).1 = .error (.TypeErrorObject (.obj 801)) ∧
    (dispatcher_vectorcall exInterp exHeap exDispatcher [] 0 none exArgs0 exMeths0 exWorld).1 =
      .ok (.obj 42) ∧
    (dispatcher_vectorcall exInterp exHeap exDispatcher [] 0 none exArgs0 exMeths0
      exWorld).2.trace =
      [.PyObject_Vectorcall (.obj 501) [] 0 none,
        .PyObject_Vectorcall (.obj 700) [] 0 none,
        .PyObject_CallFunctionObjArgs (.obj 20)
          [.obj 2002, .obj 400, .tuple [.obj 2], .tuple [], .dict []]] :=
  ⟨rfl, rfl, rfl, rfl⟩

/-- C10: when the sequence is realised and candidate collection succeeds, every call into
Python code made by `array_implement_array_function_internal` is the implementation
behind `public_api` called with `(args, kwargs)` (baseline fast path), the error-message
formatter called with `(public_api, types)`, or the method of a non-baseline candidate `j`
called with `(implementing_args[j], public_api, types, args, kwargs)`, where `types` is
the tuple of the exact types of the candidates in candidate order, the same in every
call; and invoking a non-baseline candidate is exactly that last call. -/
theorem C10_override_protocol_call {σ : Type} (rt : Interp σ) (h : Heap)
    (public_api relevant_args args kwargs : PyValue) (implementing_args : Nat → PyValue)
    (array_function_methods : Nat → Nat) (w w1 : World σ) (items : List PyValue) (c : Collected)
    (hseq : PySequence_Fast rt relevant_args
      "dispatcher for __array_function__ did not return an iterable" w = (.ok items, w1))
    (hcol : get_implementing_args_and_methods h items implementing_args
      array_function_methods = .ok c) :
    (∃ calls, (array_implement_array_function_internal rt h public_api relevant_args args kwargs
        implementing_args array_function_methods w).2.trace = w.trace ++ calls ∧
      ∀ e ∈ calls,
        (∃ implementation, rt.getattr_implementation public_api = .ok implementation ∧
          e = .PyObject_Call implementation args kwargs) ∨
        (∃ f, rt.errmsg_formatter = .ok f ∧
          e = .PyObject_CallFunctionObjArgs f
            [public_api, .tuple (c.args.map (fun a => .obj (h.Py_TYPE a)))]) ∨
        (∃ j, j < c.num_implementing_args ∧
          is_default_array_function h (.obj (c.methods j)) = false ∧
          e = .PyObject_CallFunctionObjArgs (.obj (c.methods j))
            [c.implementing_args j, public_api,
              .tuple (c.args.map (fun a => .obj (h.Py_TYPE a))), args, kwargs])) ∧
    (∀ j, j < c.num_implementing_args →
      is_default_array_function h (.obj (c.methods j)) = false →
      ∀ w2 : World σ,
        call_array_function rt h (c.implementing_args j) (.obj (c.methods j)) public_api
            (.tuple (c.args.map (fun a => .obj (h.Py_TYPE a)))) args kwargs w2 =
          invoke rt (.PyObject_CallFunctionObjArgs (.obj (c.methods j))
            [c.implementing_args j, public_api,
              .tuple (c.args.map (fun a => .obj (h.Py_TYPE a))), args, kwargs]) w2) := by
  have htypes : PyValue.tuple (c.args.map (fun a => PyValue.obj (h.Py_TYPE a))) =
      build_types h c.implementing_args c.num_implementing_args := by
    simp [build_types, Collected.args]
  have htr : w1.trace = w.trace := by
    have := PySequence_Fast_trace rt relevant_args
      "dispatcher for __array_function__ did not return an iterable" w
    rw [hseq] at this
    exact this
  constructor
  · rw [internal_eq rt h public_api relevant_args args kwargs implementing_args
      array_function_methods w w1 items c hseq hcol, htypes]
    obtain ⟨calls, htl, hcl⟩ := internal_call_loop_trace rt h public_api
      (build_types h c.implementing_args c.num_implementing_args) args kwargs
      c.implementing_args c.methods c.num_implementing_args
      (List.range c.num_implementing_args) (fun j hj => List.mem_range.1 hj) w1
    rw [htr] at htl
    cases hany : any_overrides h c.methods c.num_implementing_args
    · exact ⟨[], by simp [htr], by simp⟩
    · simp only [Bool.not_true, Bool.false_eq_true, if_false]
      split
      · exact ⟨calls, htl, hcl⟩
      · rcases raise_no_override_trace rt public_api
          (build_types h c.implementing_args c.num_implementing_args)
          (internal_call_loop rt h public_api
            (build_types h c.implementing_args c.num_implementing_args) args kwargs
            c.implementing_args c.methods (List.range c.num_implementing_args) w1).2
          with hn | ⟨f, hf, hn⟩
        · exact ⟨calls, by rw [hn, htl], hcl⟩
        · refine ⟨calls ++ [.PyObject_CallFunctionObjArgs f
            [public_api, build_types h c.implementing_args c.num_implementing_args]],
            by rw [hn, htl, List.append_assoc], ?_⟩
          intro e he
          rcases List.mem_append.1 he with h1 | h1
          · exact hcl e h1
          · simp only [List.mem_singleton] at h1
            exact Or.inr (Or.inl ⟨f, hf, h1⟩)
  · intro j _ hd w2
    unfold call_array_function
    simp only [hd, Bool.false_eq_true, if_false]

/-- C10 on the example graph: with the candidates `[.obj 20, .obj 40]` the calls made are
the two protocol calls, each with the types tuple `(2, 4)`. -/
theorem C10_override_protocol_call_witness :
    (array_implement_array_function_internal exInterp exHeap (.obj 1)
      (.tuple [.obj 20, .obj 40]) (.tuple []) (.dict []) exArgs0 exMeths0 exWorld).2.trace =
      [.PyObject_CallFunctionObjArgs (.obj 2002)
          [.obj 20, .obj 1, .tuple [.obj 2, .obj 4], .tuple [], .dict []],
        .PyObject_CallFunctionObjArgs (.obj 2004)
          [.obj 40, .obj 1, .tuple [.obj 2, .obj 4], .tuple [], .dict []]] ∧
    call_array_function exInterp exHeap (.obj 40) (.obj 2004) (.obj 1)
        (.tuple [.obj 2, .obj 4]) (.tuple []) (.dict []) exWorld =
      invoke exInterp (.PyObject_CallFunctionObjArgs (.obj 2004)
        [.obj 40, .obj 1, .tuple [.obj 2, .obj 4], .tuple [], .dict []]) exWorld :=
  ⟨rfl, (C10_override_protocol_call exInterp exHeap (.obj 1) (.tuple [.obj 20, .obj 40])
    (.tuple []) (.dict []) exArgs0 exMeths0 exWorld exWorld [.obj 20, .obj 40] _ rfl rfl).2 1
    (by decide) rfl exWorld⟩

/-- C11 at a failing input: the extractor returns the single argument `.obj 40`, whose
method 2004 is not the baseline and answers 44 under the override protocol.
`dispatcher_vectorcall` does not make that call: it calls the argument `.obj 40` with the
method 2004 as first argument, which raises, and the call fails. -/
theorem C11_dispatcher_protocol_failing_input :
    get_array_function exHeap (.obj 40) = .ok (some 2004) ∧
    is_default_array_function exHeap (.obj 2004) = false ∧
    (invoke exInterp2 (.PyObject_CallFunctionObjArgs (.obj 2004)
      [.obj 40, .obj 404, .tuple [.obj 4], .tuple [], .dict []]) exWorld).1 = .ok (.obj 44) ∧
    (dispatcher_vectorcall exInterp2 exHeap exDispatcherCallee [] 0 none exArgs0 exMeths0
      exWorld).2.trace =
      [.PyObject_Vectorcall (.obj 503) [] 0 none,
        .PyObject_Vectorcall (.obj 701) [] 0 none,
        .PyObject_CallFunctionObjArgs (.obj 40)
          [.obj 2004, .obj 404, .tuple [.obj 4], .tuple [], .dict []]] ∧
    (dispatcher_vectorcall exInterp2 exHeap exDispatcherCallee [] 0 none exArgs0 exMeths0
      exWorld).1 = .error (.raised 1) :=
  ⟨rfl, rfl, rfl, rfl, rfl⟩

/-- C12: in the `like=` mode (no extractor) a call without positional argument fails with a
`TypeError`, and a call whose first positional argument has no `__array_function__` fails
with a `TypeError`; in both cases the state is the one on entry: no call into Python code
was made. -/
theorem C12_model_argument_errors {σ : Type} (rt : Interp σ) (h : Heap)
    (self : PyArray_ArrayFunctionDispatcherObject) (args : List PyValue)
    (kwnames : Option PyValue) (implementing_args : Nat → PyValue)
    (array_function_methods : Nat → Nat) (w : World σ)
    (hmode : self.relevant_arg_func = none) :
    dispatcher_vectorcall rt h self args 0 kwnames implementing_args
        array_function_methods w =
      (.error (.TypeErrorFormat
        "`like` argument dispatching, but first argument is not positional in call to %S."
        self.default_impl), w) ∧
    (∀ like rest nargs, args = like :: rest →
      (∀ m, get_array_function h like ≠ .ok (some m)) →
      dispatcher_vectorcall rt h self args (nargs + 1) kwnames implementing_args
          array_function_methods w =
        (.error (.TypeError ("The `like` argument must be an array-like that implements " ++
          "the `__array_function__` protocol.")), w)) := by
  constructor
  · unfold dispatcher_vectorcall
    simp only [hmode]
    rfl
  · intro like rest nargs ha hno
    unfold dispatcher_vectorcall
    simp only [hmode, ha]
    rcases hg : get_array_function h like with e | (_ | m)
    · rfl
    · rfl
    · exact absurd hg (hno m)

/-- C12 on the example graph: the dispatcher in the `like=` mode called without argument,
and called with the object 90, whose type has no `__array_function__`. -/
theorem C12_model_argument_errors_witness :
    dispatcher_vectorcall exInterp2 exHeap exDispatcherLike [] 0 none exArgs0 exMeths0 exWorld =
      (.error (.TypeErrorFormat
        "`like` argument dispatching, but first argument is not positional in call to %S."
        (.obj 600)), exWorld) ∧
    dispatcher_vectorcall exInterp2 exHeap exDispatcherLike [.obj 90, .obj 7] 2 none exArgs0
        exMeths0 exWorld =
      (.error (.TypeError ("The `like` argument must be an array-like that implements " ++
        "the `__array_function__` protocol.")), exWorld) :=
  ⟨(C12_model_argument_errors exInterp2 exHeap exDispatcherLike [] none exArgs0 exMeths0
      exWorld rfl).1,
    (C12_model_argument_errors exInterp2 exHeap exDispatcherLike [.obj 90, .obj 7] none exArgs0
      exMeths0 exWorld rfl).2 (.obj 90) [.obj 7] 1 rfl (fun m hm => by cases hm)⟩

/-- C13 at a failing input: in the `like=` mode the call `(like, 7, k=8)` with `like` the
object 20, whose method 2002 is not the baseline.  The arguments forwarded to the argument
packer are `(7, k=8)`, and the packed arguments are `(7,)` and `{k: 8}`, without `like`; but
they are not handed to the override: `dispatcher_vectorcall` never calls the method 2002,
it calls the object 20 with the method 2002 as first argument and returns what that call
returns.  With the baseline argument 50 the call is that of the default implementation
with `(7, k=8)`. -/
theorem C13_model_argument_stripped_failing_input :
    get_array_function exHeap (.obj 20) = .ok (some 2002) ∧
    is_default_array_function exHeap (.obj 2002) = false ∧
    (dispatcher_vectorcall exInterp2 exHeap exDispatcherLike [.obj 20, .obj 7, .obj 8] 2
        (some (.tuple [.obj 300])) exArgs0 exMeths0 exWorld).2.trace =
      [.PyObject_Vectorcall (.obj 701) [.obj 7, .obj 8] 1 (some (.tuple [.obj 300])),
        .PyObject_CallFunctionObjArgs (.obj 20)
          [.obj 2002, .obj 600, .tuple [.obj 2], .tuple [.obj 7],
            .dict [(.obj 300, .obj 8)]]] ∧
    (dispatcher_vectorcall exInterp2 exHeap exDispatcherLike [.obj 20, .obj 7, .obj 8] 2
        (some (.tuple [.obj 300])) exArgs0 exMeths0 exWorld).1 = .ok (.obj 42) ∧
    (invoke exInterp2 (.PyObject_CallFunctionObjArgs (.obj 2002)
      [.obj 20, .obj 600, .tuple [.obj 2], .tuple [.obj 7], .dict [(.obj 300, .obj 8)]])
      exWorld).1 = .ok .NotImplemented ∧
    dispatcher_vectorcall exInterp2 exHeap exDispatcherLike [.obj 50, .obj 7, .obj 8] 2
        (some (.tuple [.obj 300])) exArgs0 exMeths0 exWorld =
      invoke exInterp2 (.PyObject_Vectorcall (.obj 600) [.obj 7, .obj 8] 1
        (some (.tuple [.obj 300]))) exWorld :=
  ⟨rfl, rfl, rfl, rfl, rfl, rfl⟩

/-- C14: when `like` has no `__array_function__`, `array_implement_c_array_function_creation`
fails with the `TypeError` of the protocol, whatever the other arguments are; the `kwargs`
it leaves is the one it was given and the state is the one on entry, so nothing was
imported, resolved or invoked. -/
theorem C14_like_without_override {σ : Type} (rt : Interp σ) (h : Heap) (md : Module)
    (function_name : String) (like : PyValue) (args kwargs : Option PyValue)
    (fast_args : Option (List PyValue)) (len_args : Nat) (kwnames : Option PyValue)
    (implementing_args : Nat → PyValue) (array_function_methods : Nat → Nat) (w : World σ)
    (hno : ∀ m, get_array_function h like ≠ .ok (some m)) :
    array_implement_c_array_function_creation rt h md function_name like args kwargs fast_args
        len_args kwnames implementing_args array_function_methods w =
      some { result := .error (.TypeError ("The `like` argument must be an array-like that " ++
              "implements the `__array_function__` protocol."))
             kwargs := kwargs
             world := w } := by
  unfold array_implement_c_array_function_creation
  rcases hg : get_array_function h like with e | (_ | m)
  · rfl
  · rfl
  · exact absurd hg (hno m)

/-- C14 on the example graph: with `like` the object 90, whose type has no
`__array_function__`, the call fails and makes no call into Python code. -/
theorem C14_like_without_override_witness :
    (array_implement_c_array_function_creation exInterp2 exHeap exModule "zeros" (.obj 90)
      (some (.tuple [.obj 3])) (some (.dict [(.obj 1200, .obj 90)])) none 0 none exArgs0
      exMeths0 exWorld).map (fun o => (o.kwargs, o.world.trace)) =
        some (some (.dict [(.obj 1200, .obj 90)]), []) :=
  congrArg (Option.map (fun o => (o.kwargs, o.world.trace)))
    (C14_like_without_override exInterp2 exHeap exModule "zeros" (.obj 90)
      (some (.tuple [.obj 3])) (some (.dict [(.obj 1200, .obj 90)])) none 0 none exArgs0
      exMeths0 exWorld (fun m hm => by cases hm))

/-- C15: when `like` has an override and, after the conversion, the positional arguments are
`a` and the keyword mapping is the dict `entries`: if the first entry whose key is `like`
is `(k, v)`, between `pre` and `post`, the function leaves and passes on the dict
`pre ++ post`, and once `numpy` is imported and its attribute `function_name` is a
callable `public_api`, the result is that of the dispatch of `public_api` on the
one-element sequence `(like,)` with `a` and `pre ++ post`; in the normal calling
convention `a` and `entries` are the arguments given.  If no key is `like` the function
fails with `KeyError`, the dict as it was, and no call into Python code is made. -/
theorem C15_like_keyword_removed {σ : Type} (rt : Interp σ) (h : Heap) (md : Module)
    (function_name : String) (like : PyValue) (args kwargs : Option PyValue)
    (fast_args : Option (List PyValue)) (len_args : Nat) (kwnames : Option PyValue)
    (implementing_args : Nat → PyValue) (array_function_methods : Nat → Nat) (w : World σ)
    (m : Nat) (a : PyValue) (entries : List (PyValue × PyValue))
    (hlike : get_array_function h like = .ok (some m))
    (hconv : creation_convert md args kwargs fast_args len_args kwnames =
      (some a, some (.dict entries))) :
    (fast_args = none → args = some a ∧ kwargs = some (.dict entries)) ∧
    (∀ pre k v post, entries = pre ++ (k, v) :: post →
      md.same_key k md.npy_ma_str_like = true →
      (∀ e ∈ pre, md.same_key e.1 md.npy_ma_str_like = false) →
      array_implement_c_array_function_creation rt h md function_name like args kwargs
          fast_args len_args kwnames implementing_args array_function_methods w =
        some { result := (creation_resolve_and_dispatch rt h md function_name (.tuple [like]) a
                 (.dict (pre ++ post)) implementing_args array_function_methods w).1
               kwargs := some (.dict (pre ++ post))
               world := (creation_resolve_and_dispatch rt h md function_name (.tuple [like]) a
                 (.dict (pre ++ post)) implementing_args array_function_methods w).2 } ∧
      ∀ numpy_module public_api w1 w2,
        invoke rt (.PyImport_Import md.npy_ma_str_numpy) w = (.ok numpy_module, w1) →
        invoke rt (.PyObject_GetAttrString numpy_module function_name) w1 =
          (.ok public_api, w2) →
        md.PyCallable_Check public_api = true →
        creation_resolve_and_dispatch rt h md function_name (.tuple [like]) a
            (.dict (pre ++ post)) implementing_args array_function_methods w =
          array_implement_array_function_internal rt h public_api (.tuple [like]) a
            (.dict (pre ++ post)) implementing_args array_function_methods w2) ∧
    ((∀ e ∈ entries, md.same_key e.1 md.npy_ma_str_like = false) →
      array_implement_c_array_function_creation rt h md function_name like args kwargs
          fast_args len_args kwnames implementing_args array_function_methods w =
        some { result := .error (.KeyError md.npy_ma_str_like)
               kwargs := some (.dict entries)
               world := w }) := by
  refine ⟨?_, ?_, ?_⟩
  · intro hf
    subst hf
    simp only [creation_convert, Prod.mk.injEq] at hconv
    exact hconv
  · intro pre k v post he hk hpre
    constructor
    · unfold array_implement_c_array_function_creation
      simp only [hlike, hconv, he, PyDict_DelItem_present md pre post k v _ hk hpre]
    · intro numpy_module public_api w1 w2 h1 h2 hc
      unfold creation_resolve_and_dispatch
      simp only [h1, h2, hc, Bool.not_true, Bool.false_eq_true, if_false]
  · intro hno
    unfold array_implement_c_array_function_creation
    simp only [hlike, hconv, PyDict_DelItem_absent md entries _ hno]

/-- C15 on the example graph: the flattened call `zeros(3, dtype=9, like=20)`: the dispatch
gets `(3,)` and `{dtype: 9}`; without the keyword `like` the call fails with `KeyError`. -/
theorem C15_like_keyword_removed_witness :
    (array_implement_c_array_function_creation exInterp2 exHeap exModule "zeros" (.obj 20)
      none none (some [.obj 3, .obj 9, .obj 20]) 1 (some (.tuple [.obj 1300, .obj 1200]))
      exArgs0 exMeths0 exWorld).map (fun o => (o.kwargs, o.world.trace)) =
        some (some (.dict [(.obj 1300, .obj 9)]),
          [.PyImport_Import (.obj 1100), .PyObject_GetAttrString (.obj 1101) "zeros",
            .PyObject_CallFunctionObjArgs (.obj 2002)
              [.obj 20, .obj 1102, .tuple [.obj 2], .tuple [.obj 3],
                .dict [(.obj 1300, .obj 9)]],
            .PyObject_CallFunctionObjArgs (.obj 800) [.obj 1102, .tuple [.obj 2]]]) ∧
    (array_implement_c_array_function_creation exInterp2 exHeap exModule "zeros" (.obj 20)
      none none (some [.obj 3, .obj 9]) 1 (some (.tuple [.obj 1300]))
      exArgs0 exMeths0 exWorld).map (fun o => (o.kwargs, o.world.trace)) =
        some (some (.dict [(.obj 1300, .obj 9)]), []) :=
  ⟨congrArg (Option.map (fun o => (o.kwargs, o.world.trace)))
      ((C15_like_keyword_removed exInterp2 exHeap exModule "zeros" (.obj 20) none none
        (some [.obj 3, .obj 9, .obj 20]) 1 (some (.tuple [.obj 1300, .obj 1200])) exArgs0
        exMeths0 exWorld 2002 (.tuple [.obj 3]) [(.obj 1300, .obj 9), (.obj 1200, .obj 20)]
        rfl rfl).2.1 [(.obj 1300, .obj 9)] (.obj 1200) (.obj 20) [] rfl rfl
        (by
          intro e he
          simp only [List.mem_singleton] at he
          subst he
          rfl)).1,
    congrArg (Option.map (fun o => (o.kwargs, o.world.trace)))
      ((C15_like_keyword_removed exInterp2 exHeap exModule "zeros" (.obj 20) none none
        (some [.obj 3, .obj 9]) 1 (some (.tuple [.obj 1300])) exArgs0
        exMeths0 exWorld 2002 (.tuple [.obj 3]) [(.obj 1300, .obj 9)]
        rfl rfl).2.2
        (by
          intro e he
          simp only [List.mem_singleton] at he
          subst he
          rfl))⟩

/-- C16: `get_array_function` never raises: for every object it returns a method or `NULL`
with nothing pending, and a lookup that raised, whatever the error, gives `NULL` with
nothing pending, as does a lookup that found no attribute. -/
theorem C16_get_array_function_never_raises (h : Heap) (obj : PyValue) :
    (∃ r, get_array_function h obj = .ok r) ∧
    (∀ e, get_array_function h obj ≠ .error e) ∧
    (PyArray_CheckExact h obj = false → ∀ e, h.PyArray_LookupSpecial obj = .failed e →
      get_array_function h obj = .ok none) ∧
    (PyArray_CheckExact h obj = false → h.PyArray_LookupSpecial obj = .absent →
      get_array_function h obj = .ok none) := by
  have hok : ∃ r, get_array_function h obj = .ok r := by
    unfold get_array_function
    split
    · exact ⟨_, rfl⟩
    · split <;> exact ⟨_, rfl⟩
  refine ⟨hok, ?_, ?_, ?_⟩
  · intro e he
    obtain ⟨r, hr⟩ := hok
    rw [hr] at he
    cases he
  · intro hx e hl
    simp [get_array_function, hx, hl]
  · intro hx hl
    simp [get_array_function, hx, hl]

/-- C17 as stated fails: in the example graph attribute resolution raises on the object 110,
which is not an exact `ndarray`; the lookup returns `NULL` with nothing pending and the
collector succeeds, with that argument left out and the other one collected. -/
theorem C17_lookup_failure_counterexample :
    exHeapRaising.PyArray_LookupSpecial (.obj 110) = .failed (.raised 77) ∧
    PyArray_CheckExact exHeapRaising (.obj 110) = false ∧
    get_array_function exHeapRaising (.obj 110) = .ok none ∧
    (get_implementing_args_and_methods exHeapRaising [.obj 110, .obj 20] exArgs0 exMeths0).map
      Collected.args = .ok [.obj 20] :=
  ⟨rfl, rfl, rfl, rfl⟩

/-- C17 amended: every failure of the override lookup on an argument that is not an exact
`ndarray`, be it a missing attribute or an error raised during attribute resolution, makes
the argument non-participating: the collector gives the result it gives without that
argument, and the error of the lookup is never the error of the collector. -/
theorem C17_lookup_failure_swallowed (h : Heap) (pre post : List PyValue) (a : PyValue)
    (implementing_args : Nat → PyValue) (methods : Nat → Nat)
    (hx : PyArray_CheckExact h a = false)
    (hl : h.PyArray_LookupSpecial a = .absent ∨ ∃ e, h.PyArray_LookupSpecial a = .failed e) :
    get_implementing_args_and_methods h (pre ++ a :: post) implementing_args methods =
      get_implementing_args_and_methods h (pre ++ post) implementing_args methods ∧
    ∀ e, get_implementing_args_and_methods h (pre ++ a :: post) implementing_args methods =
      .error e → e = .TypeError (maxargs_message h) := by
  have hn : hasOverride h a = false := by
    rcases hl with hl | ⟨e, hl⟩
    · simp [hasOverride, get_array_function, hx, hl]
    · exact hasOverride_of_lookup_failed h a e hx hl
  refine ⟨loop_remove_non_participating h pre post a _ hn, ?_⟩
  intro e he
  exact collectL_error h _ [] e (giam_error_collectL h _ _ _ e he)

/-- C17 amended, on the example graph: the argument 110, whose lookup raises, can be dropped
from the input without changing the result. -/
theorem C17_lookup_failure_swallowed_witness :
    (get_implementing_args_and_methods exHeapRaising [.obj 40, .obj 110, .obj 20] exArgs0
      exMeths0).map Collected.args = .ok [.obj 40, .obj 20] ∧
    get_implementing_args_and_methods exHeapRaising [.obj 40, .obj 110, .obj 20] exArgs0
      exMeths0 =
    get_implementing_args_and_methods exHeapRaising [.obj 40, .obj 20] exArgs0 exMeths0 :=
  ⟨rfl, (C17_lookup_failure_swallowed exHeapRaising [.obj 40] [.obj 20] (.obj 110) exArgs0
    exMeths0 rfl (Or.inr ⟨.raised 77, rfl⟩)).1⟩

/-- C18: in extractor mode, when the result of the extractor cannot be realised as a
sequence, or the items have more than `NPY_MAXARGS` distinct exact types with an override,
the call fails with that error and the only call into Python code made is the one of the
extractor: neither an override nor the default implementation is invoked.  The same holds
for `array_implement_array_function_internal`, which then makes no call at all. -/
theorem C18_no_partial_dispatch {σ : Type} (rt : Interp σ) (h : Heap)
    (self : PyArray_ArrayFunctionDispatcherObject) (f : PyValue) (args : List PyValue)
    (nargs : Nat) (kwnames : Option PyValue) (implementing_args : Nat → PyValue)
    (array_function_methods : Nat → Nat) (w w1 : World σ) (relevant_args : PyValue)
    (hf : self.relevant_arg_func = some f)
    (hcall : invoke rt (.PyObject_Vectorcall f args nargs kwnames) w = (.ok relevant_args, w1)) :
    (∀ e w2, PySequence_Fast rt relevant_args
        "dispatcher for __array_function__ did not return an iterable" w1 = (.error e, w2) →
      dispatcher_vectorcall rt h self args nargs kwnames implementing_args
        array_function_methods w = (.error e, w2) ∧
      w2.trace = w.trace ++ [.PyObject_Vectorcall f args nargs kwnames]) ∧
    (∀ items w2, PySequence_Fast rt relevant_args
        "dispatcher for __array_function__ did not return an iterable" w1 = (.ok items, w2) →
      h.NPY_MAXARGS < (distinctOverrideTypes h items).card →
      dispatcher_vectorcall rt h self args nargs kwnames implementing_args
        array_function_methods w = (.error (.TypeError (maxargs_message h)), w2) ∧
      w2.trace = w.trace ++ [.PyObject_Vectorcall f args nargs kwnames]) ∧
    (∀ public_api args2 kwargs2 e w2, PySequence_Fast rt relevant_args
        "dispatcher for __array_function__ did not return an iterable" w1 = (.error e, w2) →
      array_implement_array_function_internal rt h public_api relevant_args args2 kwargs2
        implementing_args array_function_methods w1 = (.error e, w2) ∧ w2.trace = w1.trace) ∧
    (∀ public_api args2 kwargs2 items w2, PySequence_Fast rt relevant_args
        "dispatcher for __array_function__ did not return an iterable" w1 = (.ok items, w2) →
      h.NPY_MAXARGS < (distinctOverrideTypes h items).card →
      array_implement_array_function_internal rt h public_api relevant_args args2 kwargs2
        implementing_args array_function_methods w1 =
          (.error (.TypeError (maxargs_message h)), w2) ∧ w2.trace = w1.trace) := by
  have h1 : w1.trace = w.trace ++ [.PyObject_Vectorcall f args nargs kwnames] := by
    have := invoke_trace rt (.PyObject_Vectorcall f args nargs kwnames) w
    rw [hcall] at this
    exact this
  have h2 : ∀ (r : Except PyErr (List PyValue)) (w2 : World σ), PySequence_Fast rt relevant_args
      "dispatcher for __array_function__ did not return an iterable" w1 = (r, w2) →
      w2.trace = w1.trace := by
    intro r w2 hs
    have := PySequence_Fast_trace rt relevant_args
      "dispatcher for __array_function__ did not return an iterable" w1
    rw [hs] at this
    exact this
  refine ⟨?_, ?_, ?_, ?_⟩
  · intro e w2 hs
    refine ⟨?_, by rw [h2 _ _ hs, h1]⟩
    unfold dispatcher_vectorcall
    simp only [hf, hcall, hs]
  · intro items w2 hs hcap
    refine ⟨?_, by rw [h2 _ _ hs, h1]⟩
    unfold dispatcher_vectorcall
    simp only [hf, hcall, hs, giam_error_of_cap h items _ _ hcap]
  · intro public_api args2 kwargs2 e w2 hs
    refine ⟨?_, h2 _ _ hs⟩
    unfold array_implement_array_function_internal
    simp only [hs]
  · intro public_api args2 kwargs2 items w2 hs hcap
    refine ⟨?_, h2 _ _ hs⟩
    unfold array_implement_array_function_internal
    simp only [hs, giam_error_of_cap h items _ _ hcap]

/-- C18 on the example graph: an extractor that returns the object 5, which is not
iterable, and an extractor that returns four arguments of four types for buffers of three
entries; both calls fail after the one call of the extractor. -/
theorem C18_no_partial_dispatch_witness :
    dispatcher_vectorcall exInterp2 exHeap exDispatcherNotIterable [] 0 none exArgs0 exMeths0
        exWorld =
      (.error (.TypeError "dispatcher for __array_function__ did not return an iterable"),
        { state := (), trace := [.PyObject_Vectorcall (.obj 504) [] 0 none],
          argpacker := none }) ∧
    dispatcher_vectorcall exInterp2 exHeap exDispatcherBaseline [] 0 none exArgs0 exMeths0
        exWorld =
      (.error (.TypeError
        "maximum number (3) of distinct argument types implementing __array_function__ exceeded"),
        { state := (), trace := [.PyObject_Vectorcall (.obj 500) [] 0 none],
          argpacker := none }) :=
  ⟨((C18_no_partial_dispatch exInterp2 exHeap exDispatcherNotIterable (.obj 504) [] 0 none
      exArgs0 exMeths0 exWorld _ (.obj 5) rfl rfl).1 _ _ rfl).1,
    ((C18_no_partial_dispatch exInterp2 exHeap exDispatcherBaseline (.obj 500) [] 0 none
      exArgs0 exMeths0 exWorld _ (.tuple [.obj 50, .obj 60, .obj 70, .obj 80]) rfl rfl).2.1
      _ _ rfl (by decide)).1⟩

/-- C19: for a flattened call `(fast_args, len_args, kwnames)` with pairwise different
keyword names and as many values as names, the conversion gives the tuple of the first
`len_args` entries of `fast_args` and the dict that maps each `kwnames[i]` to
`fast_args[len_args + i]`, and the flattened call is recovered from that pair; with
`kwnames == NULL` the tuple is the same and `kwargs` stays `NULL`. -/
theorem C19_conversion_lossless (md : Module) (fast_args : List PyValue) (len_args : Nat)
    (names : List PyValue)
    (hlen : fast_args.length = len_args + names.length)
    (hdist : names.Pairwise (fun a b => md.same_key a b = false)) :
    creation_convert md none none (some fast_args) len_args (some (.tuple names)) =
      (some (.tuple (fast_args.take len_args)),
        some (.dict (names.zip (fast_args.drop len_args)))) ∧
    (∀ i (hi : i < names.length),
      (names.zip (fast_args.drop len_args))[i]? =
        some (names[i], fast_args.getD (len_args + i) (.obj 0))) ∧
    (names.zip (fast_args.drop len_args)).length = names.length ∧
    flatten_call (.tuple (fast_args.take len_args))
        (some (.dict (names.zip (fast_args.drop len_args)))) =
      (fast_args, len_args, some (.tuple names)) ∧
    (names = [] →
      creation_convert md none none (some fast_args) len_args none =
        (some (.tuple (fast_args.take len_args)), none) ∧
      flatten_call (.tuple (fast_args.take len_args)) none = (fast_args, len_args, none)) := by
  have hdrop : (fast_args.drop len_args).length = names.length := by
    rw [List.length_drop]
    omega
  have htake : (fast_args.take len_args).length = len_args := by
    rw [List.length_take]
    omega
  refine ⟨?_, ?_, ?_, ?_, ?_⟩
  · simp only [creation_convert, PyTuple_ITEMS]
    rw [creation_kwargs_loop_eq md fast_args len_args names 0 [] hdist (by simp) (by omega)]
    simp
  · intro i hi
    have h1 : i < (fast_args.drop len_args).length := by omega
    have h2 : len_args + i < fast_args.length := by omega
    rw [List.getElem?_eq_getElem (by rw [List.length_zip]; omega), List.getElem_zip,
      List.getD_eq_getElem _ _ h2]
    simp
  · rw [List.length_zip]
    omega
  · simp only [flatten_call]
    rw [List.map_snd_zip _ _ (by omega), List.map_fst_zip _ _ (by omega), htake,
      List.take_append_drop]
  · intro hn
    subst hn
    simp only [List.length_nil, Nat.add_zero] at hlen
    refine ⟨rfl, ?_⟩
    simp only [flatten_call]
    rw [List.take_of_length_le (by omega)]
    simp only [Prod.mk.injEq, true_and, and_true]
    exact hlen

/-- C19 on the example module: the flattened call `(3, like=20)` becomes `((3,), {like: 20})`. -/
theorem C19_conversion_lossless_witness :
    creation_convert exModule none none (some [.obj 3, .obj 20]) 1
        (some (.tuple [.obj 1200])) =
      (some (.tuple [.obj 3]), some (.dict [(.obj 1200, .obj 20)])) ∧
    flatten_call (.tuple [.obj 3]) (some (.dict [(.obj 1200, .obj 20)])) =
      ([.obj 3, .obj 20], 1, some (.tuple [.obj 1200])) :=
  ⟨(C19_conversion_lossless exModule [.obj 3, .obj 20] 1 [.obj 1200] rfl
      (List.pairwise_singleton _ _)).1,
    (C19_conversion_lossless exModule [.obj 3, .obj 20] 1 [.obj 1200] rfl
      (List.pairwise_singleton _ _)).2.2.2.1⟩

/-- C20: for an object whose exact type is `PyArray_Type`, `get_array_function` returns the
cached `ndarray.__array_function__` whatever attribute resolution would do on the object,
`is_default_array_function` recognises the returned method, and when attribute resolution
on the object yields that same method the fast return agrees with the generic lookup. -/
theorem C20_fast_path_baseline (h : Heap) (obj : PyValue)
    (hexact : PyArray_CheckExact h obj = true) :
    get_array_function h obj = .ok (some (get_ndarray_array_function h)) ∧
    (∀ lookup : PyValue → Lookup,
      get_array_function { h with PyArray_LookupSpecial := lookup } obj =
        .ok (some (get_ndarray_array_function h))) ∧
    is_default_array_function h (.obj (get_ndarray_array_function h)) = true ∧
    (h.PyArray_LookupSpecial obj = .found (get_ndarray_array_function h) →
      get_array_function h obj = get_array_function_generic h obj) := by
  have h1 : get_array_function h obj = .ok (some (get_ndarray_array_function h)) := by
    simp [get_array_function, hexact]
  refine ⟨h1, ?_, ?_, ?_⟩
  · intro lookup
    have hx : PyArray_CheckExact { h with PyArray_LookupSpecial := lookup } obj = true := hexact
    simp only [get_array_function, hx, if_true]
    rfl
  · simp [is_default_array_function]
  · intro hl
    rw [h1, get_array_function_generic, hl]

/-- C20 on the example graph: the object 1001 has the exact type 100, which is
`PyArray_Type`; the lookup returns the method 1000, the baseline. -/
theorem C20_fast_path_baseline_witness :
    get_array_function exHeap (.obj 1001) = .ok (some 1000) ∧
    is_default_array_function exHeap (.obj 1000) = true :=
  ⟨(C20_fast_path_baseline exHeap (.obj 1001) rfl).1,
    (C20_fast_path_baseline exHeap (.obj 1001) rfl).2.2.1⟩

/-- C21 at a failing input: the candidates collected from the objects 120 and 50 are 120, whose
method 2012 is not the baseline, and 50, whose method is the baseline; the types witness is
(12, 5), both subclasses of the array type, and `array_function_method_impl` applied to it
does not return `NotImplemented` but the result 901 of the implementation.  So
`array_implement_array_function_internal`, which invokes the baseline candidate after 120
deferred, returns 901, where `dispatcher_vectorcall`, which skips it, raises the
`TypeError` of the exhausted loop. -/
theorem C21_skip_baseline_failing_input :
    (get_implementing_args_and_methods exHeapSub [.obj 120, .obj 50] exArgs0 exMeths0).map
        (fun c => (c.args, c.meths)) = .ok ([.obj 120, .obj 50], [2012, 1000]) ∧
    is_default_array_function exHeapSub (.obj 2012) = false ∧
    is_default_array_function exHeapSub (.obj 1000) = true ∧
    (array_function_method_impl exInterpSub exHeapSub (.obj 407) (.tuple [.obj 12, .obj 5])
        (.tuple []) (.dict []) exWorld).1 = .ok (.obj 901) ∧
    (array_implement_array_function_internal exInterpSub exHeapSub (.obj 407)
        (.tuple [.obj 120, .obj 50]) (.tuple []) (.dict []) exArgs0 exMeths0 exWorld).1 =
      .ok (.obj 901) ∧
    (dispatcher_vectorcall exInterpSub exHeapSub exDispatcherSub [] 0 none exArgs0 exMeths0
        exWorld).1 = .error (.TypeErrorObject (.obj 801)) :=
  ⟨rfl, rfl, rfl, rfl, rfl, rfl⟩

/-- C22, counterexample: with an implementation that itself returns `NotImplemented`,
`array_function_method_impl` returns `NotImplemented` for the types 5 and 100, although
both are subclasses of the array type: the one call made is that of the implementation. -/
theorem C22_baseline_override_counterexample :
    (∀ t ∈ PySequence_Fast_ITEMS (.tuple [.obj 5, .obj 100]),
      exInterpDeferring.PyObject_IsSubclass t exHeap.PyArray_Type = .ok true) ∧
    array_function_method_impl exInterpDeferring exHeap (.obj 1) (.tuple [.obj 5, .obj 100])
        (.tuple []) (.dict []) exWorld =
      (.ok .NotImplemented,
        { state := ()
          trace := [.PyObject_Call (.obj 902) (.tuple []) (.dict [])]
          argpacker := none }) := by
  refine ⟨?_, rfl⟩
  intro t ht
  simp only [PySequence_Fast_ITEMS, List.mem_cons, List.mem_singleton, List.not_mem_nil,
    or_false] at ht
  rcases ht with rfl | rfl <;> rfl

/-- C22, amended: for `types` a tuple or a list with the items `items`, and with error-free
subclass checks, `array_function_method_impl` returns `NotImplemented` without calling
anything if and only if some item is not a subclass of the array type; otherwise its
outcome is that of fetching the attribute `_implementation` of `func` and calling it with
`args` and `kwargs` (an outcome that can itself be `NotImplemented`).  In every case the
calls it makes are at most that one call of the implementation, so `func` itself is not
called. -/
theorem C22_baseline_override {σ : Type} (rt : Interp σ) (h : Heap)
    (func types args kwargs : PyValue) (w : World σ) (items : List PyValue)
    (htypes : types = .tuple items ∨ types = .list items)
    (hfree : ∀ t ∈ items, ∃ b, rt.PyObject_IsSubclass t h.PyArray_Type = .ok b) :
    (((array_function_method_impl rt h func types args kwargs w).1 = .ok .NotImplemented ∧
        (array_function_method_impl rt h func types args kwargs w).2.trace = w.trace) ↔
      ∃ t ∈ items, rt.PyObject_IsSubclass t h.PyArray_Type = .ok false) ∧
    ((∃ t ∈ items, rt.PyObject_IsSubclass t h.PyArray_Type = .ok false) →
      array_function_method_impl rt h func types args kwargs w = (.ok .NotImplemented, w)) ∧
    ((∀ t ∈ items, rt.PyObject_IsSubclass t h.PyArray_Type = .ok true) →
      (∀ e, rt.getattr_implementation func = .error e →
        array_function_method_impl rt h func types args kwargs w = (.error e, w)) ∧
      (∀ implementation, rt.getattr_implementation func = .ok implementation →
        array_function_method_impl rt h func types args kwargs w =
          invoke rt (.PyObject_Call implementation args kwargs) w)) ∧
    (∃ calls, (array_function_method_impl rt h func types args kwargs w).2.trace =
        w.trace ++ calls ∧
      ∀ c ∈ calls, ∃ implementation, rt.getattr_implementation func = .ok implementation ∧
        c = .PyObject_Call implementation args kwargs) := by
  have hitems : PySequence_Fast_ITEMS types = items := by
    rcases htypes with rfl | rfl <;> rfl
  rw [← hitems] at hfree ⊢
  have hdefer := array_function_method_impl_defers rt h func types args kwargs w hfree
  have haccept := array_function_method_impl_accepts rt h func types args kwargs w
  refine ⟨⟨?_, fun hs => ?_⟩, hdefer, fun hall => ⟨fun e he => ?_, fun i hi => ?_⟩, ?_⟩
  · rintro ⟨hres, htr⟩
    rcases all_subclass_or_some_not rt h _ hfree with hall | hs
    · exfalso
      rw [haccept hall] at hres htr
      cases hg : rt.getattr_implementation func with
      | error e =>
        rw [hg] at hres
        cases hres
      | ok implementation =>
        rw [hg] at htr
        simp only [invoke_trace] at htr
        have := congrArg List.length htr
        simp at this
    · exact hs
  · rw [hdefer hs]
    exact ⟨rfl, rfl⟩
  · rw [haccept hall, he]
  · rw [haccept hall, hi]
  · rcases all_subclass_or_some_not rt h _ hfree with hall | hs
    · rw [haccept hall]
      cases hg : rt.getattr_implementation func with
      | error e => exact ⟨[], by simp, by simp⟩
      | ok implementation =>
        refine ⟨[.PyObject_Call implementation args kwargs], by simp [invoke_trace], ?_⟩
        intro c hc
        rw [List.mem_singleton] at hc
        exact ⟨implementation, rfl, hc⟩
    · rw [hdefer hs]
      exact ⟨[], by simp, by simp⟩

/-- C22 on the example graph: for the list of the types 5 and 2, of which 2 is not a
subclass of the array type, the baseline override returns `NotImplemented` and leaves the
world as it was; for the tuple of the types 5 and 100 its outcome is that of calling the
implementation 900. -/
theorem C22_baseline_override_witness :
    array_function_method_impl exInterp exHeap (.obj 1) (.list [.obj 5, .obj 2]) (.tuple [])
        (.dict []) exWorld = (.ok .NotImplemented, exWorld) ∧
    array_function_method_impl exInterp exHeap (.obj 1) (.tuple [.obj 5, .obj 100]) (.tuple [])
        (.dict []) exWorld =
      invoke exInterp (.PyObject_Call (.obj 900) (.tuple []) (.dict [])) exWorld :=
  ⟨(C22_baseline_override exInterp exHeap (.obj 1) (.list [.obj 5, .obj 2]) (.tuple [])
      (.dict []) exWorld [.obj 5, .obj 2] (Or.inr rfl) (fun _ _ => ⟨_, rfl⟩)).2.1
      ⟨.obj 2, List.mem_cons_of_mem _ (List.mem_cons_self _ _), rfl⟩,
    ((C22_baseline_override exInterp exHeap (.obj 1) (.tuple [.obj 5, .obj 100]) (.tuple [])
      (.dict []) exWorld [.obj 5, .obj 100] (Or.inl rfl) (fun _ _ => ⟨_, rfl⟩)).2.2.1
      (fun t ht => by
        simp only [List.mem_cons, List.mem_singleton, List.not_mem_nil, or_false] at ht
        rcases ht with rfl | rfl <;> rfl)).2 (.obj 900) rfl⟩

/-- C23: in every state that `get_implementing_args_and_methods` reaches, that is, in the
state `s` after any prefix `pre` of any input `pre ++ post`: the candidate count is at most
`NPY_MAXARGS`; `methods[j]` is the override looked up for `implementing_args[j]` for every
`j` below the count, the one count being the length of both buffers; the insertion index
computed for any next argument is at most the count; when the count is below `NPY_MAXARGS`,
every index that `pyobject_array_insert` writes at, in either buffer, is below `NPY_MAXARGS`,
and when it is not, a next argument that would be inserted ends the run with no write at
all; outside the indices it writes at, `pyobject_array_insert` leaves a buffer as it was;
and both buffers are, from index `NPY_MAXARGS` on, as they were on entry. -/
theorem C23_buffer_bounds (h : Heap) (pre : List PyValue) (implementing_args : Nat → PyValue)
    (methods : Nat → Nat) (s : Collected)
    (hs : get_implementing_args_and_methods h pre implementing_args methods = .ok s) :
    (∀ post, get_implementing_args_and_methods h (pre ++ post) implementing_args methods =
      get_implementing_args_and_methods_loop h post s) ∧
    s.num_implementing_args ≤ h.NPY_MAXARGS ∧
    (∀ j, j < s.num_implementing_args →
      get_array_function h (s.implementing_args j) = .ok (some (s.methods j))) ∧
    (∀ argument,
      arg_index h s.implementing_args s.num_implementing_args argument ≤
        s.num_implementing_args) ∧
    (∀ argument, s.num_implementing_args < h.NPY_MAXARGS →
      ∀ i ∈ pyobject_array_insert_writes s.num_implementing_args
        (arg_index h s.implementing_args s.num_implementing_args argument),
        i < h.NPY_MAXARGS) ∧
    (∀ argument method rest, h.NPY_MAXARGS ≤ s.num_implementing_args →
      new_class h s.implementing_args s.num_implementing_args argument = true →
      get_array_function h argument = .ok (some method) →
      get_implementing_args_and_methods_loop h (argument :: rest) s =
        .error (.TypeError (maxargs_message h))) ∧
    (∀ (array : Nat → PyValue) (marray : Nat → Nat) length index item method k,
      k ∉ pyobject_array_insert_writes length index →
      pyobject_array_insert array length index item k = array k ∧
        pyobject_array_insert marray length index method k = marray k) ∧
    (∀ k, h.NPY_MAXARGS ≤ k →
      s.implementing_args k = implementing_args k ∧ s.methods k = methods k) := by
  have hidx : ∀ argument,
      arg_index h s.implementing_args s.num_implementing_args argument ≤
        s.num_implementing_args := by
    intro argument
    rw [arg_index_eq_findIdx]
    have h2 : s.cands.findIdx
        (fun c : PyValue × Nat => h.PyObject_IsInstance argument (h.Py_TYPE c.1) != 0) ≤
          s.cands.length := List.findIdx_le_length _
    rw [cands_length] at h2
    exact h2
  refine ⟨?_, ?_, giam_methods h pre implementing_args methods s hs, hidx, ?_, ?_, ?_, ?_⟩
  · intro post
    unfold get_implementing_args_and_methods at hs ⊢
    rw [loop_append, hs]
  · rw [giam_num h pre implementing_args methods s hs]
    exact (giam_ok_iff h pre implementing_args methods).1 ⟨s, hs⟩
  · intro argument hcap i hi
    rw [mem_pyobject_array_insert_writes] at hi
    have := hidx argument
    omega
  · intro argument method rest hcap hnew hm
    rw [loop_cons, if_pos hnew, hm]
    simp only
    rw [if_pos hcap]
  · intro array marray length index item method k hk
    exact ⟨pyobject_array_insert_frame array length index item k hk,
      pyobject_array_insert_frame marray length index method k hk⟩
  · intro k hk
    exact loop_frame h pre _ s hs k hk

/-- C23 on the example graph (`NPY_MAXARGS = 3`), after the prefix 20, 30, 40 of an input:
the count is 3, so within the bound, and a fourth type ends the run without a write. -/
theorem C23_buffer_bounds_witness :
    (get_implementing_args_and_methods exHeap [.obj 20, .obj 30, .obj 40] exArgs0
        exMeths0).map (fun c => c.num_implementing_args) = .ok 3 ∧
    (3 : Nat) ≤ exHeap.NPY_MAXARGS ∧
    get_implementing_args_and_methods exHeap ([.obj 20, .obj 30, .obj 40] ++ [.obj 120])
        exArgs0 exMeths0 = .error (.TypeError (maxargs_message exHeap)) :=
  ⟨rfl,
    (C23_buffer_bounds exHeap [.obj 20, .obj 30, .obj 40] exArgs0 exMeths0 _ rfl).2.1,
    ((C23_buffer_bounds exHeap [.obj 20, .obj 30, .obj 40] exArgs0 exMeths0 _ rfl).1
      [.obj 120]).trans
      ((C23_buffer_bounds exHeap [.obj 20, .obj 30, .obj 40] exArgs0 exMeths0 _
        rfl).2.2.2.2.2.1 (.obj 120) 2012 [] (by decide) rfl rfl)⟩

/-- C25: `pyobject_array_insert` behaves like `list.insert`.  For every buffer, every
`length` and every `index ≤ length`, afterwards the first `length + 1` elements are the old
elements before `index`, then `item`, then the old elements from `index` onward in their
order; element by element: the ones before `index` are untouched, the one at `index` is
`item`, the ones after it up to `length` are the old ones one place earlier, and nothing
beyond `length` is touched. -/
theorem C25_insert_like_list_insert {α : Type} (array : Nat → α) (length index : Nat)
    (item : α) (hi : index ≤ length) :
    (List.range (length + 1)).map (pyobject_array_insert array length index item) =
        ((List.range length).map array).take index ++
          item :: ((List.range length).map array).drop index ∧
    (∀ k, k < index → pyobject_array_insert array length index item k = array k) ∧
    pyobject_array_insert array length index item index = item ∧
    (∀ k, index < k → k ≤ length →
      pyobject_array_insert array length index item k = array (k - 1)) ∧
    (∀ k, length < k → pyobject_array_insert array length index item k = array k) := by
  refine ⟨map_range_pyobject_array_insert array length index item hi, ?_, ?_, ?_, ?_⟩
  · intro k hk
    rw [pyobject_array_insert_apply]
    have h1 : ¬ k = index := by omega
    have h2 : ¬ (index < k ∧ k ≤ length) := by omega
    rw [if_neg h1, if_neg h2]
  · rw [pyobject_array_insert_apply, if_pos rfl]
  · intro k hk1 hk2
    rw [pyobject_array_insert_apply]
    have h1 : ¬ k = index := by omega
    rw [if_neg h1, if_pos ⟨hk1, hk2⟩]
  · intro k hk
    rw [pyobject_array_insert_apply]
    have h1 : ¬ k = index := by omega
    have h2 : ¬ (index < k ∧ k ≤ length) := by omega
    rw [if_neg h1, if_neg h2]

/-- C25 on the buffer 0, 10, 20, 30, ... with `length = 3`: inserting 99 at index 1 gives
0, 99, 10, 20, and the element at index 4 stays 40. -/
theorem C25_insert_like_list_insert_witness :
    (List.range 4).map (pyobject_array_insert (fun k => 10 * k) 3 1 99) = [0, 99, 10, 20] ∧
    pyobject_array_insert (fun k => 10 * k) 3 1 99 4 = 40 :=
  ⟨(C25_insert_like_list_insert (fun k => 10 * k) 3 1 99 (by decide)).1,
    (C25_insert_like_list_insert (fun k => 10 * k) 3 1 99 (by decide)).2.2.2.2 4 (by decide)⟩

end ArrayFunctionOverride
